import Mathlib

/-!
# farvcam: buffer routing, still capture and output sinks

A shallow embedding of `encoder_buffer_callback`, `splitter_buffer_callback`,
`encoder_buffer_callback_image`, `take_picture`, `cropRGB` and `open_filename` of
`host_applications/linux/apps/raspicam/farvcam.c` and of the state they work on.

Conventions of the embedding:

* every C `int` / `int64_t` is a Lean `Int`; `buffer->length` (a `uint32_t`) is a `Nat`;
  the C operators `/` and `%` are `Int.tdiv` and `Int.tmod` (truncation towards zero);
  all quantities are taken to lie in the range of their C type, so no sum overflows, and
  an `int` that is added to or compared with the unsigned `buffer->length` is taken to be
  non-negative, so that the conversion to unsigned changes nothing;
* a `char *` that designates a byte buffer is a function from the byte offset to the byte,
  so that a store past the end of an array is visible as a store at that offset;
* a `FILE *` is a natural number, `0` being `NULL`;
* the three function-local `static` variables of the callback are the record `Statics`;
* what the callback gets from its environment during one invocation (the clock, the results
  of `open_filename`, `fwrite`, `mmal_queue_get`, `mmal_port_send_buffer`) is the record `Env`;
* the calls it makes to the outside are returned as a list of `Event`s, in program order;
  `vcos_assert` and `mmal_buffer_header_mem_lock` / `mem_unlock` change nothing of the
  state kept here and are left out;
* the two loops take fuel; running out of fuel is `none`.
-/

namespace Farvcam

/-- A `FILE *`; `0` is `NULL`. -/
abbrev FILE := Nat

/-- The constant `#define IFRAME_BUFSIZE (60 * 1000)`. -/
def IFRAME_BUFSIZE : Int := 60 * 1000

/-- The constant `sizeof(pData->header_bytes)` for `char header_bytes[29]`. -/
def HEADER_BYTES_SIZE : Int := 29

/-- Modelled from the spec: the MMAL constant `MMAL_TIME_UNKNOWN` (declared in the MMAL
headers, `INT64_C(1) << 63`), the presentation timestamp of a chunk that has none. -/
def MMAL_TIME_UNKNOWN : Int := -(2 ^ 63)

/-- The fields of `MMAL_BUFFER_HEADER_T` the callbacks read. `data` holds the
`buffer->length` bytes of the chunk; each `flag_x` is the test
`buffer->flags & MMAL_BUFFER_HEADER_FLAG_X`. -/
structure MMAL_BUFFER_HEADER_T where
  data : List Nat
  flag_config : Bool
  flag_codecsideinfo : Bool
  flag_keyframe : Bool
  flag_frame_end : Bool
  flag_transmission_failed : Bool
  pts : Int

/-- The field `buffer->length`. -/
def MMAL_BUFFER_HEADER_T.length (buffer : MMAL_BUFFER_HEADER_T) : Nat :=
  buffer.data.length

/-- The fields of `RASPIVID_STATE` that `encoder_buffer_callback` reads or writes.
`filename` is `common_settings.filename`; a `char *` name is `none` when it is `NULL`. -/
structure RASPIVID_STATE where
  filename : Option (List Char)
  segmentSize : Int
  segmentWrap : Int
  segmentNumber : Int
  splitNow : Int
  splitWait : Int
  inlineMotionVectors : Int
  imv_filename : Option (List Char)
  pts_filename : Option (List Char)
  frame : Int
  save_pts : Int
  starttime : Int
  lasttime : Int

/-- The struct `PORT_USERDATA`. `cb_buff` is `none` when the pointer is `NULL`. -/
structure PORT_USERDATA where
  file_handle : FILE
  pstate : RASPIVID_STATE
  abort : Int
  cb_buff : Option (Int → Nat)
  cb_len : Int
  cb_wptr : Int
  cb_wrap : Int
  iframe_buff : Int → Int
  iframe_buff_wpos : Int
  iframe_buff_rpos : Int
  header_bytes : Int → Nat
  header_wptr : Int
  imv_file_handle : FILE
  flush_buffers : Int
  pts_file_handle : FILE

/-- The fields of `MMAL_PORT_T` the callback reads; `userdata` is `none` when it is `NULL`. -/
structure MMAL_PORT_T where
  userdata : Option PORT_USERDATA
  is_enabled : Bool

/-- The `static` locals of `encoder_buffer_callback`; all three start at `-1`. -/
structure Statics where
  base_time : Int
  last_second : Int
  frame_start : Int

/-- What one invocation of the callback obtains from outside: `time_first` is
`get_microseconds64() / 1000` of the initialisation of `base_time`, `time_now` the one of
`current_time`; `open_main`, `open_imv`, `open_pts` are what `open_filename` returns for the
primary, motion-vector and timestamp stream; `fwrite_ret` is what `fwrite` returns;
`queue_get` tells whether `mmal_queue_get` returned a buffer and `send_ok` whether
`mmal_port_send_buffer` returned `MMAL_SUCCESS`. -/
structure Env where
  time_first : Int
  time_now : Int
  open_main : FILE
  open_imv : FILE
  open_pts : FILE
  fwrite_ret : Nat
  queue_get : Bool
  send_ok : Bool

/-- The messages of `vcos_log_error` in `encoder_buffer_callback`. -/
inductive LogMsg where
  | error_in_header_bytes
  | error_in_iframe_list
  | failed_to_write (bytes_written : Int) (length : Nat)
  | no_state
  | unable_to_return_buffer
  deriving DecidableEq, Repr

/-- The calls the callback makes to the outside. -/
inductive Event where
  | vcos_log_error (msg : LogMsg)
  | open_filename (name : List Char) (segmentNumber : Int) (result : FILE)
  | fclose (h : FILE)
  | fwrite (h : FILE) (data : List Nat) (ret : Nat)
  | fflush (h : FILE)
  | fdatasync (h : FILE)
  | fprintf_pts (h : FILE) (seconds : Int) (millis : Int)
  | update_annotation_data
  | mmal_buffer_header_release
  | mmal_queue_get (got : Bool)
  | mmal_port_send_buffer (ok : Bool)
  | null_userdata_read
  deriving DecidableEq, Repr

/-- The call `memcpy(dst + off, src + start, n)`, `src` being the bytes of a chunk. -/
def memcpy (dst : Int → Nat) (off : Int) (src : List Nat) (start : Int) (n : Int) : Int → Nat :=
  fun a => if off ≤ a ∧ a < off + n then src.getD (start + (a - off)).toNat 0 else dst a

/-- The condition of the `while` at lines 896-901, for a chunk of `length` bytes. -/
def evict_cond (pData : PORT_USERDATA) (length : Nat) : Bool :=
  decide ((pData.cb_wptr ≤ pData.iframe_buff pData.iframe_buff_rpos ∧
      pData.cb_wptr + length > pData.iframe_buff pData.iframe_buff_rpos) ∨
    (pData.cb_wptr > pData.iframe_buff pData.iframe_buff_rpos ∧
      pData.cb_wptr + length > pData.iframe_buff pData.iframe_buff_rpos + pData.cb_len))

/-- The `while` loop of lines 896-902: as long as the condition holds the read position
moves on by one slot. `none` when the fuel is used up. -/
def evict_loop : Nat → PORT_USERDATA → Nat → Option PORT_USERDATA
  | 0, _, _ => none
  | fuel + 1, pData, length =>
    if evict_cond pData length then
      evict_loop fuel
        { pData with iframe_buff_rpos := (pData.iframe_buff_rpos + 1).tmod IFRAME_BUFSIZE } length
    else some pData

/-- The read position after `n` advances of the eviction scan that starts at `rpos`. -/
def rpos_after (rpos : Int) : Nat → Int
  | 0 => rpos
  | n + 1 => rpos_after ((rpos + 1).tmod IFRAME_BUFSIZE) n

/-- The test of line 919 on the four bytes at offset `p` of the ring. -/
def start_code_missing (cb_buff : Int → Nat) (p : Int) : Bool :=
  decide (cb_buff p ≠ 0 ∨ cb_buff (p + 1) ≠ 0 ∨ cb_buff (p + 2) ≠ 0 ∨ cb_buff (p + 3) ≠ 1)

/-- The `for` loop of lines 916-923 from index `i` on: one `Error in iframe list` per
queued offset at which the ring does not hold `00 00 00 01`. -/
def iframe_check : Nat → (Int → Nat) → PORT_USERDATA → Int → Option (List Event)
  | 0, _, _, _ => none
  | fuel + 1, cb_buff, pData, i =>
    if i ≠ pData.iframe_buff_wpos then
      (iframe_check fuel cb_buff pData ((i + 1).tmod IFRAME_BUFSIZE)).map
        (fun rest =>
          (if start_code_missing cb_buff (pData.iframe_buff i)
            then [Event.vcos_log_error LogMsg.error_in_iframe_list] else []) ++ rest)
    else some []

/-- The branch of lines 857-871: a `Config` chunk in circular mode. -/
def circular_config (pData : PORT_USERDATA) (buffer : MMAL_BUFFER_HEADER_T) :
    PORT_USERDATA × List Event :=
  if pData.header_wptr + buffer.length > HEADER_BYTES_SIZE then
    (pData, [Event.vcos_log_error LogMsg.error_in_header_bytes])
  else
    ({ pData with
        header_bytes := memcpy pData.header_bytes pData.header_wptr buffer.data 0 buffer.length
        header_wptr := pData.header_wptr + buffer.length }, [])

/-- Lines 881-891: the frame start is noted, a keyframe is pushed on the index, a frame end
resets the frame start. -/
def record_keyframe (pData : PORT_USERDATA) (buffer : MMAL_BUFFER_HEADER_T) (frame_start : Int) :
    PORT_USERDATA × Int :=
  let frame_start1 := if frame_start = -1 then pData.cb_wptr else frame_start
  let pData1 :=
    if buffer.flag_keyframe then
      { pData with
          iframe_buff := fun i => if i = pData.iframe_buff_wpos then frame_start1
            else pData.iframe_buff i
          iframe_buff_wpos := (pData.iframe_buff_wpos + 1).tmod IFRAME_BUFSIZE }
    else pData
  (pData1, if buffer.flag_frame_end then -1 else frame_start1)

/-- Lines 893-903: the scan that moves the read position of the index. -/
def evict (fuel : Nat) (pData : PORT_USERDATA) (length : Nat) : Option PORT_USERDATA :=
  if (pData.iframe_buff_rpos + 1).tmod IFRAME_BUFSIZE ≠ pData.iframe_buff_wpos then
    evict_loop fuel pData length
  else some pData

/-- Lines 853-855 and 905-909: the ring after the two `memcpy`, the tail part
`copy_to_end` at `cb_wptr` and the rest `copy_to_start` at offset 0. -/
def ring_bytes (cb_buff : Int → Nat) (pData : PORT_USERDATA) (buffer : MMAL_BUFFER_HEADER_T) :
    Int → Nat :=
  let space_in_buff := pData.cb_len - pData.cb_wptr
  let copy_to_end : Int := if space_in_buff > buffer.length then buffer.length else space_in_buff
  let copy_to_start : Int := buffer.length - copy_to_end
  memcpy (memcpy cb_buff pData.cb_wptr buffer.data 0 copy_to_end) 0 buffer.data
    copy_to_end copy_to_start

/-- Lines 905-914: the ring is written, then `cb_wrap` and `cb_wptr` are updated. -/
def ring_write (cb_buff : Int → Nat) (pData : PORT_USERDATA) (buffer : MMAL_BUFFER_HEADER_T) :
    PORT_USERDATA :=
  { pData with
      cb_buff := some (ring_bytes cb_buff pData buffer)
      cb_wrap := if pData.cb_wptr + buffer.length > pData.cb_len then 1 else pData.cb_wrap
      cb_wptr := (pData.cb_wptr + buffer.length).tmod pData.cb_len }

/-- The branch of lines 876-924: an ordinary chunk in circular mode. The result holds the
new context, the new value of the static `frame_start` and the messages logged. -/
def circular_ordinary (fuel : Nat) (cb_buff : Int → Nat) (pData : PORT_USERDATA)
    (buffer : MMAL_BUFFER_HEADER_T) (frame_start : Int) :
    Option (PORT_USERDATA × Int × List Event) :=
  match evict fuel (record_keyframe pData buffer frame_start).1 buffer.length with
  | none => none
  | some pData2 =>
    match iframe_check fuel (ring_bytes cb_buff pData2 buffer) (ring_write cb_buff pData2 buffer)
        pData2.iframe_buff_rpos with
    | none => none
    | some evs =>
      some (ring_write cb_buff pData2 buffer, (record_keyframe pData buffer frame_start).2, evs)

/-- Lines 851-925: circular mode (`cb_buff` not `NULL`). -/
def circular (fuel : Nat) (cb_buff : Int → Nat) (pData : PORT_USERDATA)
    (buffer : MMAL_BUFFER_HEADER_T) (frame_start : Int) :
    Option (PORT_USERDATA × Int × List Event) :=
  if buffer.flag_config then
    some ((circular_config pData buffer).1, frame_start, (circular_config pData buffer).2)
  else if buffer.flag_codecsideinfo then some (pData, frame_start, [])
  else circular_ordinary fuel cb_buff pData buffer frame_start

/-- The test of lines 932-934: is the segment rotated before this chunk? -/
def rotate_cond (pData : PORT_USERDATA) (buffer : MMAL_BUFFER_HEADER_T) (base_time : Int)
    (current_time : Int) : Bool :=
  buffer.flag_config &&
    ((decide (pData.pstate.segmentSize ≠ 0) &&
        decide (current_time > base_time + pData.pstate.segmentSize)) ||
      (decide (pData.pstate.splitWait ≠ 0) && decide (pData.pstate.splitNow ≠ 0)))

/-- Lines 941-945: the segment counter is incremented and wraps to 1 past the wrap point. -/
def next_segment (pstate : RASPIVID_STATE) : Int :=
  if pstate.segmentWrap ≠ 0 ∧ pstate.segmentNumber + 1 > pstate.segmentWrap then 1
  else pstate.segmentNumber + 1

/-- The guard of lines 947, 958 and 969: the name is set and does not begin with `-`. -/
def wants_open (name : Option (List Char)) : Bool :=
  match name with
  | none => false
  | some s => decide (s.head? ≠ some '-')

/-- One of the three blocks of lines 947-978: if the stream is to be reopened,
`open_filename` is called (it returns `result`); the old handle is closed and replaced only
when the result is not `NULL`. -/
def reopen (name : Option (List Char)) (segmentNumber : Int) (result : FILE) (old : FILE) :
    FILE × List Event :=
  if wants_open name then
    if result ≠ 0 then
      (result, [Event.open_filename (name.getD []) segmentNumber result, Event.fclose old])
    else (old, [Event.open_filename (name.getD []) segmentNumber result])
  else (old, [])

/-- Lines 936-978: the rotation itself. -/
def rotate (env : Env) (pData : PORT_USERDATA) : PORT_USERDATA × List Event :=
  let pstate1 : RASPIVID_STATE :=
    { pData.pstate with splitNow := 0, segmentNumber := next_segment pData.pstate }
  let r1 := reopen pstate1.filename pstate1.segmentNumber env.open_main pData.file_handle
  let r2 := reopen pstate1.imv_filename pstate1.segmentNumber env.open_imv pData.imv_file_handle
  let r3 := reopen pstate1.pts_filename pstate1.segmentNumber env.open_pts pData.pts_file_handle
  ({ pData with
      pstate := pstate1
      file_handle := r1.1
      imv_file_handle := r2.1
      pts_file_handle := r3.1 }, r1.2 ++ r2.2 ++ r3.2)

/-- Lines 1007-1019: the timestamp record of a chunk written to the primary sink. -/
def save_pts_record (pData : PORT_USERDATA) (buffer : MMAL_BUFFER_HEADER_T) :
    PORT_USERDATA × List Event :=
  if pData.pstate.save_pts ≠ 0 ∧ buffer.flag_config = false ∧ buffer.pts ≠ MMAL_TIME_UNKNOWN ∧
      buffer.pts ≠ pData.pstate.lasttime then
    let starttime1 := if pData.pstate.frame = 0 then buffer.pts else pData.pstate.starttime
    let pts := buffer.pts - starttime1
    ({ pData with
        pstate := { pData.pstate with
          starttime := starttime1
          lasttime := buffer.pts
          frame := pData.pstate.frame + 1 } },
      [Event.fprintf_pts pData.pts_file_handle (pts.tdiv 1000) (pts.tmod 1000)])
  else (pData, [])

/-- Lines 983-1020: the write of a chunk of non-zero length. The result holds the new
context, the value of `bytes_written` and the calls made. -/
def sink_write (env : Env) (pData : PORT_USERDATA) (buffer : MMAL_BUFFER_HEADER_T) :
    PORT_USERDATA × Int × List Event :=
  if buffer.flag_codecsideinfo then
    if pData.pstate.inlineMotionVectors ≠ 0 then
      (pData, env.fwrite_ret,
        [Event.fwrite pData.imv_file_handle buffer.data env.fwrite_ret] ++
          (if pData.flush_buffers ≠ 0 then [Event.fflush pData.imv_file_handle] else []))
    else (pData, buffer.length, [])
  else
    ((save_pts_record pData buffer).1, env.fwrite_ret,
      [Event.fwrite pData.file_handle buffer.data env.fwrite_ret] ++
        (if pData.flush_buffers ≠ 0 then
          [Event.fflush pData.file_handle, Event.fdatasync pData.file_handle] else []) ++
        (save_pts_record pData buffer).2)

/-- Lines 980-1029: the chunk is written if its length is not zero, and a write that did
not transfer `buffer->length` bytes sets `abort`. -/
def write_chunk (env : Env) (pData : PORT_USERDATA) (buffer : MMAL_BUFFER_HEADER_T) :
    PORT_USERDATA × List Event :=
  if buffer.length ≠ 0 then
    let w := sink_write env pData buffer
    if w.2.1 ≠ buffer.length then
      ({ w.1 with abort := 1 },
        w.2.2 ++ [Event.vcos_log_error (LogMsg.failed_to_write w.2.1 buffer.length)])
    else (w.1, w.2.2)
  else (pData, [])

/-- Lines 926-1030: direct-sink mode (`cb_buff` is `NULL`). The result holds the new
context, the new value of the static `base_time` and the calls made. -/
def direct_sink (env : Env) (pData : PORT_USERDATA) (buffer : MMAL_BUFFER_HEADER_T)
    (base_time : Int) (current_time : Int) : PORT_USERDATA × Int × List Event :=
  if rotate_cond pData buffer base_time current_time then
    ((write_chunk env (rotate env pData).1 buffer).1, current_time,
      (rotate env pData).2 ++ (write_chunk env (rotate env pData).1 buffer).2)
  else ((write_chunk env pData buffer).1, base_time, (write_chunk env pData buffer).2)

/-- Lines 1032-1037: the annotation is refreshed when the second has changed. -/
def annotation_tick (current_time : Int) (last_second : Int) : Int × List Event :=
  if current_time.tdiv 1000 ≠ last_second then
    (current_time.tdiv 1000, [Event.update_annotation_data])
  else (last_second, [])

/-- Lines 1044-1059: the buffer is released, and when the port is enabled a buffer of the
pool is sent back to it. With a `NULL` userdata the pool is reached through the null
pointer (`pData->pstate`), which ends the run. -/
def release_and_resubmit (env : Env) (port : MMAL_PORT_T) : List Event :=
  [Event.mmal_buffer_header_release] ++
    (if port.is_enabled then
      match port.userdata with
      | none => [Event.null_userdata_read]
      | some _ =>
        [Event.mmal_queue_get env.queue_get] ++
          (if env.queue_get then [Event.mmal_port_send_buffer env.send_ok] else []) ++
          (if !env.queue_get || !env.send_ok then
            [Event.vcos_log_error LogMsg.unable_to_return_buffer] else [])
    else [])

/-- The function `encoder_buffer_callback` (lines 827-1060). The result is the port with
the updated context, the updated statics and the calls made, in order; `none` when a loop
has used up the fuel. -/
def encoder_buffer_callback (fuel : Nat) (env : Env) (port : MMAL_PORT_T)
    (buffer : MMAL_BUFFER_HEADER_T) (statics : Statics) :
    Option (MMAL_PORT_T × Statics × List Event) :=
  let base_time := if statics.base_time = -1 then env.time_first else statics.base_time
  match port.userdata with
  | none =>
    some (port, { statics with base_time := base_time },
      [Event.vcos_log_error LogMsg.no_state] ++ release_and_resubmit env port)
  | some pData =>
    let current_time := env.time_now
    let tick := annotation_tick current_time statics.last_second
    match pData.cb_buff with
    | some cb_buff =>
      match circular fuel cb_buff pData buffer statics.frame_start with
      | none => none
      | some (pData1, frame_start1, evs) =>
        some ({ port with userdata := some pData1 },
          { base_time := base_time, last_second := tick.1, frame_start := frame_start1 },
          evs ++ tick.2 ++ release_and_resubmit env port)
    | none =>
      let r := direct_sink env pData buffer base_time current_time
      some ({ port with userdata := some r.1 },
        { base_time := r.2.1, last_second := tick.1, frame_start := statics.frame_start },
        r.2.2 ++ tick.2 ++ release_and_resubmit env port)

/-- The callback run on a sequence of deliveries, each with its own environment; the
calls of all invocations are collected in order. -/
def run_callbacks (fuel : Nat) :
    List (Env × MMAL_BUFFER_HEADER_T) → MMAL_PORT_T → Statics →
      Option (MMAL_PORT_T × Statics × List Event)
  | [], port, statics => some (port, statics, [])
  | (env, buffer) :: rest, port, statics =>
    match encoder_buffer_callback fuel env port buffer statics with
    | none => none
    | some (port1, statics1, evs) =>
      match run_callbacks fuel rest port1 statics1 with
      | none => none
      | some (port2, statics2, evs2) => some (port2, statics2, evs ++ evs2)

/-- The function `default_status` (lines 427-480) on the fields of `RASPIVID_STATE` kept
here: everything is zeroed, then `segmentNumber = 1`. -/
def default_status : RASPIVID_STATE :=
  { filename := none
    segmentSize := 0
    segmentWrap := 0
    segmentNumber := 1
    splitNow := 0
    splitWait := 0
    inlineMotionVectors := 0
    imv_filename := none
    pts_filename := none
    frame := 0
    save_pts := 0
    starttime := 0
    lasttime := 0 }

/-- A zeroed `PORT_USERDATA` (`(const PORT_USERDATA){0}`) whose `cb_buff` designates a
zeroed ring of `cb_len` bytes and whose primary sink is `file_handle`. -/
def zeroed_userdata (file_handle : FILE) (cb_buff : Option (Int → Nat)) (cb_len : Int) :
    PORT_USERDATA :=
  { file_handle := file_handle
    pstate := default_status
    abort := 0
    cb_buff := cb_buff
    cb_len := cb_len
    cb_wptr := 0
    cb_wrap := 0
    iframe_buff := fun _ => 0
    iframe_buff_wpos := 0
    iframe_buff_rpos := 0
    header_bytes := fun _ => 0
    header_wptr := 0
    imv_file_handle := 0
    flush_buffers := 0
    pts_file_handle := 0 }

/-- The statics before the first invocation. -/
def initial_statics : Statics :=
  { base_time := -1, last_second := -1, frame_start := -1 }

/-- An ordinary chunk (neither `Config` nor `SideInfo`) that ends a frame. -/
def frame_chunk (data : List Nat) (keyframe : Bool) : MMAL_BUFFER_HEADER_T :=
  { data := data
    flag_config := false
    flag_codecsideinfo := false
    flag_keyframe := keyframe
    flag_frame_end := true
    flag_transmission_failed := false
    pts := 0 }

/-- An environment in which every `fwrite` transfers `fwrite_ret` bytes, every
`open_filename` returns `opened`, and the pool always yields a buffer. -/
def plain_env (now : Int) (opened : FILE) (fwrite_ret : Nat) : Env :=
  { time_first := now
    time_now := now
    open_main := opened
    open_imv := opened
    open_pts := opened
    fwrite_ret := fwrite_ret
    queue_get := true
    send_ok := true }

/-- The unread-byte count that the ring state stands for: the capacity once `cb_wrap` is
set, the write cursor before. -/
def unread_bytes (pData : PORT_USERDATA) : Int :=
  if pData.cb_wrap ≠ 0 then pData.cb_len else pData.cb_wptr

/-- The context after the callback, when it returned and the port still has one. -/
def context_after (r : Option (MMAL_PORT_T × Statics × List Event)) : Option PORT_USERDATA :=
  match r with
  | some (port, _, _) => port.userdata
  | none => none

/-- The calls made by the callback, when it returned. -/
def events_after (r : Option (MMAL_PORT_T × Statics × List Event)) : List Event :=
  match r with
  | some (_, _, evs) => evs
  | none => []

/-- The statics after the callback, when it returned. -/
def statics_after (r : Option (MMAL_PORT_T × Statics × List Event)) : Option Statics :=
  match r with
  | some (_, statics, _) => some statics
  | none => none


/-- A port that is enabled and whose userdata is a zeroed context in circular mode, with a
zeroed ring of `cb_len` bytes. -/
def fresh_circular_port (cb_len : Int) : MMAL_PORT_T :=
  { userdata := some (zeroed_userdata 0 (some (fun _ => 0)) cb_len), is_enabled := true }

/-- Summary of the ring state after a run: `cb_wrap`, `cb_wptr` and the unread-byte count
they stand for. -/
def ring_summary (r : Option (MMAL_PORT_T × Statics × List Event)) : Option (Int × Int × Int) :=
  (context_after r).map (fun pData => (pData.cb_wrap, pData.cb_wptr, unread_bytes pData))

/-- Summary of the keyframe index after a run: read position, write position, the offset
stored at the read position and the four ring bytes at that offset. -/
def index_summary (r : Option (MMAL_PORT_T × Statics × List Event)) :
    Option (Int × Int × Int × List Nat) :=
  match context_after r with
  | none => none
  | some pData =>
    match pData.cb_buff with
    | none => none
    | some ring =>
      some (pData.iframe_buff_rpos, pData.iframe_buff_wpos,
        pData.iframe_buff pData.iframe_buff_rpos,
        [ring (pData.iframe_buff pData.iframe_buff_rpos),
          ring (pData.iframe_buff pData.iframe_buff_rpos + 1),
          ring (pData.iframe_buff pData.iframe_buff_rpos + 2),
          ring (pData.iframe_buff pData.iframe_buff_rpos + 3)])

/-- The value of the static `base_time` after lines 834-835: initialised from the clock
when it still holds `-1`. -/
def base_time_after_init (env : Env) (statics : Statics) : Int :=
  if statics.base_time = -1 then env.time_first else statics.base_time

/-- A port whose userdata is a zeroed context in direct-sink mode (`cb_buff` is `NULL`)
with the primary sink `file_handle` and the given run state. -/
def direct_port (file_handle : FILE) (pstate : RASPIVID_STATE) : MMAL_PORT_T :=
  { userdata := some { zeroed_userdata file_handle none 0 with pstate := pstate },
    is_enabled := true }

/-- A chunk with the `Config` flag only. -/
def config_chunk (data : List Nat) : MMAL_BUFFER_HEADER_T :=
  { data := data
    flag_config := true
    flag_codecsideinfo := false
    flag_keyframe := false
    flag_frame_end := false
    flag_transmission_failed := false
    pts := 0 }

/-- Summary of the segment state after a run: `segmentNumber`, `splitNow`, the static
`base_time` and the primary sink handle. -/
def segment_summary (r : Option (MMAL_PORT_T × Statics × List Event)) :
    Option (Int × Int × Int × FILE) :=
  match r with
  | some (port, statics, _) =>
    port.userdata.map (fun pData =>
      (pData.pstate.segmentNumber, pData.pstate.splitNow, statics.base_time, pData.file_handle))
  | none => none

/-- A run state that asks for a split at the next header: `splitWait` and `splitNow` set,
primary destination `out`. -/
def split_requested : RASPIVID_STATE :=
  { default_status with splitWait := 1, splitNow := 1, filename := some ['o', 'u', 't'] }

/-- Does this invocation rotate the segment? The test of lines 932-934 in the state the
callback finds (direct-sink mode, `base_time` initialised). -/
def rotates (env : Env) (port : MMAL_PORT_T) (buffer : MMAL_BUFFER_HEADER_T)
    (statics : Statics) : Bool :=
  match port.userdata with
  | some pData =>
    pData.cb_buff.isNone &&
      rotate_cond pData buffer (base_time_after_init env statics) env.time_now
  | none => false

/-- The number of invocations of a run that rotate the segment. -/
def rotation_count (fuel : Nat) :
    List (Env × MMAL_BUFFER_HEADER_T) → MMAL_PORT_T → Statics → Nat
  | [], _, _ => 0
  | (env, buffer) :: rest, port, statics =>
    (if rotates env port buffer statics then 1 else 0) +
      match encoder_buffer_callback fuel env port buffer statics with
      | none => 0
      | some (port1, statics1, _) => rotation_count fuel rest port1 statics1

/-- The number of entries the keyframe index stands for: the slots from the read position
up to the write position, modulo `IFRAME_BUFSIZE`. -/
def index_count (pData : PORT_USERDATA) : Int :=
  (pData.iframe_buff_wpos - pData.iframe_buff_rpos) % IFRAME_BUFSIZE

/-- A context in circular mode whose keyframe index is full: ring of 1000000 bytes, write
cursor at 480000, the slots 1 to 59999 hold the offsets 8, 16, ... of earlier keyframes,
the read position is 1 and the write position is 0. -/
def full_index_userdata : PORT_USERDATA :=
  { zeroed_userdata 0 (some (fun _ => 0)) 1000000 with
    cb_wptr := 480000
    iframe_buff := fun i => 8 * i
    iframe_buff_wpos := 0
    iframe_buff_rpos := 1 }

/-- Is this call a timestamp record (the `fprintf` of line 1017)? -/
def is_pts_record (e : Event) : Bool :=
  match e with
  | Event.fprintf_pts _ _ _ => true
  | _ => false

/-- The number of timestamp records among the calls. -/
def count_records (evs : List Event) : Nat :=
  (evs.filter is_pts_record).length

/-- Does the chunk carry a known timestamp to the primary sink: positive length, neither
`SideInfo` nor `Config`, timestamp not `MMAL_TIME_UNKNOWN`? -/
def pts_eligible (buffer : MMAL_BUFFER_HEADER_T) : Bool :=
  decide (buffer.length ≠ 0) && !buffer.flag_codecsideinfo && !buffer.flag_config &&
    decide (buffer.pts ≠ MMAL_TIME_UNKNOWN)

/-- The number of records the bookkeeping is to emit for a sequence of chunks when the last
recorded timestamp is `lasttime`: one for every eligible chunk whose timestamp differs from
the one recorded last. -/
def expected_records (lasttime : Int) : List MMAL_BUFFER_HEADER_T → Nat
  | [] => 0
  | buffer :: rest =>
    if pts_eligible buffer = true ∧ buffer.pts ≠ lasttime then
      1 + expected_records buffer.pts rest
    else expected_records lasttime rest

/-- The known timestamps carried by the eligible chunks of a sequence, in order. -/
def known_timestamps : List MMAL_BUFFER_HEADER_T → List Int
  | [] => []
  | buffer :: rest =>
    if pts_eligible buffer = true then buffer.pts :: known_timestamps rest
    else known_timestamps rest

/-- An ordinary chunk of one byte that ends a frame and carries the timestamp `pts`. -/
def stamped_chunk (pts : Int) : MMAL_BUFFER_HEADER_T :=
  { frame_chunk [7] false with pts := pts }

/-! ## Still capture: `encoder_buffer_callback_image` and `take_picture`

The destination buffer `data` is a function from the index to the byte; the `unsigned int`
fields are natural numbers. `complete_semaphore` is the count of the semaphore. The calls
and stores of the two functions are returned as a list of `ImageEvent`s. -/

/-- The fields of `PORT_USERDATA_IMAGE` that the still capture reads or writes. -/
structure PORT_USERDATA_IMAGE where
  complete_semaphore : Nat
  data : Nat → Nat
  bufferPosition : Nat
  startingOffset : Nat
  offset : Nat
  length : Nat
  lengthActual : Nat

/-- The splitter image port: its userdata (`none` when `NULL`) and `is_enabled`. -/
structure IMAGE_PORT where
  userdata : Option PORT_USERDATA_IMAGE
  is_enabled : Bool

/-- What one invocation of `encoder_buffer_callback_image` obtains from outside: whether
`mmal_queue_get` returned a buffer and whether `mmal_port_send_buffer` succeeded. -/
structure ImageEnv where
  queue_get : Bool
  send_ok : Bool

/-- The stores into the destination buffer and the calls made by
`encoder_buffer_callback_image` and `take_picture`. -/
inductive ImageEvent where
  | store (index : Nat) (byte : Nat)
  | printf_buffer_too_small
  | vcos_semaphore_post
  | log_no_state
  | mmal_buffer_header_release
  | mmal_queue_get (got : Bool)
  | mmal_port_send_buffer (ok : Bool)
  | log_unable_to_return_buffer
  | null_userdata_read
  | vcos_semaphore_create
  | printf_could_not_enable
  | mmal_port_enable
  | log_unable_to_get_buffer (q : Nat)
  | log_unable_to_send_buffer (q : Nat)
  | set_capture (ok : Bool)
  | log_failed_to_start_capture
  | vcos_semaphore_wait
  | vcos_semaphore_delete
  | write_lengthActual (value : Nat)
  | check_disable_port
  deriving DecidableEq, Repr

/-- The `for` loop of lines 2107-2126 over the bytes of the chunk still to be copied: a
byte is stored at `offset` while `offset < length`; at `offset >= length` the loop reports
the overflow and breaks. -/
def copy_loop : List Nat → PORT_USERDATA_IMAGE → PORT_USERDATA_IMAGE × List ImageEvent
  | [], pData => (pData, [])
  | byte :: rest, pData =>
    if pData.offset ≥ pData.length then (pData, [ImageEvent.printf_buffer_too_small])
    else
      ((copy_loop rest
          { pData with
            data := fun i => if i = pData.offset then byte else pData.data i
            offset := pData.offset + 1
            bufferPosition := pData.bufferPosition + 1 }).1,
        ImageEvent.store pData.offset byte ::
          (copy_loop rest
            { pData with
              data := fun i => if i = pData.offset then byte else pData.data i
              offset := pData.offset + 1
              bufferPosition := pData.bufferPosition + 1 }).2)

/-- Lines 2101-2153: the body of `encoder_buffer_callback_image` for a context that is
not `NULL`. -/
def image_chunk (pData : PORT_USERDATA_IMAGE) (buffer : MMAL_BUFFER_HEADER_T) :
    PORT_USERDATA_IMAGE × List ImageEvent :=
  if buffer.flag_frame_end || buffer.flag_transmission_failed then
    ({ (copy_loop buffer.data
          { pData with lengthActual := pData.lengthActual + buffer.length }).1 with
        complete_semaphore :=
          (copy_loop buffer.data
            { pData with lengthActual := pData.lengthActual + buffer.length }).1.complete_semaphore
            + 1 },
      (copy_loop buffer.data
          { pData with lengthActual := pData.lengthActual + buffer.length }).2 ++
        [ImageEvent.vcos_semaphore_post])
  else
    copy_loop buffer.data { pData with lengthActual := pData.lengthActual + buffer.length }

/-- Lines 2160-2175: the buffer is released, and when the port is enabled a buffer of the
image pool is sent back to it; with a `NULL` userdata the pool is reached through the
null pointer. -/
def image_release_and_resubmit (env : ImageEnv) (port : IMAGE_PORT) : List ImageEvent :=
  [ImageEvent.mmal_buffer_header_release] ++
    (if port.is_enabled then
      match port.userdata with
      | none => [ImageEvent.null_userdata_read]
      | some _ =>
        [ImageEvent.mmal_queue_get env.queue_get] ++
          (if env.queue_get then [ImageEvent.mmal_port_send_buffer env.send_ok] else []) ++
          (if !env.queue_get || !env.send_ok then
            [ImageEvent.log_unable_to_return_buffer] else [])
    else [])

/-- The function `encoder_buffer_callback_image` (lines 2092-2178). -/
def encoder_buffer_callback_image (env : ImageEnv) (port : IMAGE_PORT)
    (buffer : MMAL_BUFFER_HEADER_T) : IMAGE_PORT × List ImageEvent :=
  match port.userdata with
  | none => (port, [ImageEvent.log_no_state] ++ image_release_and_resubmit env port)
  | some pData =>
    ({ port with userdata := some (image_chunk pData buffer).1 },
      (image_chunk pData buffer).2 ++ image_release_and_resubmit env port)

/-- The callback run on a sequence of deliveries. -/
def run_image_callbacks :
    List (ImageEnv × MMAL_BUFFER_HEADER_T) → IMAGE_PORT → IMAGE_PORT × List ImageEvent
  | [], port => (port, [])
  | (env, buffer) :: rest, port =>
    ((run_image_callbacks rest (encoder_buffer_callback_image env port buffer).1).1,
      (encoder_buffer_callback_image env port buffer).2 ++
        (run_image_callbacks rest (encoder_buffer_callback_image env port buffer).1).2)

/-- What one call of `take_picture` obtains from outside: `pool` holds, for each buffer of
the image pool, whether `mmal_queue_get` returned it and whether `mmal_port_send_buffer`
succeeded; `capture_ok` tells whether setting `MMAL_PARAMETER_CAPTURE` succeeded;
`deliveries` are the chunks the producer hands to the callback before
`vcos_semaphore_wait` returns and `lengthActual` is read. -/
structure PictureEnv where
  pool : List (Bool × Bool)
  capture_ok : Bool
  deliveries : List (ImageEnv × MMAL_BUFFER_HEADER_T)

/-- The outcome of `take_picture`: the value returned (`none` when the call stays blocked
in `vcos_semaphore_wait`), the value written through `lengthActual` (`none` when nothing
is written), the port afterwards, the local `userdata` as it is before it is cleared, and
the stores and calls made. -/
structure PictureResult where
  status : Option Int
  lengthActual : Option Nat
  port : IMAGE_PORT
  userdata : PORT_USERDATA_IMAGE
  events : List ImageEvent

/-- The loop of lines 2314-2324: every buffer of the pool is handed to the port. -/
def prime_pool : List (Bool × Bool) → Nat → List ImageEvent
  | [], _ => []
  | (got, sent) :: rest, q =>
    [ImageEvent.mmal_queue_get got] ++
      (if got then [] else [ImageEvent.log_unable_to_get_buffer q]) ++
      [ImageEvent.mmal_port_send_buffer sent] ++
      (if sent then [] else [ImageEvent.log_unable_to_send_buffer q]) ++
      prime_pool rest (q + 1)

/-- The local `userdata` of `take_picture` after lines 2295-2304. -/
def fresh_image_userdata (preallocated_data : Nat → Nat) (length : Nat) :
    PORT_USERDATA_IMAGE :=
  { complete_semaphore := 0
    data := preallocated_data
    bufferPosition := 0
    startingOffset := 0
    offset := 0
    length := length
    lengthActual := 0 }

/-- The local `userdata` of `take_picture` when `vcos_semaphore_wait` is reached and the
deliveries of the environment have been handled by the callback on the enabled port. -/
def context_after_deliveries (env : PictureEnv) (preallocated_data : Nat → Nat)
    (length : Nat) : PORT_USERDATA_IMAGE :=
  ((run_image_callbacks env.deliveries
      { userdata := some (fresh_image_userdata preallocated_data length),
        is_enabled := true }).1.userdata).getD (fresh_image_userdata preallocated_data length)

/-- The function `take_picture` (lines 2274-2342) on the splitter image port. The port
userdata is set to the local `userdata` before `is_enabled` is tested; the status of
`mmal_port_enable` is not looked at and the port counts as enabled afterwards; the wait
returns when the semaphore has been posted, otherwise the call stays blocked. -/
def take_picture (env : PictureEnv) (port : IMAGE_PORT) (preallocated_data : Nat → Nat)
    (length : Nat) : PictureResult :=
  if port.is_enabled then
    { status := some (-1)
      lengthActual := none
      port := { port with userdata := some (fresh_image_userdata preallocated_data length) }
      userdata := fresh_image_userdata preallocated_data length
      events := [ImageEvent.vcos_semaphore_create, ImageEvent.printf_could_not_enable] }
  else if env.capture_ok = false then
    { status := some (-1)
      lengthActual := none
      port := { userdata := some (fresh_image_userdata preallocated_data length),
                is_enabled := true }
      userdata := fresh_image_userdata preallocated_data length
      events := [ImageEvent.vcos_semaphore_create, ImageEvent.mmal_port_enable] ++
        prime_pool env.pool 0 ++
        [ImageEvent.set_capture false, ImageEvent.log_failed_to_start_capture] }
  else if (context_after_deliveries env preallocated_data length).complete_semaphore = 0 then
    { status := none
      lengthActual := none
      port := { userdata := some (context_after_deliveries env preallocated_data length),
                is_enabled := true }
      userdata := context_after_deliveries env preallocated_data length
      events := [ImageEvent.vcos_semaphore_create, ImageEvent.mmal_port_enable] ++
        prime_pool env.pool 0 ++ [ImageEvent.set_capture true] ++
        (run_image_callbacks env.deliveries
          { userdata := some (fresh_image_userdata preallocated_data length),
            is_enabled := true }).2 }
  else
    { status := some 0
      lengthActual := some (context_after_deliveries env preallocated_data length).lengthActual
      port := { userdata := none, is_enabled := false }
      userdata :=
        { context_after_deliveries env preallocated_data length with
          complete_semaphore :=
            (context_after_deliveries env preallocated_data length).complete_semaphore - 1 }
      events := [ImageEvent.vcos_semaphore_create, ImageEvent.mmal_port_enable] ++
        prime_pool env.pool 0 ++ [ImageEvent.set_capture true] ++
        (run_image_callbacks env.deliveries
          { userdata := some (fresh_image_userdata preallocated_data length),
            is_enabled := true }).2 ++
        [ImageEvent.vcos_semaphore_wait, ImageEvent.vcos_semaphore_delete,
          ImageEvent.write_lengthActual
            (context_after_deliveries env preallocated_data length).lengthActual,
          ImageEvent.check_disable_port] }

/-- The total length of the chunks of a sequence of deliveries. -/
def total_length : List (ImageEnv × MMAL_BUFFER_HEADER_T) → Nat
  | [] => 0
  | (_, buffer) :: rest => buffer.length + total_length rest

/-- The number of chunks of a sequence that carry `FrameEnd` or `TransmissionFailed`. -/
def completing_chunks : List (ImageEnv × MMAL_BUFFER_HEADER_T) → Nat
  | [] => 0
  | (_, buffer) :: rest =>
    (if buffer.flag_frame_end || buffer.flag_transmission_failed then 1 else 0) +
      completing_chunks rest

/-- The number of `vcos_semaphore_post` among the calls. -/
def count_posts (evs : List ImageEvent) : Nat :=
  (evs.filter (fun e => decide (e = ImageEvent.vcos_semaphore_post))).length

/-- An environment of the image callback in which the pool yields a buffer. -/
def image_env : ImageEnv :=
  { queue_get := true, send_ok := true }

/-- A chunk of the still image; `last` sets the `FrameEnd` flag. -/
def image_buffer (data : List Nat) (last : Bool) : MMAL_BUFFER_HEADER_T :=
  { data := data
    flag_config := false
    flag_codecsideinfo := false
    flag_keyframe := false
    flag_frame_end := last
    flag_transmission_failed := false
    pts := 0 }

/-- Summary of a `take_picture` outcome: the value returned, the value written through
`lengthActual`, the final `offset` (bytes stored) and the first four destination bytes. -/
def picture_summary (r : PictureResult) : Option Int × Option Nat × Nat × List Nat :=
  (r.status, r.lengthActual, r.userdata.offset,
    [r.userdata.data 0, r.userdata.data 1, r.userdata.data 2, r.userdata.data 3])

/-! ## Output sink resolution: `open_filename`

Names are lists of characters. The C library is part of the environment: `asprintf` is
given by the functions `format_int` and `asprintf_scan` below for the formats made of
plain text, `%%` and one `%d`, `%i` or `%u` conversion with the flags `-` and `0` and a
width; `strftime`, `sscanf`, `inet_aton`, the socket calls, `fdopen` and `fopen` are the
record `OpenEnv`. Messages written to `stderr` are left out. -/

/-- The C library conversion of an `int` under `%d` with the flags `-` (`left`) and `0`
(`zero`) and the minimum field width `width`. -/
def format_int (left : Bool) (zero : Bool) (width : Nat) (n : Int) : List Char :=
  if left then
    (if n < 0 then ['-'] else []) ++ Nat.toDigits 10 n.natAbs ++
      List.replicate
        (width - ((if n < 0 then 1 else 0) + (Nat.toDigits 10 n.natAbs).length))
        (Char.ofNat 32)
  else if zero then
    (if n < 0 then ['-'] else []) ++
      List.replicate
        (width - ((if n < 0 then 1 else 0) + (Nat.toDigits 10 n.natAbs).length)) '0' ++
      Nat.toDigits 10 n.natAbs
  else
    List.replicate
        (width - ((if n < 0 then 1 else 0) + (Nat.toDigits 10 n.natAbs).length))
        (Char.ofNat 32) ++
      (if n < 0 then ['-'] else []) ++ Nat.toDigits 10 n.natAbs

/-- Where the scan of a `printf` format stands: in plain text, after `%` among the flags,
or in the digits of the field width. -/
inductive FormatState where
  | text
  | flags (left : Bool) (zero : Bool)
  | width (left : Bool) (zero : Bool) (w : Nat)

/-- The C library function `asprintf` with one `int` argument, character by character;
`arg` is the argument while it has not been consumed. `none` for a format outside the
part described here: a conversion other than `%d`, `%i`, `%u`, `%%`, a second
conversion that takes an argument, a format that ends inside a conversion. -/
def asprintf_scan : List Char → FormatState → Option Int → Option (List Char)
  | [], FormatState.text, _ => some []
  | [], FormatState.flags _ _, _ => none
  | [], FormatState.width _ _ _, _ => none
  | c :: cs, FormatState.text, arg =>
    if c = '%' then asprintf_scan cs (FormatState.flags false false) arg
    else (asprintf_scan cs FormatState.text arg).map (fun out => c :: out)
  | c :: cs, FormatState.flags left zero, arg =>
    if c = '-' then asprintf_scan cs (FormatState.flags true zero) arg
    else if c = '0' then asprintf_scan cs (FormatState.flags left true) arg
    else if c.isDigit then asprintf_scan cs (FormatState.width left zero (c.toNat - 48)) arg
    else if c = 'd' ∨ c = 'i' then
      match arg with
      | some n =>
        (asprintf_scan cs FormatState.text none).map (fun out => format_int left zero 0 n ++ out)
      | none => none
    else if c = 'u' then
      match arg with
      | some n =>
        (asprintf_scan cs FormatState.text none).map
          (fun out => format_int left zero 0 (n % 2 ^ 32) ++ out)
      | none => none
    else if c = '%' ∧ left = false ∧ zero = false then
      (asprintf_scan cs FormatState.text arg).map (fun out => '%' :: out)
    else none
  | c :: cs, FormatState.width left zero w, arg =>
    if c.isDigit then
      asprintf_scan cs (FormatState.width left zero (10 * w + (c.toNat - 48))) arg
    else if c = 'd' ∨ c = 'i' then
      match arg with
      | some n =>
        (asprintf_scan cs FormatState.text none).map (fun out => format_int left zero w n ++ out)
      | none => none
    else if c = 'u' then
      match arg with
      | some n =>
        (asprintf_scan cs FormatState.text none).map
          (fun out => format_int left zero w (n % 2 ^ 32) ++ out)
      | none => none
    else none

/-- The call `asprintf(&tempname, filename, pState->segmentNumber)`. -/
def asprintf (format : List Char) (segmentNumber : Int) : Option (List Char) :=
  asprintf_scan format FormatState.text (some segmentNumber)

/-- Lines 603-611: is the name taken as segment-numbered? The first `%` is looked up, the
digits after it are skipped, and the next character is tested for `u` or `d`. -/
def bSegmentNumber (filename : List Char) : Bool :=
  match filename.dropWhile (fun c => c ≠ '%') with
  | [] => false
  | _ :: afterPercent =>
    match afterPercent.dropWhile Char.isDigit with
    | [] => false
    | c :: _ => decide (c = 'u' ∨ c = 'd')

/-- What `open_filename` obtains from outside. `strftime` gives the text left in
`temp_ts_str` for a pattern; `sscanf_port` is the port read by `sscanf(colon + 1, "%hu")`,
`none` when it reads none; `inet_aton` tells whether the host is a valid address;
`socket_fd` is what `socket` returns; every call that is repeated on `EINTR` has the number
of interrupted attempts and the result of the last attempt; `fdopen` and `fopen` give the
handle they return (`0` for `NULL`). -/
structure OpenEnv where
  strftime : List Char → List Char
  sscanf_port : List Char → Option Nat
  inet_aton : List Char → Bool
  socket_fd : Int
  connect_interrupts : Nat
  connect_ret : Int
  bind_ret : Int
  listen_interrupts : Nat
  listen_ret : Int
  accept_interrupts : Nat
  accept_fd : Int
  fdopen : Int → FILE
  fopen : List Char → FILE

/-- The system calls made by `open_filename`. `interrupted` marks an attempt that failed
with `EINTR`. -/
inductive OpenEvent where
  | socket (fd : Int)
  | setsockopt (fd : Int)
  | bind (ret : Int)
  | listen_interrupted
  | listen (ret : Int)
  | accept_interrupted
  | accept (fd : Int)
  | connect_interrupted
  | connect (ret : Int)
  | close (fd : Int)
  | fdopen (fd : Int) (handle : FILE)
  | fopen (name : List Char) (handle : FILE)
  deriving DecidableEq, Repr

/-- How `open_filename` ends: it returns a handle (`0` for `NULL`) or ends the process
with `exit(code)`. -/
inductive OpenOutcome where
  | returned (new_handle : FILE)
  | exited (code : Nat)
  deriving DecidableEq, Repr

/-- Lines 597-627: the name after the expansion with the segment number or the time. -/
def expand_name (pState : RASPIVID_STATE) (env : OpenEnv) (filename : List Char) :
    Option (List Char) :=
  if pState.segmentSize ≠ 0 ∨ pState.splitWait ≠ 0 then
    if bSegmentNumber filename then asprintf filename pState.segmentNumber
    else some (env.strftime filename)
  else some filename

/-- Lines 682-723: the sink of a listening TCP server. The result is `sfd` and the calls. -/
def listen_socket (env : OpenEnv) : Int × List OpenEvent :=
  if env.socket_fd ≥ 0 then
    if env.bind_ret ≥ 0 then
      if env.listen_ret ≠ -1 then
        (env.accept_fd,
          [OpenEvent.socket env.socket_fd, OpenEvent.setsockopt env.socket_fd,
            OpenEvent.bind env.bind_ret] ++
          List.replicate env.listen_interrupts OpenEvent.listen_interrupted ++
          [OpenEvent.listen env.listen_ret] ++
          List.replicate env.accept_interrupts OpenEvent.accept_interrupted ++
          [OpenEvent.accept env.accept_fd, OpenEvent.close env.socket_fd])
      else
        (-1,
          [OpenEvent.socket env.socket_fd, OpenEvent.setsockopt env.socket_fd,
            OpenEvent.bind env.bind_ret] ++
          List.replicate env.listen_interrupts OpenEvent.listen_interrupted ++
          [OpenEvent.listen env.listen_ret, OpenEvent.close env.socket_fd])
    else
      (-1,
        [OpenEvent.socket env.socket_fd, OpenEvent.setsockopt env.socket_fd,
          OpenEvent.bind env.bind_ret, OpenEvent.close env.socket_fd])
  else (-1, [OpenEvent.socket env.socket_fd])

/-- Lines 724-741: the sink of a client. The descriptor returned by `socket` is kept as
`sfd` whatever `connect` returns. -/
def client_socket (env : OpenEnv) : Int × List OpenEvent :=
  if 0 ≤ env.socket_fd then
    (env.socket_fd,
      [OpenEvent.socket env.socket_fd] ++
        List.replicate env.connect_interrupts OpenEvent.connect_interrupted ++
        [OpenEvent.connect env.connect_ret])
  else (env.socket_fd, [OpenEvent.socket env.socket_fd])

/-- Lines 648-746: a network name, the scheme already removed. The host and the port are
checked, the socket is set up, and `fdopen` is called when `sfd >= 0`. -/
def open_network (netListen : Bool) (env : OpenEnv) (address : List Char) :
    OpenOutcome × List OpenEvent :=
  match address.dropWhile (fun c => c ≠ ':') with
  | [] => (OpenOutcome.exited 132, [])
  | _ :: afterColon =>
    match env.sscanf_port afterColon with
    | none => (OpenOutcome.exited 133, [])
    | some _ =>
      if env.inet_aton (address.takeWhile (fun c => c ≠ ':')) = false then
        (OpenOutcome.exited 134, [])
      else if netListen then
        if (listen_socket env).1 ≥ 0 then
          (OpenOutcome.returned (env.fdopen (listen_socket env).1),
            (listen_socket env).2 ++
              [OpenEvent.fdopen (listen_socket env).1 (env.fdopen (listen_socket env).1)])
        else (OpenOutcome.returned 0, (listen_socket env).2)
      else
        if (client_socket env).1 ≥ 0 then
          (OpenOutcome.returned (env.fdopen (client_socket env).1),
            (client_socket env).2 ++
              [OpenEvent.fdopen (client_socket env).1 (env.fdopen (client_socket env).1)])
        else (OpenOutcome.returned 0, (client_socket env).2)

/-- Lines 629-752: the expanded name is opened, as a TCP or UDP sink when it begins with
`tcp://` or `udp://`, as a local file otherwise. -/
def open_name (netListen : Bool) (env : OpenEnv) (name : List Char) :
    OpenOutcome × List OpenEvent :=
  if name.take 6 = ['t', 'c', 'p', ':', '/', '/'] then open_network netListen env (name.drop 6)
  else if name.take 6 = ['u', 'd', 'p', ':', '/', '/'] then
    if netListen then (OpenOutcome.exited 131, [])
    else open_network netListen env (name.drop 6)
  else (OpenOutcome.returned (env.fopen name), [OpenEvent.fopen name (env.fopen name)])

/-- The function `open_filename` (lines 592-765) for a name that is not `NULL`;
`netListen` is the field `pState->netListen`. The result is `none` when the format handed
to `asprintf` lies outside the part of `asprintf_scan`. -/
def open_filename (pState : RASPIVID_STATE) (netListen : Bool) (env : OpenEnv)
    (filename : List Char) : Option (OpenOutcome × List OpenEvent) :=
  (expand_name pState env filename).map (fun name => open_name netListen env name)

/-- The number `N` written by the digits of a field width. -/
def decimal_value (digits : List Char) : Nat :=
  digits.foldl (fun acc c => 10 * acc + (c.toNat - 48)) 0

/-- The decimal digits of `n`, left-padded with zeros to at least `width` digits. -/
def zero_padded (width : Nat) (n : Nat) : List Char :=
  List.replicate (width - (Nat.toDigits 10 n).length) '0' ++ Nat.toDigits 10 n

/-- An environment of `open_filename` in which `socket` returns the descriptor 5,
`connect` returns `connect_ret`, and `fdopen` and `fopen` return a handle. -/
def socket_env (connect_ret : Int) : OpenEnv :=
  { strftime := fun pattern => pattern
    sscanf_port := fun _ => some 5000
    inet_aton := fun _ => true
    socket_fd := 5
    connect_interrupts := 0
    connect_ret := connect_ret
    bind_ret := 0
    listen_interrupts := 0
    listen_ret := 0
    accept_interrupts := 0
    accept_fd := 6
    fdopen := fun fd => fd.toNat + 100
    fopen := fun _ => 9 }

/-- The name `clip_%04d.h264`. -/
def clip_pattern : List Char :=
  ['c', 'l', 'i', 'p', '_', '%', '0', '4', 'd', '.', 'h', '2', '6', '4']

/-- The name `tcp://127.0.0.1:5000`. -/
def tcp_destination : List Char :=
  ['t', 'c', 'p', ':', '/', '/', '1', '2', '7', '.', '0', '.', '0', '.', '1', ':',
    '5', '0', '0', '0']

/-- Is this call one of the three calls of lines 1044-1055 on the buffer pool: the
release of the delivered buffer, the request of a free buffer, its resubmission? -/
def is_pool_call (e : Event) : Bool :=
  match e with
  | Event.mmal_buffer_header_release => true
  | Event.mmal_queue_get _ => true
  | Event.mmal_port_send_buffer _ => true
  | _ => false

/-- The calls on the buffer pool among the calls of an invocation, in order. -/
def pool_calls (evs : List Event) : List Event :=
  evs.filter is_pool_call

/-- The number of bytes appended by a run of deliveries: the sum of the chunk lengths. -/
def appended_bytes : List (Env × MMAL_BUFFER_HEADER_T) → Nat
  | [] => 0
  | (_, buffer) :: rest => buffer.length + appended_bytes rest

/-- A run of three ordinary chunks for a ring of 8 bytes: a keyframe of 6 bytes, then
1 byte and 3 bytes of further frames. -/
def cursor_run : List (Env × MMAL_BUFFER_HEADER_T) :=
  [(plain_env 5 0 0, frame_chunk [0, 0, 0, 1, 170, 187] true),
    (plain_env 5 0 0, frame_chunk [7] false),
    (plain_env 5 0 0, frame_chunk [1, 2, 3] false)]

/-- A context in circular mode (ring of 16 bytes, write cursor at 12) whose keyframe index
holds two entries, the offsets 0 and 8, between the read position 0 and the write
position 2; every other slot still holds its initial 0. -/
def two_entry_userdata : PORT_USERDATA :=
  { zeroed_userdata 0 (some (fun _ => 0)) 16 with
    cb_wptr := 12
    iframe_buff := fun i => if i = 1 then 8 else 0
    iframe_buff_wpos := 2 }

/-- A context in circular mode (ring of 16 bytes, write cursor at 14) whose keyframe index
holds two entries, the offsets 0 and 2 at the slots 59997 and 59998, between the read
position 59997 and the write position 59999; the slot 59999 has never been used and holds
0, the slots before 59997 hold the offset 8 of keyframes evicted earlier. -/
def late_index_userdata : PORT_USERDATA :=
  { zeroed_userdata 0 (some (fun _ => 0)) 16 with
    cb_wptr := 14
    iframe_buff := fun i =>
      if i = 59997 then 0 else if i = 59998 then 2 else if i = 59999 then 0 else 8
    iframe_buff_rpos := 59997
    iframe_buff_wpos := 59999 }

/-- The bytes of the ring memory at the indices `0` to `n - 1` after a run, with the
capacity `cb_len` and the write cursor. -/
def ring_dump (n : Nat) (r : Option (MMAL_PORT_T × Statics × List Event)) :
    Option (Int × Int × List Nat) :=
  match context_after r with
  | none => none
  | some pData =>
    match pData.cb_buff with
    | none => none
    | some ring => some (pData.cb_len, pData.cb_wptr, (List.range n).map (fun i => ring i))

/-- A memory that is zero inside a ring of 16 bytes and holds a 1 at index 17, beyond the
ring. -/
def memory_one_at_17 : Int → Nat :=
  fun i => if i = 17 then 1 else 0

/-- A port that is enabled and whose userdata is a zeroed context in circular mode, the
ring of 16 bytes lying in the memory `memory`. -/
def circular_port_in (memory : Int → Nat) : MMAL_PORT_T :=
  { userdata := some (zeroed_userdata 0 (some memory) 16), is_enabled := true }

/-- Three keyframe chunks of 5, 9 and 4 bytes, each beginning with `00 00 00 01`; in a
ring of 16 bytes the third one is written at the offsets 14, 15, 0, 1. -/
def straddling_run : List (Env × MMAL_BUFFER_HEADER_T) :=
  [(plain_env 5 0 0, frame_chunk [0, 0, 0, 1, 170] true),
    (plain_env 5 0 0, frame_chunk [0, 0, 0, 1, 187, 187, 187, 187, 187] true),
    (plain_env 5 0 0, frame_chunk [0, 0, 0, 1] true)]

/-- The fields of the callback context and of `RASPIVID_STATE` that
`splitter_buffer_callback` reads or writes: the raw sink, whether `raw_output_fmt` is
`RAW_OUTPUT_FMT_GRAY`, and `abort`. -/
structure SPLITTER_USERDATA where
  raw_file_handle : FILE
  raw_output_fmt_gray : Bool
  abort : Int

/-- The splitter output port: its userdata (`none` when `NULL`), `is_enabled` and the
frame size `format->es->video.width`, `height`. -/
structure SPLITTER_PORT where
  userdata : Option SPLITTER_USERDATA
  is_enabled : Bool
  width : Int
  height : Int

/-- What one invocation of `splitter_buffer_callback` obtains from outside: the value
returned by `fwrite`, whether `mmal_queue_get` returned a buffer and whether
`mmal_port_send_buffer` succeeded. -/
structure SplitterEnv where
  fwrite_ret : Int
  queue_get : Bool
  send_ok : Bool

/-- The calls made by `splitter_buffer_callback`; `null_userdata_read` is the read of
`pData->pstate` through a null `pData`. -/
inductive SplitterEvent where
  | fwrite (file : FILE) (bytes_to_write : Int) (ret : Int)
  | log_failed_to_write (written : Int) (to_write : Int)
  | log_no_state
  | mmal_buffer_header_release
  | null_userdata_read
  | mmal_queue_get (got : Bool)
  | mmal_port_send_buffer (ok : Bool)
  | log_unable_to_return_buffer
  deriving DecidableEq, Repr

/-- Lines 1066-1097 of `splitter_buffer_callback`: with a context, the chunk (only the
luma plane of `width * height` bytes in gray mode) is written to the raw sink and a short
write sets `abort`; without one, the missing state is logged. -/
def splitter_chunk (env : SplitterEnv) (port : SPLITTER_PORT) (buffer : MMAL_BUFFER_HEADER_T) :
    Option SPLITTER_USERDATA × List SplitterEvent :=
  match port.userdata with
  | some pData =>
    let bytes_to_write : Int :=
      if buffer.length ≠ 0 ∧ pData.raw_output_fmt_gray = true then port.width * port.height
      else buffer.length
    if bytes_to_write ≠ 0 then
      if env.fwrite_ret ≠ bytes_to_write then
        (some { pData with abort := 1 },
          [SplitterEvent.fwrite pData.raw_file_handle bytes_to_write env.fwrite_ret,
            SplitterEvent.log_failed_to_write env.fwrite_ret bytes_to_write])
      else
        (some pData,
          [SplitterEvent.fwrite pData.raw_file_handle bytes_to_write env.fwrite_ret])
    else (some pData, [])
  | none => (none, [SplitterEvent.log_no_state])

/-- The function `splitter_buffer_callback` (lines 1062-1120): after the chunk has been
handled the buffer is released, and when the port is enabled a buffer of the splitter pool
is sent back to it; the pool is reached through `pData->pstate`, through the null pointer
when the userdata is `NULL`. -/
def splitter_buffer_callback (env : SplitterEnv) (port : SPLITTER_PORT)
    (buffer : MMAL_BUFFER_HEADER_T) : SPLITTER_PORT × List SplitterEvent :=
  ({ port with userdata := (splitter_chunk env port buffer).1 },
    (splitter_chunk env port buffer).2 ++ [SplitterEvent.mmal_buffer_header_release] ++
      (if port.is_enabled then
        match port.userdata with
        | none => [SplitterEvent.null_userdata_read]
        | some _ =>
          [SplitterEvent.mmal_queue_get env.queue_get] ++
            (if env.queue_get then [SplitterEvent.mmal_port_send_buffer env.send_ok] else []) ++
            (if !env.queue_get || !env.send_ok then
              [SplitterEvent.log_unable_to_return_buffer] else [])
      else []))

/-- The context of a capture in flight: destination of 8 bytes, 3 of them stored so far. -/
def inflight_userdata : PORT_USERDATA_IMAGE :=
  { complete_semaphore := 0
    data := fun i => if i < 3 then 17 else 0
    bufferPosition := 3
    startingOffset := 0
    offset := 3
    length := 8
    lengthActual := 3 }

/-- The capture port while the capture `inflight_userdata` is in flight. -/
def inflight_port : IMAGE_PORT :=
  { userdata := some inflight_userdata, is_enabled := true }

/-- Summary of the context a port designates: `length`, `offset`, `lengthActual` and the
first four destination bytes. -/
def port_context_summary (port : IMAGE_PORT) : Option (Nat × Nat × Nat × List Nat) :=
  port.userdata.map (fun pData =>
    (pData.length, pData.offset, pData.lengthActual,
      [pData.data 0, pData.data 1, pData.data 2, pData.data 3]))

/-- The concatenation of the chunks of a sequence of deliveries, in delivery order. -/
def delivered_bytes : List (ImageEnv × MMAL_BUFFER_HEADER_T) → List Nat
  | [] => []
  | (_, buffer) :: rest => buffer.data ++ delivered_bytes rest

/-- An environment of `open_filename` whose `strftime` marks its result with a leading
`T`. -/
def stamp_env : OpenEnv :=
  { socket_env 0 with strftime := fun pattern => 'T' :: pattern }

/-- The name `clip_%-4d.h264`. -/
def left_flag_pattern : List Char :=
  ['c', 'l', 'i', 'p', '_', '%', '-', '4', 'd', '.', 'h', '2', '6', '4']

/-- The name `%%_%d`. -/
def escaped_percent_pattern : List Char :=
  ['%', '%', '_', '%', 'd']

/-- The name `a%s_%03u`. -/
def string_first_pattern : List Char :=
  ['a', '%', 's', '_', '%', '0', '3', 'u']

/-! ## Cropping: `cropRGB`

Images are byte buffers, functions from the index to the byte; the input image and the
output image are separate buffers. The row loop takes fuel, `none` when it is used up.
The buffer `rowBuffer` is allocated and freed without being used and is left out. -/

/-- The call `memcpy(dst + dst_off, src + src_off, n)` between two byte buffers. -/
def memcpy_from (dst : Int → Nat) (dst_off : Int) (src : Int → Nat) (src_off : Int) (n : Int) :
    Int → Nat :=
  fun a => if dst_off ≤ a ∧ a < dst_off + n then src (src_off + (a - dst_off)) else dst a

/-- The `for` loop of lines 2401-2409 from the row `row` on, `out_ptr` being the offset of
the output pointer in `output_image`: while `row < cropY + output_h` one row of
`3 * output_w` bytes is copied and `out_ptr` moves on, except after the last row. -/
def crop_loop (input_image : Int → Nat) (input_w output_w output_h cropX cropY : Int) :
    Nat → Int → Int → (Int → Nat) → Option (Int → Nat)
  | 0, _, _, _ => none
  | fuel + 1, row, out_ptr, output_image =>
    if row < cropY + output_h then
      crop_loop input_image input_w output_w output_h cropX cropY fuel (row + 1)
        (if row ≠ cropY + output_h - 1 then out_ptr + 3 * output_w else out_ptr)
        (memcpy_from output_image out_ptr input_image (3 * (row * input_w + cropX))
          (3 * output_w))
    else some output_image

/-- The function `cropRGB` (lines 2390-2412): the output image after the call. The
parameter `input_h` is not used by the function. -/
def cropRGB (fuel : Nat) (input_image : Int → Nat) (input_w : Int) (_input_h : Int)
    (output_image : Int → Nat) (output_w output_h cropX cropY : Int) : Option (Int → Nat) :=
  crop_loop input_image input_w output_w output_h cropX cropY fuel cropY 0 output_image

/-- An image whose byte at index `i` is `i`. -/
def index_image : Int → Nat :=
  fun i => i.toNat

/-- A context in circular mode (ring of 8 bytes, write cursor at 5) whose keyframe index
holds one entry, the offset 0 at slot 0, between the read position 0 and the write
position 1. -/
def one_entry_userdata : PORT_USERDATA :=
  { zeroed_userdata 0 (some (fun _ => 0)) 8 with
    cb_wptr := 5
    iframe_buff_wpos := 1 }

/-- Two keyframe chunks of 6 bytes, each beginning with `00 00 00 01`; in a ring of 8
bytes the second one is written at the offsets 6, 7, 0, 1, 2, 3. -/
def wrapping_run : List (Env × MMAL_BUFFER_HEADER_T) :=
  [(plain_env 5 0 0, frame_chunk [0, 0, 0, 1, 170, 187] true),
    (plain_env 5 0 0, frame_chunk [0, 0, 0, 1, 204, 221] true)]

/-- A port in direct-sink mode with `save_pts` set, the primary sink 3 and the timestamp
sink 7 open, and no record written yet. -/
def pts_port : MMAL_PORT_T :=
  { userdata := some
      { zeroed_userdata 3 none 0 with
        pstate := { default_status with save_pts := 1 }
        pts_file_handle := 7 },
    is_enabled := true }

/-! ## Lemmas on the circular mode -/

theorem emod_wrap (a c : Int) (h0 : 0 ≤ a) (h1 : a < 2 * c) :
    a % c = if a < c then a else a - c := by
  split
  · exact Int.emod_eq_of_lt h0 (by assumption)
  · have h : a = (a - c) + c := by ring
    rw [h, Int.add_emod_self]
    rw [Int.emod_eq_of_lt (by omega) (by omega)]
    ring

theorem evict_loop_eq (fuel : Nat) (pData pData2 : PORT_USERDATA) (length : Nat)
    (h : evict_loop fuel pData length = some pData2) :
    pData2 = { pData with iframe_buff_rpos := pData2.iframe_buff_rpos } := by
  induction fuel generalizing pData with
  | zero => simp [evict_loop] at h
  | succ n ih =>
    simp only [evict_loop] at h
    split at h
    · have h2 := ih _ h
      rw [h2]
    · cases h
      rfl

theorem evict_eq (fuel : Nat) (pData pData2 : PORT_USERDATA) (length : Nat)
    (h : evict fuel pData length = some pData2) :
    pData2 = { pData with iframe_buff_rpos := pData2.iframe_buff_rpos } := by
  unfold evict at h
  split at h
  · exact evict_loop_eq fuel pData pData2 length h
  · cases h
    rfl

theorem callback_circular_ordinary (fuel : Nat) (env : Env) (port : MMAL_PORT_T)
    (buffer : MMAL_BUFFER_HEADER_T) (statics : Statics) (pData : PORT_USERDATA)
    (ring : Int → Nat) (r : MMAL_PORT_T × Statics × List Event)
    (hport : port.userdata = some pData) (hring : pData.cb_buff = some ring)
    (hcfg : buffer.flag_config = false) (hside : buffer.flag_codecsideinfo = false)
    (h : encoder_buffer_callback fuel env port buffer statics = some r) :
    ∃ pData2, evict fuel (record_keyframe pData buffer statics.frame_start).1 buffer.length
        = some pData2 ∧
      r.1.userdata = some (ring_write ring pData2 buffer) ∧
      r.2.1.frame_start = (record_keyframe pData buffer statics.frame_start).2 := by
  simp only [encoder_buffer_callback, hport, hring, circular, hcfg, hside, circular_ordinary]
    at h
  cases h1 : evict fuel (record_keyframe pData buffer statics.frame_start).1 buffer.length with
  | none => simp [h1] at h
  | some pData2 =>
    refine ⟨pData2, rfl, ?_⟩
    simp only [h1] at h
    cases h2 : iframe_check fuel (ring_bytes ring pData2 buffer) (ring_write ring pData2 buffer)
        pData2.iframe_buff_rpos with
    | none => simp [h2] at h
    | some evs =>
      simp only [h2] at h
      cases h
      exact ⟨rfl, rfl⟩


theorem rpos_after_range (rpos : Int) (n : Nat) (h0 : 0 ≤ rpos) (h1 : rpos < IFRAME_BUFSIZE) :
    0 ≤ rpos_after rpos n ∧ rpos_after rpos n < IFRAME_BUFSIZE := by
  induction n generalizing rpos with
  | zero => exact ⟨h0, h1⟩
  | succ k ih =>
    simp only [rpos_after]
    apply ih
    · rw [Int.tmod_eq_emod (by omega) (by decide)]
      exact Int.emod_nonneg _ (by decide)
    · rw [Int.tmod_eq_emod (by omega) (by decide)]
      exact Int.emod_lt_of_pos _ (by decide)

theorem evict_loop_returns (n : Nat) (fuel : Nat) (pData : PORT_USERDATA) (length : Nat)
    (hfuel : n < fuel)
    (hstop : evict_cond
      { pData with iframe_buff_rpos := rpos_after pData.iframe_buff_rpos n } length = false) :
    ∃ m, m ≤ n ∧ evict_loop fuel pData length
      = some { pData with iframe_buff_rpos := rpos_after pData.iframe_buff_rpos m } := by
  induction n generalizing fuel pData with
  | zero =>
    obtain ⟨f, rfl⟩ : ∃ f, fuel = f + 1 := ⟨fuel - 1, by omega⟩
    refine ⟨0, le_refl _, ?_⟩
    simp only [rpos_after] at hstop
    simp [evict_loop, rpos_after, hstop]
  | succ k ih =>
    obtain ⟨f, rfl⟩ : ∃ f, fuel = f + 1 := ⟨fuel - 1, by omega⟩
    by_cases hc : evict_cond pData length = true
    · obtain ⟨m, hm, h⟩ := ih f
        { pData with iframe_buff_rpos := (pData.iframe_buff_rpos + 1).tmod IFRAME_BUFSIZE }
        (by omega) hstop
      refine ⟨m + 1, by omega, ?_⟩
      simp only [evict_loop, hc, if_true, h, rpos_after]
    · refine ⟨0, by omega, ?_⟩
      simp [evict_loop, hc, rpos_after]

theorem iframe_check_returns (d : Nat) (fuel : Nat) (cb_buff : Int → Nat)
    (pData : PORT_USERDATA) (i : Int)
    (hw0 : 0 ≤ pData.iframe_buff_wpos) (hw1 : pData.iframe_buff_wpos < IFRAME_BUFSIZE)
    (hi0 : 0 ≤ i) (hi1 : i < IFRAME_BUFSIZE)
    (hd : (pData.iframe_buff_wpos - i) % IFRAME_BUFSIZE = d) (hfuel : d < fuel) :
    ∃ evs, iframe_check fuel cb_buff pData i = some evs := by
  induction d generalizing fuel i with
  | zero =>
    obtain ⟨f, rfl⟩ : ∃ f, fuel = f + 1 := ⟨fuel - 1, by omega⟩
    have hiw : i = pData.iframe_buff_wpos := by
      simp only [IFRAME_BUFSIZE] at hd hw1 hi1
      omega
    exact ⟨[], by simp [iframe_check, hiw]⟩
  | succ k ih =>
    obtain ⟨f, rfl⟩ : ∃ f, fuel = f + 1 := ⟨fuel - 1, by omega⟩
    by_cases hiw : i = pData.iframe_buff_wpos
    · exact ⟨[], by simp [iframe_check, hiw]⟩
    · have hnext : (i + 1).tmod IFRAME_BUFSIZE = (i + 1) % IFRAME_BUFSIZE :=
        Int.tmod_eq_emod (by omega) (by decide)
      obtain ⟨evs, hevs⟩ := ih f ((i + 1).tmod IFRAME_BUFSIZE)
        (by rw [hnext]; exact Int.emod_nonneg _ (by decide))
        (by rw [hnext]; exact Int.emod_lt_of_pos _ (by decide))
        (by
          rw [hnext]
          simp only [IFRAME_BUFSIZE] at hd hw1 hi1 ⊢
          omega)
        (by omega)
      simp only [iframe_check, hiw, ne_eq, not_false_eq_true, if_true, hevs, Option.map_some']
      exact ⟨_, rfl⟩


theorem evict_returns (n : Nat) (fuel : Nat) (pData : PORT_USERDATA) (length : Nat)
    (hfuel : n < fuel)
    (hstop : evict_cond
      { pData with iframe_buff_rpos := rpos_after pData.iframe_buff_rpos n } length = false) :
    ∃ m, evict fuel pData length
      = some { pData with iframe_buff_rpos := rpos_after pData.iframe_buff_rpos m } := by
  unfold evict
  split
  · obtain ⟨m, _, h⟩ := evict_loop_returns n fuel pData length hfuel hstop
    exact ⟨m, h⟩
  · exact ⟨0, rfl⟩

theorem record_keyframe_rpos (pData : PORT_USERDATA) (buffer : MMAL_BUFFER_HEADER_T)
    (frame_start : Int) :
    (record_keyframe pData buffer frame_start).1.iframe_buff_rpos = pData.iframe_buff_rpos := by
  simp only [record_keyframe]
  split <;> rfl

theorem record_keyframe_wpos_range (pData : PORT_USERDATA) (buffer : MMAL_BUFFER_HEADER_T)
    (frame_start : Int)
    (hw0 : 0 ≤ pData.iframe_buff_wpos) (hw1 : pData.iframe_buff_wpos < IFRAME_BUFSIZE) :
    0 ≤ (record_keyframe pData buffer frame_start).1.iframe_buff_wpos ∧
      (record_keyframe pData buffer frame_start).1.iframe_buff_wpos < IFRAME_BUFSIZE := by
  simp only [record_keyframe]
  split
  · simp only
    rw [Int.tmod_eq_emod (by omega) (by decide)]
    exact ⟨Int.emod_nonneg _ (by decide), Int.emod_lt_of_pos _ (by decide)⟩
  · exact ⟨hw0, hw1⟩

theorem evict_loop_mono (fuel0 fuel : Nat) (pData pData2 : PORT_USERDATA) (length : Nat)
    (h : evict_loop fuel0 pData length = some pData2) (hle : fuel0 ≤ fuel) :
    evict_loop fuel pData length = some pData2 := by
  induction fuel0 generalizing fuel pData with
  | zero => simp [evict_loop] at h
  | succ k ih =>
    obtain ⟨f, rfl⟩ : ∃ f, fuel = f + 1 := ⟨fuel - 1, by omega⟩
    simp only [evict_loop] at h ⊢
    split
    · rename_i hc
      rw [if_pos hc] at h
      exact ih f _ h (by omega)
    · rename_i hc
      rw [if_neg hc] at h
      exact h

theorem evict_mono (fuel0 fuel : Nat) (pData pData2 : PORT_USERDATA) (length : Nat)
    (h : evict fuel0 pData length = some pData2) (hle : fuel0 ≤ fuel) :
    evict fuel pData length = some pData2 := by
  unfold evict at h ⊢
  split
  · rename_i hc
    rw [if_pos hc] at h
    exact evict_loop_mono fuel0 fuel pData pData2 length h hle
  · rename_i hc
    rw [if_neg hc] at h
    exact h

theorem evict_loop_rpos_range (fuel : Nat) (pData pData2 : PORT_USERDATA) (length : Nat)
    (h : evict_loop fuel pData length = some pData2)
    (hr0 : 0 ≤ pData.iframe_buff_rpos) (hr1 : pData.iframe_buff_rpos < IFRAME_BUFSIZE) :
    0 ≤ pData2.iframe_buff_rpos ∧ pData2.iframe_buff_rpos < IFRAME_BUFSIZE := by
  induction fuel generalizing pData with
  | zero => simp [evict_loop] at h
  | succ n ih =>
    simp only [evict_loop] at h
    split at h
    · refine ih _ h ?_ ?_
      · show 0 ≤ (pData.iframe_buff_rpos + 1).tmod IFRAME_BUFSIZE
        rw [Int.tmod_eq_emod (by omega) (by decide)]
        exact Int.emod_nonneg _ (by decide)
      · show (pData.iframe_buff_rpos + 1).tmod IFRAME_BUFSIZE < IFRAME_BUFSIZE
        rw [Int.tmod_eq_emod (by omega) (by decide)]
        exact Int.emod_lt_of_pos _ (by decide)
    · cases h
      exact ⟨hr0, hr1⟩

theorem evict_rpos_range (fuel : Nat) (pData pData2 : PORT_USERDATA) (length : Nat)
    (h : evict fuel pData length = some pData2)
    (hr0 : 0 ≤ pData.iframe_buff_rpos) (hr1 : pData.iframe_buff_rpos < IFRAME_BUFSIZE) :
    0 ≤ pData2.iframe_buff_rpos ∧ pData2.iframe_buff_rpos < IFRAME_BUFSIZE := by
  unfold evict at h
  split at h
  · exact evict_loop_rpos_range fuel pData pData2 length h hr0 hr1
  · cases h
    exact ⟨hr0, hr1⟩

/-- In circular mode the callback returns on an ordinary chunk as soon as the eviction scan
of lines 893-903 stops: when both positions of the index are in range and the scan returns
with fuel `fuel0`, any fuel of at least `fuel0` and `IFRAME_BUFSIZE` gives a result. -/
theorem circular_ordinary_returns (fuel0 fuel : Nat) (env : Env) (port : MMAL_PORT_T)
    (buffer : MMAL_BUFFER_HEADER_T) (statics : Statics) (pData pData2 : PORT_USERDATA)
    (ring : Int → Nat)
    (hport : port.userdata = some pData) (hring : pData.cb_buff = some ring)
    (hcfg : buffer.flag_config = false) (hside : buffer.flag_codecsideinfo = false)
    (hr0 : 0 ≤ pData.iframe_buff_rpos) (hr1 : pData.iframe_buff_rpos < IFRAME_BUFSIZE)
    (hw0 : 0 ≤ pData.iframe_buff_wpos) (hw1 : pData.iframe_buff_wpos < IFRAME_BUFSIZE)
    (hscan : evict fuel0 (record_keyframe pData buffer statics.frame_start).1 buffer.length
      = some pData2)
    (hf1 : fuel0 ≤ fuel) (hf2 : 60000 ≤ fuel) :
    ∃ r, encoder_buffer_callback fuel env port buffer statics = some r := by
  have hrk := record_keyframe_rpos pData buffer statics.frame_start
  have hwk := record_keyframe_wpos_range pData buffer statics.frame_start hw0 hw1
  have hm := evict_mono fuel0 fuel _ pData2 buffer.length hscan hf1
  have hrange := evict_rpos_range fuel0 _ pData2 buffer.length hscan (by rw [hrk]; exact hr0)
    (by rw [hrk]; exact hr1)
  have hwpos : pData2.iframe_buff_wpos
      = (record_keyframe pData buffer statics.frame_start).1.iframe_buff_wpos := by
    rw [evict_eq fuel0 _ pData2 buffer.length hscan]
  rw [← hwpos] at hwk
  obtain ⟨evs, hevs⟩ := iframe_check_returns
    ((pData2.iframe_buff_wpos - pData2.iframe_buff_rpos) % IFRAME_BUFSIZE).toNat fuel
    (ring_bytes ring pData2 buffer) (ring_write ring pData2 buffer) pData2.iframe_buff_rpos
    hwk.1 hwk.2 hrange.1 hrange.2
    (by
      simp only [ring_write]
      rw [Int.toNat_of_nonneg (Int.emod_nonneg _ (by decide))])
    (by
      have h := Int.emod_lt_of_pos (pData2.iframe_buff_wpos - pData2.iframe_buff_rpos)
        (show (0 : Int) < IFRAME_BUFSIZE by decide)
      simp only [IFRAME_BUFSIZE] at h ⊢
      omega)
  simp only [encoder_buffer_callback, hport, hring, circular, hcfg, hside, circular_ordinary,
    hm, hevs]
  exact ⟨_, rfl⟩

theorem ring_bytes_written (ring : Int → Nat) (pData : PORT_USERDATA)
    (buffer : MMAL_BUFFER_HEADER_T)
    (hw0 : 0 ≤ pData.cb_wptr) (hw1 : pData.cb_wptr < pData.cb_len)
    (hL : (buffer.length : Int) ≤ pData.cb_len) (i : Nat) (hi : i < buffer.length) :
    ring_bytes ring pData buffer ((pData.cb_wptr + i) % pData.cb_len) = buffer.data.getD i 0 := by
  rw [emod_wrap _ _ (by omega) (by omega)]
  simp only [ring_bytes, memcpy]
  split_ifs <;> first
    | omega
    | (congr 1; omega)

theorem ring_bytes_elsewhere (ring : Int → Nat) (pData : PORT_USERDATA)
    (buffer : MMAL_BUFFER_HEADER_T)
    (hw0 : 0 ≤ pData.cb_wptr) (hw1 : pData.cb_wptr < pData.cb_len)
    (hL : (buffer.length : Int) ≤ pData.cb_len) (j : Int)
    (hj : ∀ i : Nat, i < buffer.length → j ≠ (pData.cb_wptr + i) % pData.cb_len) :
    ring_bytes ring pData buffer j = ring j := by
  have key : ∀ i : Nat, i < buffer.length →
      j ≠ (if pData.cb_wptr + i < pData.cb_len then pData.cb_wptr + i
        else pData.cb_wptr + i - pData.cb_len) := by
    intro i hi
    have h := hj i hi
    rwa [emod_wrap _ _ (by omega) (by omega)] at h
  simp only [ring_bytes, memcpy]
  split_ifs with h1 h2 h3 h4 h5
  all_goals first
    | rfl
    | (exfalso
       have k1 := key (j + pData.cb_len - pData.cb_wptr).toNat
       have k2 := key (j - pData.cb_wptr).toNat
       split_ifs at k1 k2 <;> omega)


theorem evict_loop_stuck (pData : PORT_USERDATA) (length : Nat)
    (h : ∀ k, evict_cond { pData with iframe_buff_rpos := k } length = true) (fuel : Nat) :
    evict_loop fuel pData length = none := by
  induction fuel generalizing pData with
  | zero => rfl
  | succ n ih =>
    have h0 : evict_cond pData length = true := h pData.iframe_buff_rpos
    simp only [evict_loop, h0, if_true]
    exact ih _ (fun k => h k)

theorem callback_none_of_scan_none (fuel : Nat) (env : Env) (port : MMAL_PORT_T)
    (buffer : MMAL_BUFFER_HEADER_T) (statics : Statics) (pData : PORT_USERDATA)
    (ring : Int → Nat)
    (hport : port.userdata = some pData) (hring : pData.cb_buff = some ring)
    (hcfg : buffer.flag_config = false) (hside : buffer.flag_codecsideinfo = false)
    (hscan : evict fuel (record_keyframe pData buffer statics.frame_start).1 buffer.length
      = none) :
    encoder_buffer_callback fuel env port buffer statics = none := by
  simp only [encoder_buffer_callback, hport, hring, circular, hcfg, hside, circular_ordinary,
    hscan]
  rfl

/-! ## Lemmas on the direct-sink mode -/

theorem callback_direct (fuel : Nat) (env : Env) (port : MMAL_PORT_T)
    (buffer : MMAL_BUFFER_HEADER_T) (statics : Statics) (pData : PORT_USERDATA)
    (hport : port.userdata = some pData) (hnull : pData.cb_buff = none) :
    encoder_buffer_callback fuel env port buffer statics =
      some ({ port with userdata := some (direct_sink env pData buffer
          (base_time_after_init env statics) env.time_now).1 },
        { base_time :=
            (direct_sink env pData buffer (base_time_after_init env statics) env.time_now).2.1,
          last_second := (annotation_tick env.time_now statics.last_second).1,
          frame_start := statics.frame_start },
        (direct_sink env pData buffer (base_time_after_init env statics) env.time_now).2.2 ++
          (annotation_tick env.time_now statics.last_second).2 ++
          release_and_resubmit env port) := by
  simp only [encoder_buffer_callback, hport, hnull, base_time_after_init]

/-- The write of lines 980-1029 changes `abort` and the timestamp bookkeeping only: the
sink handles, the ring pointer and the segment state are as before. -/
theorem write_chunk_keeps (env : Env) (pData : PORT_USERDATA) (buffer : MMAL_BUFFER_HEADER_T) :
    (write_chunk env pData buffer).1.file_handle = pData.file_handle ∧
    (write_chunk env pData buffer).1.imv_file_handle = pData.imv_file_handle ∧
    (write_chunk env pData buffer).1.pts_file_handle = pData.pts_file_handle ∧
    (write_chunk env pData buffer).1.cb_buff = pData.cb_buff ∧
    (write_chunk env pData buffer).1.pstate.segmentNumber = pData.pstate.segmentNumber ∧
    (write_chunk env pData buffer).1.pstate.splitNow = pData.pstate.splitNow ∧
    (write_chunk env pData buffer).1.pstate.segmentWrap = pData.pstate.segmentWrap ∧
    (write_chunk env pData buffer).1.pstate.segmentSize = pData.pstate.segmentSize ∧
    (write_chunk env pData buffer).1.pstate.splitWait = pData.pstate.splitWait := by
  simp only [write_chunk, sink_write, save_pts_record]
  split_ifs <;> exact ⟨rfl, rfl, rfl, rfl, rfl, rfl, rfl, rfl, rfl⟩

theorem save_pts_record_events (pData : PORT_USERDATA) (buffer : MMAL_BUFFER_HEADER_T)
    (e : Event) (he : e ∈ (save_pts_record pData buffer).2) :
    ∃ s m, e = Event.fprintf_pts pData.pts_file_handle s m := by
  unfold save_pts_record at he
  split at he
  · simp only [List.mem_singleton] at he
    exact ⟨_, _, he⟩
  · simp at he

/-- The write of lines 980-1029 opens and closes no file. -/
theorem write_chunk_no_open_close (env : Env) (pData : PORT_USERDATA)
    (buffer : MMAL_BUFFER_HEADER_T) (e : Event) (he : e ∈ (write_chunk env pData buffer).2) :
    (∀ name n h, e ≠ Event.open_filename name n h) ∧ (∀ h, e ≠ Event.fclose h) := by
  have key : ∀ e, e ∈ (sink_write env pData buffer).2.2 →
      (∀ name n h, e ≠ Event.open_filename name n h) ∧ (∀ h, e ≠ Event.fclose h) := by
    intro e he
    unfold sink_write at he
    split at he
    · split at he
      · simp only [List.mem_append, List.mem_singleton] at he
        rcases he with rfl | he
        · exact ⟨fun _ _ _ => by simp, fun _ => by simp⟩
        · split at he
          · simp only [List.mem_singleton] at he
            subst he
            exact ⟨fun _ _ _ => by simp, fun _ => by simp⟩
          · simp at he
      · simp at he
    · simp only [List.mem_append, List.mem_singleton] at he
      rcases he with (rfl | he) | he
      · exact ⟨fun _ _ _ => by simp, fun _ => by simp⟩
      · split at he
        · simp only [List.mem_cons, List.mem_singleton, List.not_mem_nil, or_false] at he
          rcases he with rfl | rfl
          · exact ⟨fun _ _ _ => by simp, fun _ => by simp⟩
          · exact ⟨fun _ _ _ => by simp, fun _ => by simp⟩
        · simp at he
      · obtain ⟨s, m, rfl⟩ := save_pts_record_events pData buffer e he
        exact ⟨fun _ _ _ => by simp, fun _ => by simp⟩
  simp only [write_chunk] at he
  split at he
  · split at he
    · simp only [List.mem_append, List.mem_singleton] at he
      rcases he with he | rfl
      · exact key e he
      · exact ⟨fun _ _ _ => by simp, fun _ => by simp⟩
    · exact key e he
  · simp at he

theorem tail_no_open_close (env : Env) (port : MMAL_PORT_T) (now last : Int) (e : Event)
    (he : e ∈ (annotation_tick now last).2 ++ release_and_resubmit env port) :
    (∀ name n h, e ≠ Event.open_filename name n h) ∧ (∀ h, e ≠ Event.fclose h) ∧
      (∀ h d k, e ≠ Event.fwrite h d k) := by
  have hcases : e = Event.update_annotation_data ∨ e = Event.mmal_buffer_header_release ∨
      e = Event.null_userdata_read ∨ (∃ b, e = Event.mmal_queue_get b) ∨
      (∃ b, e = Event.mmal_port_send_buffer b) ∨
      e = Event.vcos_log_error LogMsg.unable_to_return_buffer := by
    simp only [annotation_tick, release_and_resubmit, List.mem_append] at he
    rcases he with he | he | he
    · split at he
      · simp only [List.mem_singleton] at he
        exact Or.inl he
      · simp at he
    · simp only [List.mem_singleton] at he
      exact Or.inr (Or.inl he)
    · split at he
      · split at he
        · simp only [List.mem_singleton] at he
          exact Or.inr (Or.inr (Or.inl he))
        · simp only [List.mem_append, List.mem_singleton] at he
          rcases he with (he | he) | he
          · exact Or.inr (Or.inr (Or.inr (Or.inl ⟨_, he⟩)))
          · split at he
            · simp only [List.mem_singleton] at he
              exact Or.inr (Or.inr (Or.inr (Or.inr (Or.inl ⟨_, he⟩))))
            · simp at he
          · split at he
            · simp only [List.mem_singleton] at he
              exact Or.inr (Or.inr (Or.inr (Or.inr (Or.inr he))))
            · simp at he
      · simp at he
  rcases hcases with rfl | rfl | rfl | ⟨b, rfl⟩ | ⟨b, rfl⟩ | rfl <;>
    exact ⟨fun _ _ _ => by simp, fun _ => by simp, fun _ _ _ => by simp⟩


theorem direct_sink_no_rotate (env : Env) (pData : PORT_USERDATA)
    (buffer : MMAL_BUFFER_HEADER_T) (base_time current_time : Int)
    (h : rotate_cond pData buffer base_time current_time = false) :
    direct_sink env pData buffer base_time current_time =
      ((write_chunk env pData buffer).1, base_time, (write_chunk env pData buffer).2) := by
  simp [direct_sink, h]

theorem direct_sink_rotate (env : Env) (pData : PORT_USERDATA)
    (buffer : MMAL_BUFFER_HEADER_T) (base_time current_time : Int)
    (h : rotate_cond pData buffer base_time current_time = true) :
    direct_sink env pData buffer base_time current_time =
      ((write_chunk env (rotate env pData).1 buffer).1, current_time,
        (rotate env pData).2 ++ (write_chunk env (rotate env pData).1 buffer).2) := by
  simp [direct_sink, h]

theorem rotate_cond_config (pData : PORT_USERDATA) (buffer : MMAL_BUFFER_HEADER_T)
    (base_time current_time : Int)
    (h : rotate_cond pData buffer base_time current_time = true) :
    buffer.flag_config = true := by
  simp only [rotate_cond, Bool.and_eq_true] at h
  exact h.1

/-- A chunk of positive length without the `SideInfo` flag is passed to `fwrite` on the
primary sink. -/
theorem write_chunk_writes_primary (env : Env) (pData : PORT_USERDATA)
    (buffer : MMAL_BUFFER_HEADER_T) (hlen : buffer.length ≠ 0)
    (hside : buffer.flag_codecsideinfo = false) :
    Event.fwrite pData.file_handle buffer.data env.fwrite_ret ∈ (write_chunk env pData buffer).2 := by
  simp only [write_chunk, sink_write, hside]
  split_ifs <;> simp_all

/-- The value of `abort` after the write of lines 980-1029. -/
theorem write_chunk_abort (env : Env) (pData : PORT_USERDATA) (buffer : MMAL_BUFFER_HEADER_T) :
    (write_chunk env pData buffer).1.abort =
      if buffer.length ≠ 0 ∧
          ((buffer.flag_codecsideinfo = false ∨ pData.pstate.inlineMotionVectors ≠ 0) ∧
            env.fwrite_ret ≠ buffer.length) then 1
      else pData.abort := by
  simp only [write_chunk, sink_write, save_pts_record]
  split_ifs <;> simp_all


/-- One invocation in direct-sink mode: the callback returns, the context stays in
direct-sink mode with the same wrap point, and the segment number is the one of lines
941-945 when the invocation rotates and the old one otherwise. -/
theorem callback_direct_segment (fuel : Nat) (env : Env) (port : MMAL_PORT_T)
    (buffer : MMAL_BUFFER_HEADER_T) (statics : Statics) (pData : PORT_USERDATA)
    (hport : port.userdata = some pData) (hnull : pData.cb_buff = none) :
    ∃ r pData1, encoder_buffer_callback fuel env port buffer statics = some r ∧
      r.1.userdata = some pData1 ∧ pData1.cb_buff = none ∧
      pData1.pstate.segmentWrap = pData.pstate.segmentWrap ∧
      pData1.pstate.segmentNumber =
        (if rotates env port buffer statics then next_segment pData.pstate
          else pData.pstate.segmentNumber) := by
  have hcb := callback_direct fuel env port buffer statics pData hport hnull
  refine ⟨_, _, hcb, rfl, ?_⟩
  have hrot : rotates env port buffer statics
      = rotate_cond pData buffer (base_time_after_init env statics) env.time_now := by
    simp [rotates, hport, hnull]
  rw [hrot]
  cases h : rotate_cond pData buffer (base_time_after_init env statics) env.time_now with
  | false =>
    simp only [direct_sink_no_rotate env pData buffer _ _ h]
    have hk := write_chunk_keeps env pData buffer
    exact ⟨hk.2.2.2.1.trans hnull, hk.2.2.2.2.2.2.1, by simpa using hk.2.2.2.2.1⟩
  | true =>
    simp only [direct_sink_rotate env pData buffer _ _ h]
    have hk := write_chunk_keeps env (rotate env pData).1 buffer
    exact ⟨hk.2.2.2.1.trans hnull, hk.2.2.2.2.2.2.1, by simpa using hk.2.2.2.2.1⟩

theorem next_segment_range (pstate : RASPIVID_STATE) (hw : 0 < pstate.segmentWrap)
    (h1 : 1 ≤ pstate.segmentNumber) (h2 : pstate.segmentNumber ≤ pstate.segmentWrap) :
    1 ≤ next_segment pstate ∧ next_segment pstate ≤ pstate.segmentWrap := by
  unfold next_segment
  split_ifs with h
  · omega
  · have : ¬ (pstate.segmentNumber + 1 > pstate.segmentWrap) := fun hc => h ⟨by omega, hc⟩
    omega

/-- A run in direct-sink mode returns and stays in direct-sink mode; without a wrap point
the segment number grows by the number of rotations, with a wrap point it stays between 1
and the wrap point. -/
theorem run_direct_segment (fuel : Nat) (run : List (Env × MMAL_BUFFER_HEADER_T)) :
    ∀ (port : MMAL_PORT_T) (statics : Statics) (pData : PORT_USERDATA),
      port.userdata = some pData → pData.cb_buff = none →
      ∃ r pData1, run_callbacks fuel run port statics = some r ∧
        r.1.userdata = some pData1 ∧ pData1.cb_buff = none ∧
        pData1.pstate.segmentWrap = pData.pstate.segmentWrap ∧
        (pData.pstate.segmentWrap = 0 →
          pData1.pstate.segmentNumber
            = pData.pstate.segmentNumber + rotation_count fuel run port statics) ∧
        (0 < pData.pstate.segmentWrap → 1 ≤ pData.pstate.segmentNumber →
          pData.pstate.segmentNumber ≤ pData.pstate.segmentWrap →
          1 ≤ pData1.pstate.segmentNumber ∧
            pData1.pstate.segmentNumber ≤ pData.pstate.segmentWrap) := by
  induction run with
  | nil =>
    intro port statics pData hport hnull
    exact ⟨(port, statics, []), pData, rfl, hport, hnull, rfl, fun _ => by simp [rotation_count],
      fun _ h1 h2 => ⟨h1, h2⟩⟩
  | cons x rest ih =>
    intro port statics pData hport hnull
    obtain ⟨env, buffer⟩ := x
    obtain ⟨r, pData1, hr, hud, hnull1, hwrap1, hnum1⟩ :=
      callback_direct_segment fuel env port buffer statics pData hport hnull
    obtain ⟨port1, statics1, evs1⟩ := r
    obtain ⟨r2, pData2, hr2, hud2, hnull2, hwrap2, hgrow2, hrange2⟩ :=
      ih port1 statics1 pData1 hud hnull1
    obtain ⟨port2, statics2, evs2⟩ := r2
    refine ⟨(port2, statics2, evs1 ++ evs2), pData2, ?_, hud2, hnull2, hwrap2.trans hwrap1,
      ?_, ?_⟩
    · simp only [run_callbacks, hr, hr2]
    · intro hw0
      rw [hgrow2 (hwrap1.trans hw0), hnum1]
      simp only [rotation_count, hr]
      by_cases hrot : rotates env port buffer statics = true
      · simp only [hrot, if_true, next_segment, hw0]
        push_cast
        simp
        ring
      · simp only [hrot]
        push_cast
        simp
    · intro hw h1 h2
      have hstep : 1 ≤ pData1.pstate.segmentNumber ∧
          pData1.pstate.segmentNumber ≤ pData.pstate.segmentWrap := by
        rw [hnum1]
        split
        · exact next_segment_range pData.pstate hw h1 h2
        · exact ⟨h1, h2⟩
      have h := hrange2 (by rw [hwrap1]; exact hw) hstep.1 (by rw [hwrap1]; exact hstep.2)
      rw [hwrap1] at h
      exact h


theorem reopen_events_kind (name : Option (List Char)) (segmentNumber : Int)
    (result : FILE) (old : FILE) (e : Event)
    (he : e ∈ (reopen name segmentNumber result old).2) :
    (∃ s n h, e = Event.open_filename s n h) ∨ (∃ h, e = Event.fclose h) := by
  unfold reopen at he
  split_ifs at he
  · simp only [List.mem_cons, List.mem_singleton, List.not_mem_nil, or_false] at he
    rcases he with rfl | rfl
    · exact Or.inl ⟨_, _, _, rfl⟩
    · exact Or.inr ⟨_, rfl⟩
  · simp only [List.mem_singleton] at he
    exact Or.inl ⟨_, _, _, he⟩
  · simp at he

theorem rotate_events_kind (env : Env) (pData : PORT_USERDATA) (e : Event)
    (he : e ∈ (rotate env pData).2) :
    (∃ s n h, e = Event.open_filename s n h) ∨ (∃ h, e = Event.fclose h) := by
  simp only [rotate, List.mem_append] at he
  rcases he with (he | he) | he <;> exact reopen_events_kind _ _ _ _ e he

theorem write_chunk_writes_imv (env : Env) (pData : PORT_USERDATA)
    (buffer : MMAL_BUFFER_HEADER_T) (hlen : buffer.length ≠ 0)
    (hside : buffer.flag_codecsideinfo = true) (himv : pData.pstate.inlineMotionVectors ≠ 0) :
    Event.fwrite pData.imv_file_handle buffer.data env.fwrite_ret
      ∈ (write_chunk env pData buffer).2 := by
  simp only [write_chunk, sink_write, hside]
  split_ifs <;> simp_all

theorem write_chunk_silent (env : Env) (pData : PORT_USERDATA)
    (buffer : MMAL_BUFFER_HEADER_T)
    (h : buffer.length = 0 ∨
      (buffer.flag_codecsideinfo = true ∧ pData.pstate.inlineMotionVectors = 0)) :
    (write_chunk env pData buffer).2 = [] := by
  simp only [write_chunk, sink_write]
  rcases h with h | ⟨h1, h2⟩
  · simp [h]
  · split_ifs <;> simp_all

theorem write_chunk_events_ignore_abort (env : Env) (pData : PORT_USERDATA)
    (buffer : MMAL_BUFFER_HEADER_T) (a : Int) :
    (write_chunk env { pData with abort := a } buffer).2 = (write_chunk env pData buffer).2 := by
  simp only [write_chunk, sink_write, save_pts_record]
  split_ifs <;> rfl

theorem direct_sink_events_ignore_abort (env : Env) (pData : PORT_USERDATA)
    (buffer : MMAL_BUFFER_HEADER_T) (base_time current_time : Int) (a : Int) :
    (direct_sink env { pData with abort := a } buffer base_time current_time).2.2 =
      (direct_sink env pData buffer base_time current_time).2.2 := by
  cases h : rotate_cond pData buffer base_time current_time with
  | false =>
    have h1 : rotate_cond { pData with abort := a } buffer base_time current_time = false := h
    rw [direct_sink_no_rotate _ _ _ _ _ h, direct_sink_no_rotate _ _ _ _ _ h1]
    exact write_chunk_events_ignore_abort env pData buffer a
  | true =>
    have h1 : rotate_cond { pData with abort := a } buffer base_time current_time = true := h
    rw [direct_sink_rotate _ _ _ _ _ h, direct_sink_rotate _ _ _ _ _ h1]
    have hr : rotate env { pData with abort := a }
        = ({ (rotate env pData).1 with abort := a }, (rotate env pData).2) := rfl
    rw [hr]
    simp only [write_chunk_events_ignore_abort]

/-- The calls of the callback in direct-sink mode do not depend on `abort`. -/
theorem events_ignore_abort (fuel : Nat) (env : Env) (port : MMAL_PORT_T)
    (buffer : MMAL_BUFFER_HEADER_T) (statics : Statics) (pData : PORT_USERDATA)
    (hport : port.userdata = some pData) (hnull : pData.cb_buff = none) (a : Int) :
    events_after (encoder_buffer_callback fuel env
        { port with userdata := some { pData with abort := a } } buffer statics) =
      events_after (encoder_buffer_callback fuel env port buffer statics) := by
  rw [callback_direct fuel env port buffer statics pData hport hnull,
    callback_direct fuel env { port with userdata := some { pData with abort := a } } buffer
      statics { pData with abort := a } rfl hnull]
  simp only [events_after, direct_sink_events_ignore_abort, release_and_resubmit, hport]

/-- Without rotation (the test of lines 932-934 fails) the segment number, the split
request, the three sink handles and the base time stay as they are and no file is opened
or closed. -/
theorem no_rotation_frame (env : Env) (port : MMAL_PORT_T) (buffer : MMAL_BUFFER_HEADER_T)
    (statics : Statics) (pData : PORT_USERDATA) :
    rotate_cond pData buffer (base_time_after_init env statics) env.time_now = false →
    (direct_sink env pData buffer (base_time_after_init env statics) env.time_now).1.pstate.segmentNumber
        = pData.pstate.segmentNumber ∧
      (direct_sink env pData buffer (base_time_after_init env statics) env.time_now).1.pstate.splitNow
        = pData.pstate.splitNow ∧
      (direct_sink env pData buffer (base_time_after_init env statics) env.time_now).1.file_handle
        = pData.file_handle ∧
      (direct_sink env pData buffer (base_time_after_init env statics) env.time_now).1.imv_file_handle
        = pData.imv_file_handle ∧
      (direct_sink env pData buffer (base_time_after_init env statics) env.time_now).1.pts_file_handle
        = pData.pts_file_handle ∧
      (direct_sink env pData buffer (base_time_after_init env statics) env.time_now).2.1
        = base_time_after_init env statics ∧
      ∀ e ∈ (direct_sink env pData buffer (base_time_after_init env statics) env.time_now).2.2 ++
          (annotation_tick env.time_now statics.last_second).2 ++ release_and_resubmit env port,
        (∀ name n h, e ≠ Event.open_filename name n h) ∧ (∀ h, e ≠ Event.fclose h) := by
  intro hrot
  rw [direct_sink_no_rotate env pData buffer _ _ hrot]
  have hk := write_chunk_keeps env pData buffer
  refine ⟨hk.2.2.2.2.1, hk.2.2.2.2.2.1, hk.1, hk.2.1, hk.2.2.1, rfl, ?_⟩
  intro e he
  rw [List.append_assoc, List.mem_append] at he
  rcases he with he | he
  · exact write_chunk_no_open_close env pData buffer e he
  · have ht := tail_no_open_close env port env.time_now statics.last_second e he
    exact ⟨ht.1, ht.2.1⟩

theorem rotate_cond_iff (pData : PORT_USERDATA) (buffer : MMAL_BUFFER_HEADER_T)
    (base_time current_time : Int) :
    rotate_cond pData buffer base_time current_time = true ↔
      buffer.flag_config = true ∧
        ((pData.pstate.segmentSize ≠ 0 ∧ current_time > base_time + pData.pstate.segmentSize) ∨
          (pData.pstate.splitWait ≠ 0 ∧ pData.pstate.splitNow ≠ 0)) := by
  simp [rotate_cond]


theorem rotate_opens_primary (env : Env) (pData : PORT_USERDATA) (s : List Char)
    (hs : pData.pstate.filename = some s) (hhead : s.head? ≠ some '-') :
    Event.open_filename s (rotate env pData).1.pstate.segmentNumber env.open_main
      ∈ (rotate env pData).2 := by
  simp only [rotate, reopen, wants_open, hs, hhead]
  apply List.mem_append_left
  apply List.mem_append_left
  split_ifs <;> simp_all

/-! ## The claims -/

/-- C1 (the code departs from the claim): the ring of capacity 4 is filled exactly by one
chunk of 4 bytes written from the empty state; `cb_wrap` stays 0 and `cb_wptr` returns to 0,
so the unread-byte count the state stands for is 0, while `min(total_written, C)` is 4. -/
theorem C1_exact_fill_leaves_wrap_clear :
    ring_summary (encoder_buffer_callback 2 (plain_env 5 0 0) (fresh_circular_port 4)
      (frame_chunk [0, 0, 0, 1] true) initial_statics) = some (0, 0, 0) ∧
    min ((frame_chunk [0, 0, 0, 1] true).length : Int) 4 = 4 := by
  decide

/-- In circular mode, with the write cursor `w` inside the ring of capacity `C` and an
ordinary chunk of length `L ≤ C`, whenever the callback returns the ring holds chunk byte
`i` at position `(w + i) mod C` for every `i < L` and every other byte of the ring memory is
unchanged; and the callback does return, with enough fuel, as soon as the eviction scan
of lines 893-903 stops (index positions in range). -/
theorem chunk_lands_at_cursor_when_returned (env : Env) (port : MMAL_PORT_T)
    (buffer : MMAL_BUFFER_HEADER_T) (statics : Statics) (pData : PORT_USERDATA)
    (ring : Int → Nat)
    (hport : port.userdata = some pData) (hring : pData.cb_buff = some ring)
    (hcfg : buffer.flag_config = false) (hside : buffer.flag_codecsideinfo = false)
    (hw0 : 0 ≤ pData.cb_wptr) (hw1 : pData.cb_wptr < pData.cb_len)
    (hL : (buffer.length : Int) ≤ pData.cb_len) :
    (∀ fuel r, encoder_buffer_callback fuel env port buffer statics = some r →
      ∃ pData1 ring1, r.1.userdata = some pData1 ∧ pData1.cb_buff = some ring1 ∧
        (∀ i : Nat, i < buffer.length →
          ring1 ((pData.cb_wptr + i) % pData.cb_len) = buffer.data.getD i 0) ∧
        (∀ j : Int, (∀ i : Nat, i < buffer.length → j ≠ (pData.cb_wptr + i) % pData.cb_len) →
          ring1 j = ring j)) ∧
    (∀ (fuel0 fuel : Nat) (pData2 : PORT_USERDATA),
      0 ≤ pData.iframe_buff_rpos → pData.iframe_buff_rpos < IFRAME_BUFSIZE →
      0 ≤ pData.iframe_buff_wpos → pData.iframe_buff_wpos < IFRAME_BUFSIZE →
      evict fuel0 (record_keyframe pData buffer statics.frame_start).1 buffer.length
        = some pData2 →
      fuel0 ≤ fuel → 60000 ≤ fuel →
      ∃ r, encoder_buffer_callback fuel env port buffer statics = some r) := by
  constructor
  · intro fuel r hr
    obtain ⟨pData2, h2, hud, _⟩ :=
      callback_circular_ordinary fuel env port buffer statics pData ring r hport hring hcfg
        hside hr
    have heq := evict_eq fuel _ pData2 buffer.length h2
    have hwptr : pData2.cb_wptr = pData.cb_wptr := by
      rw [heq]
      simp only [record_keyframe]
      split <;> rfl
    have hlen : pData2.cb_len = pData.cb_len := by
      rw [heq]
      simp only [record_keyframe]
      split <;> rfl
    refine ⟨ring_write ring pData2 buffer, ring_bytes ring pData2 buffer, hud, rfl, ?_, ?_⟩
    · intro i hi
      have h := ring_bytes_written ring pData2 buffer (by omega) (by omega) (by omega) i hi
      rwa [hwptr, hlen] at h
    · intro j hj
      exact ring_bytes_elsewhere ring pData2 buffer (by omega) (by omega) (by omega) j
        (by rw [hwptr, hlen]; exact hj)
  · intro fuel0 fuel pData2 hr0 hr1 hw0 hw1 hscan hf1 hf2
    exact circular_ordinary_returns fuel0 fuel env port buffer statics pData pData2 ring hport
      hring hcfg hside hr0 hr1 hw0 hw1 hscan hf1 hf2

/-- A ring of 8 bytes with the cursor at 6, an empty index and a keyframe chunk of 6
bytes: the callback returns and the chunk occupies the positions 6, 7, 0, 1, 2, 3. -/
theorem chunk_lands_at_cursor_when_returned_example :
    ∃ r, encoder_buffer_callback 60000 (plain_env 5 0 0)
        { userdata := some { zeroed_userdata 0 (some (fun _ => 9)) 8 with cb_wptr := 6 },
          is_enabled := true }
        (frame_chunk [0, 0, 0, 1, 204, 221] true) initial_statics = some r ∧
      ∃ pData1 ring1, r.1.userdata = some pData1 ∧ pData1.cb_buff = some ring1 ∧
        (∀ i : Nat, i < (frame_chunk [0, 0, 0, 1, 204, 221] true).length →
          ring1 (((6 : Int) + i) % 8) = (frame_chunk [0, 0, 0, 1, 204, 221] true).data.getD i 0) ∧
        (∀ j : Int, (∀ i : Nat, i < (frame_chunk [0, 0, 0, 1, 204, 221] true).length →
          j ≠ ((6 : Int) + i) % 8) → ring1 j = 9) := by
  have h := chunk_lands_at_cursor_when_returned (plain_env 5 0 0)
    { userdata := some { zeroed_userdata 0 (some (fun _ => 9)) 8 with cb_wptr := 6 },
      is_enabled := true }
    (frame_chunk [0, 0, 0, 1, 204, 221] true) initial_statics
    { zeroed_userdata 0 (some (fun _ => 9)) 8 with cb_wptr := 6 } (fun _ => 9)
    rfl rfl rfl rfl (by decide) (by decide) (by decide)
  obtain ⟨r, hr⟩ := h.2 1 60000 _ (by decide) (by decide) (by decide) (by decide) rfl
    (by decide) (by decide)
  exact ⟨r, hr, h.1 60000 r hr⟩


/-- C3 (the code departs from the claim): ring of 8 bytes, a keyframe of 6 bytes followed
by a further frame of 6 bytes, both starting with `00 00 00 01`. The second chunk
overwrites the offsets 0 to 3, yet the index still holds offset 0 between the read position
0 and the write position 1 (a queue of one entry is never scanned), the four ring bytes
there are `00 01 CC DD`, and the check of the callback itself logs `Error in iframe
list`. -/
theorem C3_single_entry_survives_overwrite :
    index_summary (run_callbacks 3
      [(plain_env 5 0 0, frame_chunk [0, 0, 0, 1, 170, 187] true),
        (plain_env 5 0 0, frame_chunk [0, 0, 0, 1, 204, 221] false)]
      (fresh_circular_port 8) initial_statics) = some (0, 1, 0, [0, 1, 204, 221]) ∧
    Event.vcos_log_error LogMsg.error_in_iframe_list ∈ events_after (run_callbacks 3
      [(plain_env 5 0 0, frame_chunk [0, 0, 0, 1, 170, 187] true),
        (plain_env 5 0 0, frame_chunk [0, 0, 0, 1, 204, 221] false)]
      (fresh_circular_port 8) initial_statics) := by
  decide

/-- C4 (the code departs from the claim): from the initial all-zero index with
`rpos = wpos = 0` and `cb_wptr = 0` in a ring of 8 bytes, an ordinary chunk of one byte
without the keyframe flag makes the `while` condition true at every slot, so the scan does
not stop after `IFRAME_BUFSIZE` advances nor after any other number: the callback returns
for no amount of fuel. -/
theorem C4_eviction_scan_never_stops (fuel : Nat) :
    encoder_buffer_callback fuel (plain_env 5 0 0) (fresh_circular_port 8)
      (frame_chunk [7] false) initial_statics = none := by
  have hstuck : ∀ k, evict_cond
      { zeroed_userdata 0 (some (fun _ => 0)) 8 with iframe_buff_rpos := k } 1 = true := by
    intro k
    simp [evict_cond, zeroed_userdata]
  have hloop := evict_loop_stuck (zeroed_userdata 0 (some (fun _ => 0)) 8) 1 hstuck fuel
  have hscan : evict fuel
      (record_keyframe (zeroed_userdata 0 (some (fun _ => 0)) 8) (frame_chunk [7] false)
        initial_statics.frame_start).1 (frame_chunk [7] false).length = none := by
    have hguard : evict fuel (zeroed_userdata 0 (some (fun _ => 0)) 8) 1
        = evict_loop fuel (zeroed_userdata 0 (some (fun _ => 0)) 8) 1 := by
      unfold evict
      rw [if_pos (by decide)]
    exact hguard.trans hloop
  exact callback_none_of_scan_none fuel _ _ _ _ _ _ rfl rfl rfl rfl hscan

/-- C5 (the claim as stated fails on the code): first, a chunk without the `Config` flag
delivered while the static `base_time` still holds its initial `-1` changes the segment
base time (to the clock value 5); second, a `Config` chunk of length 0 rotates (the sink 3
is closed, the new segment 9 is opened) and writes nothing, so that the first chunk written
to the new segment is the following chunk, which is not `Config`-flagged. -/
theorem C5_base_time_set_by_first_chunk_and_empty_header :
    (initial_statics.base_time = -1 ∧
      segment_summary (encoder_buffer_callback 0 (plain_env 5 0 1) (direct_port 3 default_status)
        (frame_chunk [7] false) initial_statics) = some (1, 0, 5, 3)) ∧
    events_after (run_callbacks 0
      [(plain_env 5 9 0, config_chunk []), (plain_env 6 9 1, frame_chunk [7] false)]
      (direct_port 3 split_requested) initial_statics) =
      [Event.open_filename ['o', 'u', 't'] 2 9, Event.fclose 3, Event.update_annotation_data,
        Event.mmal_buffer_header_release, Event.mmal_queue_get true,
        Event.mmal_port_send_buffer true,
        Event.fwrite 9 [7] 1,
        Event.mmal_buffer_header_release, Event.mmal_queue_get true,
        Event.mmal_port_send_buffer true] := by
  decide

/-- C5 (as amended): in direct-sink mode the callback returns, and for a chunk without the
`Config` flag it performs no rotation, whatever the clock and the split request:
`segmentNumber`, `splitNow` and the three sink handles are unchanged, no file is opened or
closed, and the segment base time is the one it had, once initialised (a callback that
finds `base_time` at `-1` sets it from the clock). Hence a file is opened only while a
`Config` chunk is processed, and when the primary sink is replaced the `Config` chunk is
written to the new sink in the same callback if it has positive length and no `SideInfo`
flag. -/
theorem C5_no_rotation_without_config (fuel : Nat) (env : Env) (port : MMAL_PORT_T)
    (buffer : MMAL_BUFFER_HEADER_T) (statics : Statics) (pData : PORT_USERDATA)
    (hport : port.userdata = some pData) (hnull : pData.cb_buff = none) :
    ∃ r pData1, encoder_buffer_callback fuel env port buffer statics = some r ∧
      r.1.userdata = some pData1 ∧
      (buffer.flag_config = false →
        pData1.pstate.segmentNumber = pData.pstate.segmentNumber ∧
        pData1.pstate.splitNow = pData.pstate.splitNow ∧
        pData1.file_handle = pData.file_handle ∧
        pData1.imv_file_handle = pData.imv_file_handle ∧
        pData1.pts_file_handle = pData.pts_file_handle ∧
        r.2.1.base_time = (if statics.base_time = -1 then env.time_first else statics.base_time) ∧
        ∀ e ∈ r.2.2, (∀ name n h, e ≠ Event.open_filename name n h) ∧ (∀ h, e ≠ Event.fclose h)) ∧
      (∀ name n h, Event.open_filename name n h ∈ r.2.2 → buffer.flag_config = true) ∧
      (pData1.file_handle ≠ pData.file_handle →
        buffer.flag_config = true ∧
        (buffer.length ≠ 0 → buffer.flag_codecsideinfo = false →
          Event.fwrite pData1.file_handle buffer.data env.fwrite_ret ∈ r.2.2)) := by
  have hcb := callback_direct fuel env port buffer statics pData hport hnull
  refine ⟨_, _, hcb, rfl, ?_⟩
  have hno := no_rotation_frame env port buffer statics pData
  have hcfg_of_rot :
      rotate_cond pData buffer (base_time_after_init env statics) env.time_now = true →
        buffer.flag_config = true := rotate_cond_config pData buffer _ _
  refine ⟨?_, ?_, ?_⟩
  · intro hcfg
    have hrot : rotate_cond pData buffer (base_time_after_init env statics) env.time_now = false := by
      cases h : rotate_cond pData buffer (base_time_after_init env statics) env.time_now with
      | false => rfl
      | true => rw [hcfg_of_rot h] at hcfg; cases hcfg
    exact hno hrot
  · intro name n h hmem
    cases hrot : rotate_cond pData buffer (base_time_after_init env statics) env.time_now with
    | true => exact hcfg_of_rot hrot
    | false => exact absurd rfl (((hno hrot).2.2.2.2.2.2 _ hmem).1 name n h)
  · intro hchg
    cases hrot : rotate_cond pData buffer (base_time_after_init env statics) env.time_now with
    | false => exact absurd (hno hrot).2.2.1 hchg
    | true =>
      refine ⟨hcfg_of_rot hrot, ?_⟩
      intro hlen hside
      show Event.fwrite
        (direct_sink env pData buffer (base_time_after_init env statics) env.time_now).1.file_handle
        buffer.data env.fwrite_ret ∈
        (direct_sink env pData buffer (base_time_after_init env statics) env.time_now).2.2 ++
          (annotation_tick env.time_now statics.last_second).2 ++ release_and_resubmit env port
      rw [direct_sink_rotate env pData buffer _ _ hrot]
      simp only [List.append_assoc, List.mem_append]
      right
      left
      rw [(write_chunk_keeps env (rotate env pData).1 buffer).1]
      exact write_chunk_writes_primary env (rotate env pData).1 buffer hlen hside

/-- C5 at a concrete input: the split is requested and the interval has elapsed, yet a
chunk without the `Config` flag leaves the segment state as it was. -/
theorem C5_no_rotation_without_config_witness :
    ∃ r pData1, encoder_buffer_callback 0 (plain_env 5000 9 1)
        (direct_port 3 { split_requested with segmentSize := 10 }) (frame_chunk [7] false)
        { initial_statics with base_time := 0 } = some r ∧
      r.1.userdata = some pData1 ∧
      ((frame_chunk [7] false).flag_config = false →
        pData1.pstate.segmentNumber = 1 ∧ pData1.pstate.splitNow = 1 ∧
        pData1.file_handle = 3 ∧ pData1.imv_file_handle = 0 ∧ pData1.pts_file_handle = 0 ∧
        r.2.1.base_time = (if (0 : Int) = -1 then 5000 else 0) ∧
        ∀ e ∈ r.2.2, (∀ name n h, e ≠ Event.open_filename name n h) ∧ (∀ h, e ≠ Event.fclose h)) ∧
      (∀ name n h, Event.open_filename name n h ∈ r.2.2 →
        (frame_chunk [7] false).flag_config = true) ∧
      (pData1.file_handle ≠ 3 →
        (frame_chunk [7] false).flag_config = true ∧
        ((frame_chunk [7] false).length ≠ 0 → (frame_chunk [7] false).flag_codecsideinfo = false →
          Event.fwrite pData1.file_handle (frame_chunk [7] false).data 1 ∈ r.2.2)) :=
  C5_no_rotation_without_config 0 (plain_env 5000 9 1)
    (direct_port 3 { split_requested with segmentSize := 10 }) (frame_chunk [7] false)
    { initial_statics with base_time := 0 }
    { zeroed_userdata 3 none 0 with pstate := { split_requested with segmentSize := 10 } }
    rfl rfl


/-- C6 (the claim as stated fails on the code): a `Config` chunk arriving at
`now = baseTime + segmentSize` (base time 0, segment size 1000, clock 1000) does not rotate:
segment number 1, base time 0 and sink 3 stay; and a split request (`splitNow = 1`) without
`splitWait` does not rotate either and is not consumed. -/
theorem C6_no_rotation_at_exact_interval_nor_without_split_wait :
    segment_summary (encoder_buffer_callback 0 (plain_env 1000 9 1)
      (direct_port 3 { default_status with segmentSize := 1000, filename := some ['o', 'u', 't'] })
      (config_chunk [7]) { initial_statics with base_time := 0 }) = some (1, 0, 0, 3) ∧
    segment_summary (encoder_buffer_callback 0 (plain_env 1000 9 1)
      (direct_port 3 { default_status with splitNow := 1, filename := some ['o', 'u', 't'] })
      (config_chunk [7]) { initial_statics with base_time := 0 }) = some (1, 1, 0, 3) := by
  decide

/-- C6 (as amended): in direct-sink mode, for a `Config` chunk, a rotation is performed
exactly when `segmentSize` is non-zero and `now > baseTime + segmentSize` (the interval is
exceeded), or both `splitWait` and `splitNow` are set. When the test holds the base time
becomes `now`, `splitNow` is cleared, the segment number moves on and `open_filename` is
called for a primary destination that is set and does not begin with `-`; when it fails,
base time, `splitNow`, segment number and the three handles stay and no file is opened or
closed. -/
theorem C6_rotation_exactly_when_exceeded_or_split (fuel : Nat) (env : Env)
    (port : MMAL_PORT_T) (buffer : MMAL_BUFFER_HEADER_T) (statics : Statics)
    (pData : PORT_USERDATA)
    (hport : port.userdata = some pData) (hnull : pData.cb_buff = none)
    (hcfg : buffer.flag_config = true) :
    ∃ r pData1, encoder_buffer_callback fuel env port buffer statics = some r ∧
      r.1.userdata = some pData1 ∧
      (((pData.pstate.segmentSize ≠ 0 ∧
            env.time_now > (if statics.base_time = -1 then env.time_first else statics.base_time)
              + pData.pstate.segmentSize) ∨
          (pData.pstate.splitWait ≠ 0 ∧ pData.pstate.splitNow ≠ 0)) →
        r.2.1.base_time = env.time_now ∧ pData1.pstate.splitNow = 0 ∧
        pData1.pstate.segmentNumber =
          (if pData.pstate.segmentWrap ≠ 0 ∧
              pData.pstate.segmentNumber + 1 > pData.pstate.segmentWrap then 1
            else pData.pstate.segmentNumber + 1) ∧
        ∀ s, pData.pstate.filename = some s → s.head? ≠ some '-' →
          Event.open_filename s pData1.pstate.segmentNumber env.open_main ∈ r.2.2) ∧
      (¬ ((pData.pstate.segmentSize ≠ 0 ∧
            env.time_now > (if statics.base_time = -1 then env.time_first else statics.base_time)
              + pData.pstate.segmentSize) ∨
          (pData.pstate.splitWait ≠ 0 ∧ pData.pstate.splitNow ≠ 0)) →
        r.2.1.base_time = (if statics.base_time = -1 then env.time_first else statics.base_time) ∧
        pData1.pstate.splitNow = pData.pstate.splitNow ∧
        pData1.pstate.segmentNumber = pData.pstate.segmentNumber ∧
        pData1.file_handle = pData.file_handle ∧
        pData1.imv_file_handle = pData.imv_file_handle ∧
        pData1.pts_file_handle = pData.pts_file_handle ∧
        ∀ e ∈ r.2.2, (∀ name n h, e ≠ Event.open_filename name n h) ∧ (∀ h, e ≠ Event.fclose h)) := by
  have hcb := callback_direct fuel env port buffer statics pData hport hnull
  have hiff := rotate_cond_iff pData buffer (base_time_after_init env statics) env.time_now
  refine ⟨_, _, hcb, rfl, ?_, ?_⟩
  · intro hcond
    have hrot : rotate_cond pData buffer (base_time_after_init env statics) env.time_now = true :=
      hiff.2 ⟨hcfg, hcond⟩
    simp only [direct_sink_rotate env pData buffer _ _ hrot]
    have hk := write_chunk_keeps env (rotate env pData).1 buffer
    refine ⟨trivial, hk.2.2.2.2.2.1, hk.2.2.2.2.1, ?_⟩
    intro s hs hhead
    rw [hk.2.2.2.2.1]
    exact List.mem_append_left _ (List.mem_append_left _ (List.mem_append_left _
      (rotate_opens_primary env pData s hs hhead)))
  · intro hcond
    have hrot : rotate_cond pData buffer (base_time_after_init env statics) env.time_now = false := by
      cases h : rotate_cond pData buffer (base_time_after_init env statics) env.time_now with
      | false => rfl
      | true => exact absurd (hiff.1 h).2 hcond
    have hno := no_rotation_frame env port buffer statics pData hrot
    exact ⟨hno.2.2.2.2.2.1, hno.2.1, hno.1, hno.2.2.1, hno.2.2.2.1, hno.2.2.2.2.1,
      hno.2.2.2.2.2.2⟩

/-- C6 at a concrete input: one millisecond past the interval the `Config` chunk rotates. -/
theorem C6_rotation_exactly_when_exceeded_or_split_witness :
    segment_summary (encoder_buffer_callback 0 (plain_env 1001 9 1)
      (direct_port 3 { default_status with segmentSize := 1000, filename := some ['o', 'u', 't'] })
      (config_chunk [7]) { initial_statics with base_time := 0 }) = some (2, 0, 1001, 9) ∧
    ∃ r pData1, encoder_buffer_callback 0 (plain_env 1001 9 1)
        (direct_port 3 { default_status with segmentSize := 1000, filename := some ['o', 'u', 't'] })
        (config_chunk [7]) { initial_statics with base_time := 0 } = some r ∧
      r.1.userdata = some pData1 ∧ r.2.1.base_time = 1001 ∧ pData1.pstate.splitNow = 0 ∧
      pData1.pstate.segmentNumber = 2 := by
  refine ⟨by decide, ?_⟩
  obtain ⟨r, pData1, hr, hud, hyes, _⟩ := C6_rotation_exactly_when_exceeded_or_split 0
    (plain_env 1001 9 1)
    (direct_port 3 { default_status with segmentSize := 1000, filename := some ['o', 'u', 't'] })
    (config_chunk [7]) { initial_statics with base_time := 0 }
    { zeroed_userdata 3 none 0 with
      pstate := { default_status with segmentSize := 1000, filename := some ['o', 'u', 't'] } }
    rfl rfl rfl
  have h := hyes (Or.inl (by decide))
  exact ⟨r, pData1, hr, hud, h.1, h.2.1, h.2.2.1⟩


/-- C7: over every run of the callback in direct-sink mode, the wrap point being a count
(`segmentWrap ≥ 0`, 0 meaning no wrap): (1) a rotation makes the segment number `old + 1`,
except that it is 1 exactly when `segmentWrap > 0` and `old + 1 > segmentWrap`; (2) with
`segmentWrap = 0` the number after the run is the initial one plus the number of
rotations, that is `n + 1` after `n` rotations from the initial value 1 of
`default_status`; (3) with `segmentWrap > 0` and `1 ≤ segmentNumber ≤ segmentWrap` the
number stays within `[1, segmentWrap]`. -/
theorem C7_segment_number_over_rotations (fuel : Nat)
    (run : List (Env × MMAL_BUFFER_HEADER_T)) (port : MMAL_PORT_T) (statics : Statics)
    (pData : PORT_USERDATA)
    (hport : port.userdata = some pData) (hnull : pData.cb_buff = none)
    (hwrap : 0 ≤ pData.pstate.segmentWrap) :
    ∃ r pData1, run_callbacks fuel run port statics = some r ∧ r.1.userdata = some pData1 ∧
      (∀ env buffer, run = [(env, buffer)] → rotates env port buffer statics = true →
        pData1.pstate.segmentNumber =
          (if 0 < pData.pstate.segmentWrap ∧
              pData.pstate.segmentNumber + 1 > pData.pstate.segmentWrap then 1
            else pData.pstate.segmentNumber + 1)) ∧
      (pData.pstate.segmentWrap = 0 →
        pData1.pstate.segmentNumber
          = pData.pstate.segmentNumber + rotation_count fuel run port statics) ∧
      (0 < pData.pstate.segmentWrap → 1 ≤ pData.pstate.segmentNumber →
        pData.pstate.segmentNumber ≤ pData.pstate.segmentWrap →
        1 ≤ pData1.pstate.segmentNumber ∧
          pData1.pstate.segmentNumber ≤ pData.pstate.segmentWrap) := by
  obtain ⟨r, pData1, hr, hud, _, _, hgrow, hrange⟩ :=
    run_direct_segment fuel run port statics pData hport hnull
  refine ⟨r, pData1, hr, hud, ?_, hgrow, hrange⟩
  intro env buffer hrun hrot
  subst hrun
  obtain ⟨r1, pData2, hr1, hud1, _, _, hnum⟩ :=
    callback_direct_segment fuel env port buffer statics pData hport hnull
  obtain ⟨port1, statics1, evs1⟩ := r1
  simp only [run_callbacks, hr1, Option.some.injEq] at hr
  subst hr
  have hsame : pData1 = pData2 := by
    have h := hud.symm.trans hud1
    exact Option.some.inj h
  have hcond : (pData.pstate.segmentWrap ≠ 0 ∧
      pData.pstate.segmentNumber + 1 > pData.pstate.segmentWrap) ↔
      (0 < pData.pstate.segmentWrap ∧
        pData.pstate.segmentNumber + 1 > pData.pstate.segmentWrap) := by
    constructor
    · rintro ⟨h1, h2⟩
      exact ⟨by omega, h2⟩
    · rintro ⟨h1, h2⟩
      exact ⟨by omega, h2⟩
  rw [hsame, hnum, hrot]
  simp only [if_true, next_segment]
  exact if_congr hcond rfl rfl

/-- C7 at concrete inputs: two rotations without a wrap point lead from the default
segment number 1 to 3; with the wrap point 2 a rotation from the segment number 2 leads
to 1. -/
theorem C7_segment_number_over_rotations_witness :
    rotation_count 0
      [(plain_env 20 9 1, config_chunk [7]), (plain_env 40 9 1, config_chunk [7])]
      (direct_port 3 { default_status with segmentSize := 10 })
      { initial_statics with base_time := 0 } = 2 ∧
    (∃ r pData1, run_callbacks 0
        [(plain_env 20 9 1, config_chunk [7]), (plain_env 40 9 1, config_chunk [7])]
        (direct_port 3 { default_status with segmentSize := 10 })
        { initial_statics with base_time := 0 } = some r ∧
      r.1.userdata = some pData1 ∧ pData1.pstate.segmentNumber = 1 + (2 : Nat)) ∧
    segment_summary (encoder_buffer_callback 0 (plain_env 20 9 1)
      (direct_port 3
        { default_status with segmentSize := 10, segmentWrap := 2, segmentNumber := 2 })
      (config_chunk [7]) { initial_statics with base_time := 0 }) = some (1, 0, 20, 3) := by
  have hcount : rotation_count 0
      [(plain_env 20 9 1, config_chunk [7]), (plain_env 40 9 1, config_chunk [7])]
      (direct_port 3 { default_status with segmentSize := 10 })
      { initial_statics with base_time := 0 } = 2 := by decide
  refine ⟨hcount, ?_, by decide⟩
  obtain ⟨r, pData1, hr, hud, _, hgrow, _⟩ := C7_segment_number_over_rotations 0
    [(plain_env 20 9 1, config_chunk [7]), (plain_env 40 9 1, config_chunk [7])]
    (direct_port 3 { default_status with segmentSize := 10 })
    { initial_statics with base_time := 0 }
    { zeroed_userdata 3 none 0 with pstate := { default_status with segmentSize := 10 } }
    rfl rfl (by decide)
  have h := hgrow rfl
  rw [hcount] at h
  exact ⟨r, pData1, hr, hud, h⟩

/-- C9: in direct-sink mode the callback returns and, for a chunk of positive length that
is written (no `SideInfo` flag, or motion vectors enabled), the data is passed to `fwrite`
on its sink, `abort` is 1 afterwards if `fwrite` transferred fewer bytes than the chunk
length and is its previous value if it transferred the full length; a `SideInfo` chunk
with motion vectors disabled and a chunk of length zero make no `fwrite` and leave `abort`
as it is; and `abort` is never reset from 1. -/
theorem C9_short_write_sets_abort (fuel : Nat) (env : Env) (port : MMAL_PORT_T)
    (buffer : MMAL_BUFFER_HEADER_T) (statics : Statics) (pData : PORT_USERDATA)
    (hport : port.userdata = some pData) (hnull : pData.cb_buff = none) :
    ∃ r pData1, encoder_buffer_callback fuel env port buffer statics = some r ∧
      r.1.userdata = some pData1 ∧
      (buffer.length ≠ 0 → buffer.flag_codecsideinfo = false →
        Event.fwrite pData1.file_handle buffer.data env.fwrite_ret ∈ r.2.2 ∧
        (env.fwrite_ret < buffer.length → pData1.abort = 1) ∧
        (env.fwrite_ret = buffer.length → pData1.abort = pData.abort)) ∧
      (buffer.length ≠ 0 → buffer.flag_codecsideinfo = true →
        pData.pstate.inlineMotionVectors ≠ 0 →
        Event.fwrite pData1.imv_file_handle buffer.data env.fwrite_ret ∈ r.2.2 ∧
        (env.fwrite_ret < buffer.length → pData1.abort = 1) ∧
        (env.fwrite_ret = buffer.length → pData1.abort = pData.abort)) ∧
      (buffer.length = 0 ∨
          (buffer.flag_codecsideinfo = true ∧ pData.pstate.inlineMotionVectors = 0) →
        pData1.abort = pData.abort ∧ ∀ e ∈ r.2.2, ∀ h d k, e ≠ Event.fwrite h d k) ∧
      (pData.abort = 1 → pData1.abort = 1) := by
  have hcb := callback_direct fuel env port buffer statics pData hport hnull
  refine ⟨_, _, hcb, rfl, ?_⟩
  obtain ⟨q, hq, hab, himv, hevs⟩ : ∃ q : PORT_USERDATA,
      (direct_sink env pData buffer (base_time_after_init env statics) env.time_now).1
        = (write_chunk env q buffer).1 ∧
      q.abort = pData.abort ∧ q.pstate.inlineMotionVectors = pData.pstate.inlineMotionVectors ∧
      ∃ pre, (direct_sink env pData buffer (base_time_after_init env statics) env.time_now).2.2
          = pre ++ (write_chunk env q buffer).2 ∧
        ∀ e ∈ pre, ∀ h d k, e ≠ Event.fwrite h d k := by
    cases hrot : rotate_cond pData buffer (base_time_after_init env statics) env.time_now with
    | false =>
      refine ⟨pData, ?_, rfl, rfl, [], ?_, ?_⟩
      · rw [direct_sink_no_rotate _ _ _ _ _ hrot]
      · rw [direct_sink_no_rotate _ _ _ _ _ hrot]
        rfl
      · intro e he
        simp at he
    | true =>
      refine ⟨(rotate env pData).1, ?_, rfl, rfl, (rotate env pData).2, ?_, ?_⟩
      · rw [direct_sink_rotate _ _ _ _ _ hrot]
      · rw [direct_sink_rotate _ _ _ _ _ hrot]
      · intro e he h d k
        rcases rotate_events_kind env pData e he with ⟨s, n, h1, rfl⟩ | ⟨h1, rfl⟩ <;> simp
  obtain ⟨pre, hpre, hprew⟩ := hevs
  have habort := write_chunk_abort env q buffer
  have hk := write_chunk_keeps env q buffer
  simp only [hq, hpre]
  refine ⟨?_, ?_, ?_, ?_⟩
  · intro hlen hside
    refine ⟨?_, ?_, ?_⟩
    · rw [hk.1]
      exact List.mem_append_left _ (List.mem_append_left _
        (List.mem_append_right _ (write_chunk_writes_primary env q buffer hlen hside)))
    · intro hlt
      rw [habort, if_pos ⟨hlen, Or.inl hside, by omega⟩]
    · intro heq
      rw [habort, if_neg (fun hc => hc.2.2 heq), hab]
  · intro hlen hside hmv
    refine ⟨?_, ?_, ?_⟩
    · rw [hk.2.1]
      exact List.mem_append_left _ (List.mem_append_left _
        (List.mem_append_right _
          (write_chunk_writes_imv env q buffer hlen hside (by rw [himv]; exact hmv))))
    · intro hlt
      rw [habort, if_pos ⟨hlen, Or.inr (by rw [himv]; exact hmv), by omega⟩]
    · intro heq
      rw [habort, if_neg (fun hc => hc.2.2 heq), hab]
  · intro hsilent
    have hsil : (write_chunk env q buffer).2 = [] :=
      write_chunk_silent env q buffer (by rw [himv]; exact hsilent)
    refine ⟨?_, ?_⟩
    · rw [habort, if_neg, hab]
      rintro ⟨hlen, hor, _⟩
      rcases hsilent with h0 | ⟨hs, hm⟩
      · exact hlen h0
      · rcases hor with hf | hn
        · rw [hs] at hf
          cases hf
        · exact hn (by rw [himv]; exact hm)
    · intro e he
      rw [hsil, List.append_nil, List.append_assoc, List.mem_append] at he
      rcases he with he | he
      · exact hprew e he
      · exact (tail_no_open_close env port env.time_now statics.last_second e he).2.2
  · intro h1
    rw [habort]
    split
    · rfl
    · rw [hab, h1]

/-- C9 at a concrete input: a chunk of two bytes of which `fwrite` transfers one sets
`abort`. -/
theorem C9_short_write_sets_abort_witness :
    ∃ r pData1, encoder_buffer_callback 0 (plain_env 5 0 1) (direct_port 3 default_status)
        (frame_chunk [7, 8] false) initial_statics = some r ∧
      r.1.userdata = some pData1 ∧
      Event.fwrite pData1.file_handle [7, 8] 1 ∈ r.2.2 ∧ pData1.abort = 1 := by
  obtain ⟨r, pData1, hr, hud, h, _⟩ := C9_short_write_sets_abort 0 (plain_env 5 0 1)
    (direct_port 3 default_status) (frame_chunk [7, 8] false) initial_statics
    { zeroed_userdata 3 none 0 with pstate := default_status } rfl rfl
  have h1 := h (by decide) rfl
  exact ⟨r, pData1, hr, hud, h1.1, h1.2.1 (by decide)⟩

/-- C10 (the claim as stated fails on the code): the first chunk is written short (0 of 1
byte), `abort` is set; the callback of the next chunk calls `fwrite` on the same primary
sink 3 all the same. -/
theorem C10_write_attempted_after_abort :
    (context_after (run_callbacks 0 [(plain_env 5 0 0, frame_chunk [7] false)]
      (direct_port 3 default_status) initial_statics)).map (fun pData => pData.abort) = some 1 ∧
    events_after (run_callbacks 0
      [(plain_env 5 0 0, frame_chunk [7] false), (plain_env 6 0 1, frame_chunk [8] false)]
      (direct_port 3 default_status) initial_statics) =
      [Event.fwrite 3 [7] 0, Event.vcos_log_error (LogMsg.failed_to_write 0 1),
        Event.update_annotation_data, Event.mmal_buffer_header_release,
        Event.mmal_queue_get true, Event.mmal_port_send_buffer true,
        Event.fwrite 3 [8] 1,
        Event.mmal_buffer_header_release, Event.mmal_queue_get true,
        Event.mmal_port_send_buffer true] := by
  decide

/-- C10 (as amended): the callback does not consult `abort`. In direct-sink mode, once a
short write has set `abort` to 1, every later callback leaves it at 1, makes the same calls
as it would with `abort` clear, and still passes a chunk of positive length without the
`SideInfo` flag to `fwrite` on the primary sink. -/
theorem C10_abort_is_sticky_and_not_consulted (fuel : Nat) (env : Env)
    (port : MMAL_PORT_T) (buffer : MMAL_BUFFER_HEADER_T) (statics : Statics)
    (pData : PORT_USERDATA)
    (hport : port.userdata = some pData) (hnull : pData.cb_buff = none)
    (habort : pData.abort = 1) :
    ∃ r pData1, encoder_buffer_callback fuel env port buffer statics = some r ∧
      r.1.userdata = some pData1 ∧ pData1.abort = 1 ∧
      r.2.2 = events_after (encoder_buffer_callback fuel env
        { port with userdata := some { pData with abort := 0 } } buffer statics) ∧
      (buffer.length ≠ 0 → buffer.flag_codecsideinfo = false →
        Event.fwrite pData1.file_handle buffer.data env.fwrite_ret ∈ r.2.2) := by
  have hcb := callback_direct fuel env port buffer statics pData hport hnull
  have hign := events_ignore_abort fuel env port buffer statics pData hport hnull 0
  refine ⟨_, _, hcb, rfl, ?_, ?_, ?_⟩
  · show (direct_sink env pData buffer (base_time_after_init env statics)
      env.time_now).1.abort = 1
    cases hrot : rotate_cond pData buffer (base_time_after_init env statics) env.time_now with
    | false =>
      rw [direct_sink_no_rotate _ _ _ _ _ hrot, write_chunk_abort]
      split
      · rfl
      · exact habort
    | true =>
      rw [direct_sink_rotate _ _ _ _ _ hrot, write_chunk_abort]
      split
      · rfl
      · exact habort
  · rw [hign, hcb]
    rfl
  · intro hlen hside
    show Event.fwrite
      (direct_sink env pData buffer (base_time_after_init env statics) env.time_now).1.file_handle
      buffer.data env.fwrite_ret ∈
      (direct_sink env pData buffer (base_time_after_init env statics) env.time_now).2.2 ++
        (annotation_tick env.time_now statics.last_second).2 ++ release_and_resubmit env port
    cases hrot : rotate_cond pData buffer (base_time_after_init env statics) env.time_now with
    | false =>
      rw [direct_sink_no_rotate _ _ _ _ _ hrot]
      simp only [(write_chunk_keeps env pData buffer).1]
      exact List.mem_append_left _ (List.mem_append_left _
        (write_chunk_writes_primary env pData buffer hlen hside))
    | true =>
      rw [direct_sink_rotate _ _ _ _ _ hrot]
      simp only [(write_chunk_keeps env (rotate env pData).1 buffer).1]
      exact List.mem_append_left _ (List.mem_append_left _ (List.mem_append_right _
        (write_chunk_writes_primary env _ buffer hlen hside)))

/-- C10 at a concrete input: with `abort` already 1 the next chunk is passed to `fwrite`
on the primary sink and `abort` stays 1. -/
theorem C10_abort_is_sticky_and_not_consulted_witness :
    ∃ r pData1, encoder_buffer_callback 0 (plain_env 6 0 1)
        { userdata := some { zeroed_userdata 3 none 0 with abort := 1 }, is_enabled := true }
        (frame_chunk [8] false) initial_statics = some r ∧
      r.1.userdata = some pData1 ∧ pData1.abort = 1 ∧
      Event.fwrite pData1.file_handle [8] 1 ∈ r.2.2 := by
  obtain ⟨r, pData1, hr, hud, hab, _, hw⟩ := C10_abort_is_sticky_and_not_consulted 0
    (plain_env 6 0 1)
    { userdata := some { zeroed_userdata 3 none 0 with abort := 1 }, is_enabled := true }
    (frame_chunk [8] false) initial_statics { zeroed_userdata 3 none 0 with abort := 1 }
    rfl rfl rfl
  exact ⟨r, pData1, hr, hud, hab, hw (by decide) rfl⟩

/-! ## Lemmas on chunks that leave the ring alone -/

theorem tail_events_kind (env : Env) (port : MMAL_PORT_T) (now last : Int) (e : Event)
    (he : e ∈ (annotation_tick now last).2 ++ release_and_resubmit env port) :
    e = Event.update_annotation_data ∨ e = Event.mmal_buffer_header_release ∨
      e = Event.null_userdata_read ∨ (∃ b, e = Event.mmal_queue_get b) ∨
      (∃ b, e = Event.mmal_port_send_buffer b) ∨
      e = Event.vcos_log_error LogMsg.unable_to_return_buffer := by
  simp only [annotation_tick, release_and_resubmit, List.mem_append] at he
  rcases he with he | he | he
  · split at he
    · simp only [List.mem_singleton] at he
      exact Or.inl he
    · simp at he
  · simp only [List.mem_singleton] at he
    exact Or.inr (Or.inl he)
  · split at he
    · split at he
      · simp only [List.mem_singleton] at he
        exact Or.inr (Or.inr (Or.inl he))
      · simp only [List.mem_append, List.mem_singleton] at he
        rcases he with (he | he) | he
        · exact Or.inr (Or.inr (Or.inr (Or.inl ⟨_, he⟩)))
        · split at he
          · simp only [List.mem_singleton] at he
            exact Or.inr (Or.inr (Or.inr (Or.inr (Or.inl ⟨_, he⟩))))
          · simp at he
        · split at he
          · simp only [List.mem_singleton] at he
            exact Or.inr (Or.inr (Or.inr (Or.inr (Or.inr he))))
          · simp at he
    · simp at he

theorem callback_circular_config (fuel : Nat) (env : Env) (port : MMAL_PORT_T)
    (buffer : MMAL_BUFFER_HEADER_T) (statics : Statics) (pData : PORT_USERDATA)
    (ring : Int → Nat)
    (hport : port.userdata = some pData) (hring : pData.cb_buff = some ring)
    (hcfg : buffer.flag_config = true) :
    encoder_buffer_callback fuel env port buffer statics =
      some ({ port with userdata := some (circular_config pData buffer).1 },
        { base_time := base_time_after_init env statics,
          last_second := (annotation_tick env.time_now statics.last_second).1,
          frame_start := statics.frame_start },
        (circular_config pData buffer).2 ++
          (annotation_tick env.time_now statics.last_second).2 ++
          release_and_resubmit env port) := by
  simp only [encoder_buffer_callback, hport, hring, circular, hcfg, base_time_after_init]
  rfl

theorem callback_circular_sideinfo (fuel : Nat) (env : Env) (port : MMAL_PORT_T)
    (buffer : MMAL_BUFFER_HEADER_T) (statics : Statics) (pData : PORT_USERDATA)
    (ring : Int → Nat)
    (hport : port.userdata = some pData) (hring : pData.cb_buff = some ring)
    (hcfg : buffer.flag_config = false) (hside : buffer.flag_codecsideinfo = true) :
    encoder_buffer_callback fuel env port buffer statics =
      some ({ port with userdata := some pData },
        { base_time := base_time_after_init env statics,
          last_second := (annotation_tick env.time_now statics.last_second).1,
          frame_start := statics.frame_start },
        (annotation_tick env.time_now statics.last_second).2 ++
          release_and_resubmit env port) := by
  simp only [encoder_buffer_callback, hport, hring, circular, hcfg, hside,
    base_time_after_init]
  rfl

theorem write_chunk_dropped (env : Env) (pData : PORT_USERDATA)
    (buffer : MMAL_BUFFER_HEADER_T) (hside : buffer.flag_codecsideinfo = true)
    (himv : pData.pstate.inlineMotionVectors = 0) :
    write_chunk env pData buffer = (pData, []) := by
  simp only [write_chunk, sink_write, hside, himv]
  split_ifs <;> simp_all

/-! ## The claims C17 to C20 -/

/-- C18: in circular mode a `Config` chunk of length `L` (whatever its other flags)
leaves the ring bytes, `cb_wptr`, `cb_wrap`, the keyframe index and the
frame start as they are; if `header_wptr + L ≤ 29` the chunk bytes are stored in
`header_bytes` from `header_wptr` on, the other header bytes stay and `header_wptr` grows by
`L`; otherwise `header_bytes` and `header_wptr` stay and `Error in header bytes` is
logged. -/
theorem C18_config_chunk_goes_to_header_only (fuel : Nat) (env : Env) (port : MMAL_PORT_T)
    (buffer : MMAL_BUFFER_HEADER_T) (statics : Statics) (pData : PORT_USERDATA)
    (ring : Int → Nat)
    (hport : port.userdata = some pData) (hring : pData.cb_buff = some ring)
    (hcfg : buffer.flag_config = true) :
    ∃ r pData1, encoder_buffer_callback fuel env port buffer statics = some r ∧
      r.1.userdata = some pData1 ∧ r.2.1.frame_start = statics.frame_start ∧
      pData1.cb_buff = some ring ∧ pData1.cb_len = pData.cb_len ∧
      pData1.cb_wptr = pData.cb_wptr ∧ pData1.cb_wrap = pData.cb_wrap ∧
      pData1.iframe_buff = pData.iframe_buff ∧
      pData1.iframe_buff_wpos = pData.iframe_buff_wpos ∧
      pData1.iframe_buff_rpos = pData.iframe_buff_rpos ∧
      (pData.header_wptr + buffer.length ≤ 29 →
        pData1.header_wptr = pData.header_wptr + buffer.length ∧
        (∀ i : Nat, i < buffer.length →
          pData1.header_bytes (pData.header_wptr + i) = buffer.data.getD i 0) ∧
        (∀ j : Int, j < pData.header_wptr ∨ pData.header_wptr + buffer.length ≤ j →
          pData1.header_bytes j = pData.header_bytes j) ∧
        Event.vcos_log_error LogMsg.error_in_header_bytes ∉ r.2.2) ∧
      (29 < pData.header_wptr + buffer.length →
        pData1.header_bytes = pData.header_bytes ∧ pData1.header_wptr = pData.header_wptr ∧
        Event.vcos_log_error LogMsg.error_in_header_bytes ∈ r.2.2) := by
  have hcb := callback_circular_config fuel env port buffer statics pData ring hport hring hcfg
  refine ⟨_, _, hcb, rfl, rfl, ?_⟩
  by_cases hfit : pData.header_wptr + buffer.length > HEADER_BYTES_SIZE
  · have hc : circular_config pData buffer
        = (pData, [Event.vcos_log_error LogMsg.error_in_header_bytes]) := by
      simp [circular_config, hfit]
    rw [hc]
    refine ⟨hring, rfl, rfl, rfl, rfl, rfl, rfl, ?_, ?_⟩
    · intro hle
      simp only [HEADER_BYTES_SIZE] at hfit
      omega
    · intro _
      exact ⟨rfl, rfl, by simp⟩
  · have hc : circular_config pData buffer
        = ({ pData with
            header_bytes :=
              memcpy pData.header_bytes pData.header_wptr buffer.data 0 buffer.length
            header_wptr := pData.header_wptr + buffer.length }, []) := by
      simp [circular_config, hfit]
    rw [hc]
    refine ⟨hring, rfl, rfl, rfl, rfl, rfl, rfl, ?_, ?_⟩
    · intro _
      refine ⟨rfl, ?_, ?_, ?_⟩
      · intro i hi
        simp only [memcpy]
        rw [if_pos (by omega)]
        congr 1
        omega
      · intro j hj
        simp only [memcpy]
        rw [if_neg (by omega)]
      · intro hmem
        simp only [List.nil_append] at hmem
        rcases tail_events_kind env port env.time_now statics.last_second _ hmem with
          h | h | h | ⟨b, h⟩ | ⟨b, h⟩ | h <;> simp at h
    · intro hgt
      simp only [HEADER_BYTES_SIZE] at hfit
      omega

/-- C18 at a concrete input: a header of three bytes is appended to the empty header
accumulator of a context in circular mode. -/
theorem C18_config_chunk_goes_to_header_only_witness :
    ∃ r pData1, encoder_buffer_callback 0 (plain_env 5 0 0) (fresh_circular_port 8)
        (config_chunk [39, 66, 0]) initial_statics = some r ∧
      r.1.userdata = some pData1 ∧ pData1.cb_wptr = 0 ∧ pData1.cb_wrap = 0 ∧
      pData1.header_wptr = 3 ∧
      (∀ i : Nat, i < 3 → pData1.header_bytes ((0 : Int) + i) = [39, 66, 0].getD i 0) := by
  obtain ⟨r, pData1, hr, hud, _, _, _, hw, hwr, _, _, _, hfit, _⟩ :=
    C18_config_chunk_goes_to_header_only 0 (plain_env 5 0 0) (fresh_circular_port 8)
      (config_chunk [39, 66, 0]) initial_statics (zeroed_userdata 0 (some (fun _ => 0)) 8)
      (fun _ => 0) rfl rfl rfl
  have h := hfit (by decide)
  exact ⟨r, pData1, hr, hud, hw, hwr, h.1, h.2.1⟩

/-- C19: a `SideInfo` chunk without the `Config` flag, motion-vector output disabled. The
callback returns and leaves the whole context as it is, in direct-sink mode and in
circular mode alike (so `abort`, the ring, its cursor, the keyframe index and the header
accumulator are unchanged), the frame start stays, and among its calls there is no
`fwrite`, no timestamp record and no report of a failed write. -/
theorem C19_dropped_side_info_changes_nothing (fuel : Nat) (env : Env)
    (port : MMAL_PORT_T) (buffer : MMAL_BUFFER_HEADER_T) (statics : Statics)
    (pData : PORT_USERDATA)
    (hport : port.userdata = some pData)
    (hcfg : buffer.flag_config = false) (hside : buffer.flag_codecsideinfo = true)
    (himv : pData.pstate.inlineMotionVectors = 0) :
    ∃ r, encoder_buffer_callback fuel env port buffer statics = some r ∧
      r.1.userdata = some pData ∧ r.2.1.frame_start = statics.frame_start ∧
      ∀ e ∈ r.2.2, (∀ h d k, e ≠ Event.fwrite h d k) ∧ (∀ h s m, e ≠ Event.fprintf_pts h s m) ∧
        (∀ w l, e ≠ Event.vcos_log_error (LogMsg.failed_to_write w l)) := by
  have htail : ∀ e ∈ (annotation_tick env.time_now statics.last_second).2 ++
      release_and_resubmit env port,
      (∀ h d k, e ≠ Event.fwrite h d k) ∧ (∀ h s m, e ≠ Event.fprintf_pts h s m) ∧
        (∀ w l, e ≠ Event.vcos_log_error (LogMsg.failed_to_write w l)) := by
    intro e he
    rcases tail_events_kind env port env.time_now statics.last_second e he with
      h | h | h | ⟨b, h⟩ | ⟨b, h⟩ | h <;> subst h <;>
      exact ⟨fun _ _ _ => by simp, fun _ _ _ => by simp, fun _ _ => by simp⟩
  cases hring : pData.cb_buff with
  | some ring =>
    exact ⟨_, callback_circular_sideinfo fuel env port buffer statics pData ring hport hring
      hcfg hside, rfl, rfl, htail⟩
  | none =>
    have hcb := callback_direct fuel env port buffer statics pData hport hring
    have hrot : rotate_cond pData buffer (base_time_after_init env statics) env.time_now
        = false := by
      simp [rotate_cond, hcfg]
    have hds := direct_sink_no_rotate env pData buffer _ _ hrot
    rw [write_chunk_dropped env pData buffer hside himv] at hds
    refine ⟨_, hcb, ?_, rfl, ?_⟩
    · simp only [hds]
    · simp only [hds, List.nil_append]
      exact htail

/-- C19 at a concrete input: a motion-vector chunk of two bytes in direct-sink mode with
motion-vector output disabled. -/
theorem C19_dropped_side_info_changes_nothing_witness :
    ∃ r, encoder_buffer_callback 0 (plain_env 5 0 0) (direct_port 3 default_status)
        { frame_chunk [7, 8] false with flag_codecsideinfo := true } initial_statics = some r ∧
      r.1.userdata = some { zeroed_userdata 3 none 0 with pstate := default_status } ∧
      r.2.1.frame_start = -1 ∧
      ∀ e ∈ r.2.2, (∀ h d k, e ≠ Event.fwrite h d k) ∧ (∀ h s m, e ≠ Event.fprintf_pts h s m) ∧
        (∀ w l, e ≠ Event.vcos_log_error (LogMsg.failed_to_write w l)) :=
  C19_dropped_side_info_changes_nothing 0 (plain_env 5 0 0) (direct_port 3 default_status)
    { frame_chunk [7, 8] false with flag_codecsideinfo := true } initial_statics
    { zeroed_userdata 3 none 0 with pstate := default_status } rfl rfl rfl rfl

/-- C17 (the code departs from the claim): the keyframe index is full (59999 entries, read
position 1, write position 0) and a keyframe chunk of 8 bytes arrives at the write cursor
480000, away from every queued offset. The offset is stored at slot 0 and the write
position becomes 1, equal to the read position; the scan evicts nothing, so the index
stands for no entry at all afterwards, and the callback logs nothing. -/
theorem C17_push_on_full_index_empties_it :
    index_count full_index_userdata = 59999 ∧
    (context_after (encoder_buffer_callback 2 (plain_env 5 0 0)
        { userdata := some full_index_userdata, is_enabled := true }
        (frame_chunk [0, 0, 0, 1, 9, 9, 9, 9] true) initial_statics)).map
      (fun pData => (pData.iframe_buff 0, pData.iframe_buff_wpos, pData.iframe_buff_rpos,
        index_count pData)) = some (480000, 1, 1, 0) ∧
    events_after (encoder_buffer_callback 2 (plain_env 5 0 0)
        { userdata := some full_index_userdata, is_enabled := true }
        (frame_chunk [0, 0, 0, 1, 9, 9, 9, 9] true) initial_statics) =
      [Event.update_annotation_data, Event.mmal_buffer_header_release,
        Event.mmal_queue_get true, Event.mmal_port_send_buffer true] := by
  decide

/-! ## Lemmas on the timestamp bookkeeping -/

theorem count_records_append (a b : List Event) :
    count_records (a ++ b) = count_records a + count_records b := by
  simp [count_records, List.filter_append]

theorem count_records_zero (evs : List Event) (h : ∀ e ∈ evs, is_pts_record e = false) :
    count_records evs = 0 := by
  simp only [count_records, List.length_eq_zero, List.filter_eq_nil_iff]
  intro e he
  simp [h e he]

theorem count_records_tail (env : Env) (port : MMAL_PORT_T) (now last : Int) :
    count_records ((annotation_tick now last).2 ++ release_and_resubmit env port) = 0 := by
  apply count_records_zero
  intro e he
  rcases tail_events_kind env port now last e he with
    h | h | h | ⟨b, h⟩ | ⟨b, h⟩ | h <;> subst h <;> rfl

theorem count_records_rotate (env : Env) (pData : PORT_USERDATA) :
    count_records (rotate env pData).2 = 0 := by
  apply count_records_zero
  intro e he
  rcases rotate_events_kind env pData e he with ⟨s, n, h, rfl⟩ | ⟨h, rfl⟩ <;> rfl

/-- The bookkeeping of one write: a record is emitted exactly for an eligible chunk whose
timestamp differs from `lasttime` (with `save_pts` set); then `lasttime` becomes that
timestamp and `frame` grows by one, otherwise both stay. -/
theorem write_chunk_records (env : Env) (pData : PORT_USERDATA)
    (buffer : MMAL_BUFFER_HEADER_T) (hsave : pData.pstate.save_pts ≠ 0) :
    (write_chunk env pData buffer).1.pstate.save_pts = pData.pstate.save_pts ∧
    (if pts_eligible buffer = true ∧ buffer.pts ≠ pData.pstate.lasttime then
      count_records (write_chunk env pData buffer).2 = 1 ∧
      (write_chunk env pData buffer).1.pstate.lasttime = buffer.pts ∧
      (write_chunk env pData buffer).1.pstate.frame = pData.pstate.frame + 1
    else
      count_records (write_chunk env pData buffer).2 = 0 ∧
      (write_chunk env pData buffer).1.pstate.lasttime = pData.pstate.lasttime ∧
      (write_chunk env pData buffer).1.pstate.frame = pData.pstate.frame) := by
  simp only [write_chunk, sink_write, save_pts_record, pts_eligible, count_records]
  split_ifs <;> simp_all [is_pts_record]

/-- One invocation in direct-sink mode with `save_pts` set. -/
theorem callback_direct_records (fuel : Nat) (env : Env) (port : MMAL_PORT_T)
    (buffer : MMAL_BUFFER_HEADER_T) (statics : Statics) (pData : PORT_USERDATA)
    (hport : port.userdata = some pData) (hnull : pData.cb_buff = none)
    (hsave : pData.pstate.save_pts ≠ 0) :
    ∃ r pData1, encoder_buffer_callback fuel env port buffer statics = some r ∧
      r.1.userdata = some pData1 ∧ pData1.cb_buff = none ∧ pData1.pstate.save_pts ≠ 0 ∧
      (if pts_eligible buffer = true ∧ buffer.pts ≠ pData.pstate.lasttime then
        count_records r.2.2 = 1 ∧ pData1.pstate.lasttime = buffer.pts ∧
        pData1.pstate.frame = pData.pstate.frame + 1
      else
        count_records r.2.2 = 0 ∧ pData1.pstate.lasttime = pData.pstate.lasttime ∧
        pData1.pstate.frame = pData.pstate.frame) := by
  have hcb := callback_direct fuel env port buffer statics pData hport hnull
  refine ⟨_, _, hcb, rfl, ?_⟩
  cases hrot : rotate_cond pData buffer (base_time_after_init env statics) env.time_now with
  | false =>
    rw [direct_sink_no_rotate _ _ _ _ _ hrot]
    have hk := write_chunk_keeps env pData buffer
    have hw := write_chunk_records env pData buffer hsave
    refine ⟨hk.2.2.2.1.trans hnull, by rw [hw.1]; exact hsave, ?_⟩
    have hcount : count_records ((write_chunk env pData buffer).2 ++
        (annotation_tick env.time_now statics.last_second).2 ++ release_and_resubmit env port)
        = count_records (write_chunk env pData buffer).2 := by
      rw [List.append_assoc, count_records_append, count_records_tail, Nat.add_zero]
    simp only [hcount]
    exact hw.2
  | true =>
    rw [direct_sink_rotate _ _ _ _ _ hrot]
    have hk := write_chunk_keeps env (rotate env pData).1 buffer
    have hw := write_chunk_records env (rotate env pData).1 buffer hsave
    refine ⟨hk.2.2.2.1.trans hnull, by rw [hw.1]; exact hsave, ?_⟩
    have hcount : count_records ((rotate env pData).2 ++
        (write_chunk env (rotate env pData).1 buffer).2 ++
        (annotation_tick env.time_now statics.last_second).2 ++ release_and_resubmit env port)
        = count_records (write_chunk env (rotate env pData).1 buffer).2 := by
      rw [List.append_assoc, count_records_append, count_records_tail, Nat.add_zero,
        count_records_append, count_records_rotate, Nat.zero_add]
    simp only [hcount]
    exact hw.2

/-- A run in direct-sink mode with `save_pts` set emits `expected_records` records and
advances the frame counter by as many. -/
theorem run_direct_records (fuel : Nat) (run : List (Env × MMAL_BUFFER_HEADER_T)) :
    ∀ (port : MMAL_PORT_T) (statics : Statics) (pData : PORT_USERDATA),
      port.userdata = some pData → pData.cb_buff = none → pData.pstate.save_pts ≠ 0 →
      ∃ r pData1, run_callbacks fuel run port statics = some r ∧
        r.1.userdata = some pData1 ∧
        count_records r.2.2
          = expected_records pData.pstate.lasttime (run.map Prod.snd) ∧
        pData1.pstate.frame
          = pData.pstate.frame + expected_records pData.pstate.lasttime (run.map Prod.snd) := by
  induction run with
  | nil =>
    intro port statics pData hport _ _
    exact ⟨(port, statics, []), pData, rfl, hport, rfl, by simp [expected_records]⟩
  | cons x rest ih =>
    intro port statics pData hport hnull hsave
    obtain ⟨env, buffer⟩ := x
    obtain ⟨r, pData1, hr, hud, hnull1, hsave1, hstep⟩ :=
      callback_direct_records fuel env port buffer statics pData hport hnull hsave
    obtain ⟨port1, statics1, evs1⟩ := r
    obtain ⟨r2, pData2, hr2, hud2, hcount2, hframe2⟩ := ih port1 statics1 pData1 hud hnull1 hsave1
    obtain ⟨port2, statics2, evs2⟩ := r2
    refine ⟨(port2, statics2, evs1 ++ evs2), pData2, ?_, hud2, ?_, ?_⟩
    · simp only [run_callbacks, hr, hr2]
    · simp only [count_records_append, List.map_cons, expected_records]
      simp only at hcount2 hstep
      split_ifs at hstep ⊢ with hc
      · rw [hstep.1, hcount2, hstep.2.1]
      · rw [hstep.1, hcount2, hstep.2.1, Nat.zero_add]
    · simp only [List.map_cons, expected_records]
      simp only at hframe2 hstep
      split_ifs at hstep ⊢ with hc
      · rw [hframe2, hstep.2.1, hstep.2.2]
        push_cast
        ring
      · rw [hframe2, hstep.2.1, hstep.2.2]

/-- When the known timestamps come in non-decreasing order and none is below the one
recorded last, the records are as many as the distinct timestamps other than that one. -/
theorem expected_records_sorted (chunks : List MMAL_BUFFER_HEADER_T) :
    ∀ lasttime : Int, (known_timestamps chunks).Pairwise (· ≤ ·) →
      (∀ t ∈ known_timestamps chunks, lasttime ≤ t) →
      expected_records lasttime chunks
        = ((known_timestamps chunks).toFinset.erase lasttime).card := by
  induction chunks with
  | nil =>
    intro lasttime _ _
    simp [expected_records, known_timestamps]
  | cons b rest ih =>
    intro lasttime hsorted hlow
    by_cases helig : pts_eligible b = true
    · simp only [known_timestamps, helig, if_true] at hsorted hlow ⊢
      rw [List.pairwise_cons] at hsorted
      by_cases hne : b.pts = lasttime
      · have hrec : expected_records lasttime (b :: rest) = expected_records lasttime rest := by
          simp [expected_records, hne]
        rw [hrec, ih lasttime hsorted.2 (fun t ht => hlow t (List.mem_cons_of_mem _ ht))]
        rw [List.toFinset_cons, hne, Finset.erase_insert_eq_erase]
      · have hrec : expected_records lasttime (b :: rest)
            = 1 + expected_records b.pts rest := by
          simp [expected_records, helig, hne]
        rw [hrec, ih b.pts hsorted.2 hsorted.1]
        have hlt : lasttime < b.pts :=
          lt_of_le_of_ne (hlow b.pts (List.mem_cons_self _ _)) (fun h => hne h.symm)
        have hnot : lasttime ∉ (b.pts :: known_timestamps rest).toFinset := by
          rw [List.mem_toFinset, List.mem_cons]
          rintro (h | h)
          · omega
          · have := hsorted.1 lasttime h
            omega
        rw [Finset.erase_eq_of_not_mem hnot, List.toFinset_cons]
        by_cases hmem : b.pts ∈ (known_timestamps rest).toFinset
        · rw [Finset.insert_eq_of_mem hmem]
          have := Finset.card_erase_add_one hmem
          omega
        · rw [Finset.erase_eq_of_not_mem hmem, Finset.card_insert_of_not_mem hmem]
          omega
    · have hrec : expected_records lasttime (b :: rest) = expected_records lasttime rest := by
        simp [expected_records, helig]
      have hk : known_timestamps (b :: rest) = known_timestamps rest := by
        simp [known_timestamps, helig]
      rw [hrec, hk]
      rw [hk] at hsorted hlow
      exact ih lasttime hsorted hlow

/-! ## Lemmas on the handle of the timestamp sink -/

theorem reopen_keeps_handle_open (name : Option (List Char)) (segmentNumber : Int)
    (result : FILE) (old : FILE) (h : old ≠ 0) :
    (reopen name segmentNumber result old).1 ≠ 0 := by
  unfold reopen
  split_ifs <;> assumption

theorem rotate_pts_handle_open (env : Env) (pData : PORT_USERDATA)
    (h : pData.pts_file_handle ≠ 0) : (rotate env pData).1.pts_file_handle ≠ 0 := by
  simp only [rotate]
  exact reopen_keeps_handle_open _ _ _ _ h

theorem write_chunk_record_handle (env : Env) (pData : PORT_USERDATA)
    (buffer : MMAL_BUFFER_HEADER_T) (h : FILE) (s m : Int)
    (he : Event.fprintf_pts h s m ∈ (write_chunk env pData buffer).2) :
    h = pData.pts_file_handle := by
  simp only [write_chunk, sink_write, save_pts_record] at he
  split_ifs at he <;> simp_all

/-- One invocation in direct-sink mode with the timestamp sink open: the sink is still
open afterwards and every record goes to a handle that is not `NULL`. -/
theorem callback_direct_pts_handle (fuel : Nat) (env : Env) (port : MMAL_PORT_T)
    (buffer : MMAL_BUFFER_HEADER_T) (statics : Statics) (pData : PORT_USERDATA)
    (hport : port.userdata = some pData) (hnull : pData.cb_buff = none)
    (hopen : pData.pts_file_handle ≠ 0) :
    ∃ r pData1, encoder_buffer_callback fuel env port buffer statics = some r ∧
      r.1.userdata = some pData1 ∧ pData1.pts_file_handle ≠ 0 ∧
      ∀ h s m, Event.fprintf_pts h s m ∈ r.2.2 → h ≠ 0 := by
  have hcb := callback_direct fuel env port buffer statics pData hport hnull
  refine ⟨_, _, hcb, rfl, ?_, ?_⟩
  · cases hrot : rotate_cond pData buffer (base_time_after_init env statics) env.time_now with
    | false =>
      rw [direct_sink_no_rotate _ _ _ _ _ hrot]
      rw [(write_chunk_keeps env pData buffer).2.2.1]
      exact hopen
    | true =>
      rw [direct_sink_rotate _ _ _ _ _ hrot]
      rw [(write_chunk_keeps env (rotate env pData).1 buffer).2.2.1]
      exact rotate_pts_handle_open env pData hopen
  · intro h s m hmem
    simp only at hmem
    rw [List.append_assoc, List.mem_append] at hmem
    rcases hmem with hmem | hmem
    · cases hrot : rotate_cond pData buffer (base_time_after_init env statics) env.time_now with
      | false =>
        rw [direct_sink_no_rotate _ _ _ _ _ hrot] at hmem
        rw [write_chunk_record_handle env pData buffer h s m hmem]
        exact hopen
      | true =>
        rw [direct_sink_rotate _ _ _ _ _ hrot] at hmem
        simp only [List.mem_append] at hmem
        rcases hmem with hmem | hmem
        · rcases rotate_events_kind env pData _ hmem with ⟨_, _, _, hk⟩ | ⟨_, hk⟩ <;> cases hk
        · rw [write_chunk_record_handle env (rotate env pData).1 buffer h s m hmem]
          exact rotate_pts_handle_open env pData hopen
    · rcases tail_events_kind env port _ _ _ hmem with
        hk | hk | hk | ⟨_, hk⟩ | ⟨_, hk⟩ | hk <;> cases hk

/-- A run in direct-sink mode with the timestamp sink open: every record goes to a handle
that is not `NULL`. -/
theorem run_direct_pts_handle (fuel : Nat) (run : List (Env × MMAL_BUFFER_HEADER_T)) :
    ∀ (port : MMAL_PORT_T) (statics : Statics) (pData : PORT_USERDATA)
      (r : MMAL_PORT_T × Statics × List Event),
      port.userdata = some pData → pData.cb_buff = none → pData.pts_file_handle ≠ 0 →
      run_callbacks fuel run port statics = some r →
      ∀ h s m, Event.fprintf_pts h s m ∈ r.2.2 → h ≠ 0 := by
  induction run with
  | nil =>
    intro port statics pData r _ _ _ hr h s m hmem
    simp only [run_callbacks, Option.some.injEq] at hr
    subst hr
    simp at hmem
  | cons x rest ih =>
    intro port statics pData r hport hnull hopen hr h s m hmem
    obtain ⟨env, buffer⟩ := x
    obtain ⟨r1, pData1, hr1, hud1, hopen1, hev1⟩ :=
      callback_direct_pts_handle fuel env port buffer statics pData hport hnull hopen
    obtain ⟨_, pData1b, hr1b, hud1b, hnull1, _⟩ :=
      callback_direct_segment fuel env port buffer statics pData hport hnull
    obtain ⟨port1, statics1, evs1⟩ := r1
    rw [hr1] at hr1b
    cases hr1b
    have hsame : pData1b = pData1 := Option.some.inj (hud1b.symm.trans hud1)
    rw [hsame] at hnull1
    simp only [run_callbacks, hr1] at hr
    cases hr2 : run_callbacks fuel rest port1 statics1 with
    | none => simp [hr2] at hr
    | some r2 =>
      obtain ⟨port2, statics2, evs2⟩ := r2
      simp only [hr2, Option.some.injEq] at hr
      subst hr
      simp only [List.mem_append] at hmem
      rcases hmem with hmem | hmem
      · exact hev1 h s m hmem
      · exact ih port1 statics1 pData1 _ hud1 hnull1 hopen1 hr2 h s m hmem

/-- When the known timestamps come in non-decreasing order and none equals the one
recorded last, the records are as many as the distinct timestamps. -/
theorem expected_records_sorted_fresh (chunks : List MMAL_BUFFER_HEADER_T) :
    ∀ lasttime : Int, (known_timestamps chunks).Pairwise (· ≤ ·) →
      (∀ t ∈ known_timestamps chunks, t ≠ lasttime) →
      expected_records lasttime chunks = (known_timestamps chunks).toFinset.card := by
  induction chunks with
  | nil =>
    intro lasttime _ _
    simp [expected_records, known_timestamps]
  | cons b rest ih =>
    intro lasttime hsorted hfresh
    by_cases helig : pts_eligible b = true
    · simp only [known_timestamps, helig, if_true] at hsorted hfresh ⊢
      rw [List.pairwise_cons] at hsorted
      have hne : b.pts ≠ lasttime := hfresh b.pts (List.mem_cons_self _ _)
      have hrec : expected_records lasttime (b :: rest)
          = 1 + expected_records b.pts rest := by
        simp [expected_records, helig, hne]
      rw [hrec, expected_records_sorted rest b.pts hsorted.2 hsorted.1, List.toFinset_cons]
      by_cases hmem : b.pts ∈ (known_timestamps rest).toFinset
      · rw [Finset.insert_eq_of_mem hmem]
        have := Finset.card_erase_add_one hmem
        omega
      · rw [Finset.erase_eq_of_not_mem hmem, Finset.card_insert_of_not_mem hmem]
        omega
    · have hrec : expected_records lasttime (b :: rest) = expected_records lasttime rest := by
        simp [expected_records, helig]
      have hk : known_timestamps (b :: rest) = known_timestamps rest := by
        simp [known_timestamps, helig]
      rw [hrec, hk]
      rw [hk] at hsorted hfresh
      exact ih lasttime hsorted hfresh

/-- C20 (the claim as stated fails on the code): with `save_pts` set and the timestamp
sink 7 open, the chunks with the timestamps 1000, 2000, 1000 give three records, all
written to the sink 7, for two distinct timestamps: only the timestamp recorded last is
compared. -/
theorem C20_record_count_differs_from_distinct_timestamps :
    count_records (events_after (run_callbacks 0
      [(plain_env 5 0 1, stamped_chunk 1000), (plain_env 5 0 1, stamped_chunk 2000),
        (plain_env 5 0 1, stamped_chunk 1000)]
      pts_port initial_statics)) = 3 ∧
    (events_after (run_callbacks 0
      [(plain_env 5 0 1, stamped_chunk 1000), (plain_env 5 0 1, stamped_chunk 2000),
        (plain_env 5 0 1, stamped_chunk 1000)]
      pts_port initial_statics)).filter is_pts_record
      = [Event.fprintf_pts 7 0 0, Event.fprintf_pts 7 1 0, Event.fprintf_pts 7 0 0] ∧
    (known_timestamps
      [stamped_chunk 1000, stamped_chunk 2000, stamped_chunk 1000]).dedup.length = 2 := by
  refine ⟨by decide, by decide, by decide⟩

/-- C20 (as amended): in direct-sink mode with `save_pts` set and the timestamp sink open,
over every run of the callback in which, when no record has been written yet
(`frame = 0`), no chunk carries the value that `lasttime` holds: a chunk emits at most one
record; `Config` chunks, chunks with unknown timestamp and chunks whose timestamp equals the
one recorded last emit none; the number of records, and the growth of the frame counter,
is the number of eligible chunks (positive length, neither `Config` nor `SideInfo`, known
timestamp) whose timestamp differs from the one recorded last; this is the number of
distinct known timestamps when they come in non-decreasing order, from a state without
any record as well as from a later state whose last recorded timestamp is not among them;
every record goes to a handle that is not `NULL`. -/
theorem C20_one_record_per_timestamp_change (fuel : Nat)
    (run : List (Env × MMAL_BUFFER_HEADER_T)) (port : MMAL_PORT_T) (statics : Statics)
    (pData : PORT_USERDATA)
    (hport : port.userdata = some pData) (hnull : pData.cb_buff = none)
    (hsave : pData.pstate.save_pts ≠ 0) (hopen : pData.pts_file_handle ≠ 0)
    (hfirst : pData.pstate.frame = 0 →
      ∀ t ∈ known_timestamps (run.map Prod.snd), t ≠ pData.pstate.lasttime) :
    ∃ r pData1, run_callbacks fuel run port statics = some r ∧ r.1.userdata = some pData1 ∧
      count_records r.2.2 = expected_records pData.pstate.lasttime (run.map Prod.snd) ∧
      pData1.pstate.frame
        = pData.pstate.frame + expected_records pData.pstate.lasttime (run.map Prod.snd) ∧
      (∀ env buffer, run = [(env, buffer)] →
        count_records r.2.2 ≤ 1 ∧
        (buffer.flag_config = true ∨ buffer.pts = MMAL_TIME_UNKNOWN ∨
            buffer.pts = pData.pstate.lasttime → count_records r.2.2 = 0)) ∧
      ((known_timestamps (run.map Prod.snd)).Pairwise (· ≤ ·) →
        (pData.pstate.frame = 0 ∨
          ∀ t ∈ known_timestamps (run.map Prod.snd), t ≠ pData.pstate.lasttime) →
        count_records r.2.2 = (known_timestamps (run.map Prod.snd)).toFinset.card) ∧
      (∀ h s m, Event.fprintf_pts h s m ∈ r.2.2 → h ≠ 0) := by
  obtain ⟨r, pData1, hr, hud, hcount, hframe⟩ :=
    run_direct_records fuel run port statics pData hport hnull hsave
  refine ⟨r, pData1, hr, hud, hcount, hframe, ?_, ?_,
    run_direct_pts_handle fuel run port statics pData r hport hnull hopen hr⟩
  · intro env buffer hrun
    subst hrun
    rw [hcount]
    simp only [List.map_cons, List.map_nil, expected_records]
    refine ⟨by split_ifs <;> omega, ?_⟩
    intro hskip
    rw [if_neg]
    rintro ⟨helig, hne⟩
    simp only [pts_eligible, Bool.and_eq_true, Bool.not_eq_true', decide_eq_true_eq] at helig
    rcases hskip with h | h | h
    · rw [h] at helig
      exact absurd helig.1.2 (by simp)
    · exact helig.2 h
    · exact hne h
  · intro hsorted hfresh
    rw [hcount]
    apply expected_records_sorted_fresh _ _ hsorted
    rcases hfresh with h0 | h
    · exact hfirst h0
    · exact h

/-- C20 at a concrete input: with the timestamp sink 7 open, the timestamps 1000, 1000,
2000 give two records, the number of distinct timestamps, and the frame counter 2. -/
theorem C20_one_record_per_timestamp_change_witness :
    ∃ r pData1, run_callbacks 0
        [(plain_env 5 0 1, stamped_chunk 1000), (plain_env 5 0 1, stamped_chunk 1000),
          (plain_env 5 0 1, stamped_chunk 2000)]
        pts_port initial_statics = some r ∧
      r.1.userdata = some pData1 ∧ count_records r.2.2 = 2 ∧
      pData1.pstate.frame = 0 + (2 : Nat) ∧
      count_records r.2.2 = (known_timestamps
        [stamped_chunk 1000, stamped_chunk 1000, stamped_chunk 2000]).toFinset.card ∧
      (∀ h s m, Event.fprintf_pts h s m ∈ r.2.2 → h ≠ 0) := by
  obtain ⟨r, pData1, hr, hud, hcount, hframe, _, hdistinct, hhandle⟩ :=
    C20_one_record_per_timestamp_change 0
      [(plain_env 5 0 1, stamped_chunk 1000), (plain_env 5 0 1, stamped_chunk 1000),
        (plain_env 5 0 1, stamped_chunk 2000)]
      pts_port initial_statics
      { zeroed_userdata 3 none 0 with
        pstate := { default_status with save_pts := 1 }
        pts_file_handle := 7 }
      rfl rfl (by decide) (by decide) (by decide)
  have he : expected_records (0 : Int)
      [stamped_chunk 1000, stamped_chunk 1000, stamped_chunk 2000] = 2 := by decide
  have hf : pData1.pstate.frame = 0 + ((expected_records (0 : Int)
      [stamped_chunk 1000, stamped_chunk 1000, stamped_chunk 2000] : Nat) : Int) := hframe
  rw [he] at hf
  exact ⟨r, pData1, hr, hud, hcount.trans he, hf,
    hdistinct (by decide) (Or.inl rfl), hhandle⟩

/-! ## Lemmas on the still capture -/

theorem count_posts_append (a b : List ImageEvent) :
    count_posts (a ++ b) = count_posts a + count_posts b := by
  simp [count_posts, List.filter_append]

theorem count_posts_release (env : ImageEnv) (port : IMAGE_PORT) :
    count_posts (image_release_and_resubmit env port) = 0 := by
  simp only [image_release_and_resubmit, count_posts]
  cases port.is_enabled <;> cases port.userdata <;> cases env.queue_get <;>
    cases env.send_ok <;> rfl

/-- The copy loop: from `offset ≤ length` it stops at `min (offset + n) length`, stores
only at indices from `offset` up to `length`, leaves every other byte, the capacity, the
byte count and the semaphore as they are, and posts nothing. -/
theorem copy_loop_spec (bytes : List Nat) :
    ∀ pData : PORT_USERDATA_IMAGE, pData.offset ≤ pData.length →
      (copy_loop bytes pData).1.length = pData.length ∧
      (copy_loop bytes pData).1.lengthActual = pData.lengthActual ∧
      (copy_loop bytes pData).1.complete_semaphore = pData.complete_semaphore ∧
      (copy_loop bytes pData).1.offset = min (pData.offset + bytes.length) pData.length ∧
      (∀ i b, ImageEvent.store i b ∈ (copy_loop bytes pData).2 →
        pData.offset ≤ i ∧ i < pData.length) ∧
      (∀ j, j < pData.offset ∨ pData.length ≤ j →
        (copy_loop bytes pData).1.data j = pData.data j) ∧
      (∀ k, pData.offset + k < (copy_loop bytes pData).1.offset →
        (copy_loop bytes pData).1.data (pData.offset + k) = bytes.getD k 0) ∧
      count_posts (copy_loop bytes pData).2 = 0 := by
  induction bytes with
  | nil =>
    intro pData h
    simp only [copy_loop, List.length_nil, Nat.add_zero]
    refine ⟨by trivial, by trivial, by trivial, (Nat.min_eq_left h).symm, ?_,
      fun _ _ => by trivial, ?_, rfl⟩
    · intro i b hmem
      simp at hmem
    · intro k hk
      omega
  | cons byte rest ih =>
    intro pData h
    by_cases hfull : pData.offset ≥ pData.length
    · simp only [copy_loop, hfull, if_true]
      refine ⟨by trivial, by trivial, by trivial, ?_, ?_, fun _ _ => by trivial, ?_,
        rfl⟩
      · rw [Nat.min_eq_right (by omega)]
        omega
      · intro i b hmem
        simp at hmem
      · intro k hk
        omega
    · simp only [copy_loop, hfull, if_false]
      obtain ⟨h1, h2, h3, h4, h5, h6, h7, h8⟩ := ih
        { pData with
          data := fun i => if i = pData.offset then byte else pData.data i
          offset := pData.offset + 1
          bufferPosition := pData.bufferPosition + 1 } (by simp only; omega)
      simp only at h1 h2 h3 h4 h5 h6 h7 h8
      refine ⟨h1, h2, h3, ?_, ?_, ?_, ?_, ?_⟩
      · rw [h4, List.length_cons]
        congr 1
        omega
      · intro i b hmem
        rw [List.mem_cons] at hmem
        rcases hmem with hmem | hmem
        · cases hmem
          omega
        · have := h5 i b hmem
          omega
      · intro j hj
        rw [h6 j (by omega)]
        rw [if_neg (by omega)]
      · intro k hk
        cases k with
        | zero =>
          rw [Nat.add_zero, h6 _ (by omega)]
          simp
        | succ k =>
          have := h7 k (by omega)
          rw [show pData.offset + (k + 1) = pData.offset + 1 + k by omega, this]
          simp
      · simp only [count_posts, List.filter_cons] at h8 ⊢
        simpa using h8

/-- One chunk handled by the callback body: the bytes are copied as far as the capacity
allows, `lengthActual` grows by the length of the chunk, and the semaphore is posted exactly
when the chunk carries `FrameEnd` or `TransmissionFailed`. -/
theorem image_chunk_spec (pData : PORT_USERDATA_IMAGE) (buffer : MMAL_BUFFER_HEADER_T)
    (h : pData.offset ≤ pData.length) :
    (image_chunk pData buffer).1.length = pData.length ∧
    (image_chunk pData buffer).1.lengthActual = pData.lengthActual + buffer.length ∧
    (image_chunk pData buffer).1.complete_semaphore = pData.complete_semaphore +
      (if buffer.flag_frame_end || buffer.flag_transmission_failed then 1 else 0) ∧
    (image_chunk pData buffer).1.offset = min (pData.offset + buffer.length) pData.length ∧
    (∀ i b, ImageEvent.store i b ∈ (image_chunk pData buffer).2 →
      pData.offset ≤ i ∧ i < pData.length) ∧
    (∀ j, j < pData.offset ∨ pData.length ≤ j →
      (image_chunk pData buffer).1.data j = pData.data j) ∧
    (∀ k, pData.offset + k < (image_chunk pData buffer).1.offset →
      (image_chunk pData buffer).1.data (pData.offset + k) = buffer.data.getD k 0) ∧
    count_posts (image_chunk pData buffer).2 =
      (if buffer.flag_frame_end || buffer.flag_transmission_failed then 1 else 0) := by
  obtain ⟨h1, h2, h3, h4, h5, h6, h7, h8⟩ := copy_loop_spec buffer.data
    { pData with lengthActual := pData.lengthActual + buffer.length } h
  simp only at h1 h2 h3 h4 h5 h6 h7 h8
  by_cases hflag : (buffer.flag_frame_end || buffer.flag_transmission_failed) = true
  · simp only [image_chunk, hflag, if_true]
    refine ⟨h1, h2, by rw [h3], h4, ?_, h6, h7, ?_⟩
    · intro i b hmem
      rw [List.mem_append] at hmem
      rcases hmem with hmem | hmem
      · exact h5 i b hmem
      · simp at hmem
    · rw [count_posts_append, h8]
      rfl
  · simp only [image_chunk, hflag]
    exact ⟨h1, h2, h3, h4, h5, h6, h7, h8⟩

/-- A run of the callback from a context with `offset ≤ length`. -/
theorem run_image_spec (run : List (ImageEnv × MMAL_BUFFER_HEADER_T)) :
    ∀ (port : IMAGE_PORT) (pData : PORT_USERDATA_IMAGE),
      port.userdata = some pData → pData.offset ≤ pData.length →
      ∃ pData1, (run_image_callbacks run port).1.userdata = some pData1 ∧
        (run_image_callbacks run port).1.is_enabled = port.is_enabled ∧
        pData1.length = pData.length ∧
        pData1.lengthActual = pData.lengthActual + total_length run ∧
        pData1.complete_semaphore = pData.complete_semaphore + completing_chunks run ∧
        pData1.offset = min (pData.offset + total_length run) pData.length ∧
        (∀ i b, ImageEvent.store i b ∈ (run_image_callbacks run port).2 →
          pData.offset ≤ i ∧ i < pData.length) ∧
        (∀ j, j < pData.offset ∨ pData.length ≤ j → pData1.data j = pData.data j) ∧
        count_posts (run_image_callbacks run port).2 = completing_chunks run := by
  induction run with
  | nil =>
    intro port pData hport h
    refine ⟨pData, hport, rfl, rfl, rfl, rfl, ?_, ?_, fun _ _ => rfl, rfl⟩
    · simp only [total_length, Nat.add_zero]
      exact (Nat.min_eq_left h).symm
    · intro i b hmem
      simp [run_image_callbacks] at hmem
  | cons x rest ih =>
    intro port pData hport h
    obtain ⟨env, buffer⟩ := x
    obtain ⟨c1, c2, c3, c4, c5, c6, _, c8⟩ := image_chunk_spec pData buffer h
    have hstep : encoder_buffer_callback_image env port buffer =
        ({ port with userdata := some (image_chunk pData buffer).1 },
          (image_chunk pData buffer).2 ++ image_release_and_resubmit env port) := by
      simp only [encoder_buffer_callback_image, hport]
    obtain ⟨pData1, r1, r2, r3, r4, r5, r6, r7, r8, r9⟩ :=
      ih { port with userdata := some (image_chunk pData buffer).1 }
        (image_chunk pData buffer).1 rfl (by rw [c4, c1]; exact Nat.min_le_right _ _)
    simp only [run_image_callbacks, hstep]
    refine ⟨pData1, r1, r2, by rw [r3, c1], ?_, ?_, ?_, ?_, ?_, ?_⟩
    · rw [r4, c2]
      simp only [total_length]
      omega
    · rw [r5, c3]
      simp only [completing_chunks]
      omega
    · rw [r6, c4, c1]
      simp only [total_length]
      omega
    · intro i b hmem
      rw [List.mem_append, List.mem_append] at hmem
      rcases hmem with (hmem | hmem) | hmem
      · exact c5 i b hmem
      · exfalso
        simp only [image_release_and_resubmit, List.mem_append, List.mem_singleton] at hmem
        rcases hmem with hmem | hmem
        · cases hmem
        · split at hmem
          · split at hmem
            · simp at hmem
            · simp only [List.mem_append, List.mem_singleton] at hmem
              rcases hmem with (hmem | hmem) | hmem
              · cases hmem
              · split at hmem <;> simp at hmem
              · split at hmem <;> simp at hmem
          · simp at hmem
      · have := r7 i b hmem
        rw [c4, c1] at this
        omega
    · intro j hj
      rw [r8 j (by rw [c4, c1]; omega), c6 j hj]
    · rw [count_posts_append, count_posts_append, c8, count_posts_release, r9]
      simp only [completing_chunks]
      omega

theorem copy_loop_posts (bytes : List Nat) :
    ∀ pData : PORT_USERDATA_IMAGE,
      (copy_loop bytes pData).1.complete_semaphore = pData.complete_semaphore ∧
      count_posts (copy_loop bytes pData).2 = 0 := by
  induction bytes with
  | nil =>
    intro pData
    exact ⟨rfl, rfl⟩
  | cons byte rest ih =>
    intro pData
    by_cases hfull : pData.offset ≥ pData.length
    · simp only [copy_loop, hfull, if_true]
      exact ⟨by trivial, rfl⟩
    · simp only [copy_loop, hfull, if_false]
      obtain ⟨h1, h2⟩ := ih
        { pData with
          data := fun i => if i = pData.offset then byte else pData.data i
          offset := pData.offset + 1
          bufferPosition := pData.bufferPosition + 1 }
      refine ⟨h1, ?_⟩
      simp only [count_posts, List.filter_cons] at h2 ⊢
      simpa using h2

/-- A run of the callback posts the semaphore once for every chunk that carries `FrameEnd`
or `TransmissionFailed`. -/
theorem run_image_posts (run : List (ImageEnv × MMAL_BUFFER_HEADER_T)) :
    ∀ (port : IMAGE_PORT) (pData : PORT_USERDATA_IMAGE), port.userdata = some pData →
      ∃ pData1, (run_image_callbacks run port).1.userdata = some pData1 ∧
        pData1.complete_semaphore = pData.complete_semaphore + completing_chunks run ∧
        count_posts (run_image_callbacks run port).2 = completing_chunks run := by
  induction run with
  | nil =>
    intro port pData hport
    exact ⟨pData, hport, rfl, rfl⟩
  | cons x rest ih =>
    intro port pData hport
    obtain ⟨env, buffer⟩ := x
    obtain ⟨c1, c2⟩ := copy_loop_posts buffer.data
      { pData with lengthActual := pData.lengthActual + buffer.length }
    have hchunk : (image_chunk pData buffer).1.complete_semaphore = pData.complete_semaphore +
          (if buffer.flag_frame_end || buffer.flag_transmission_failed then 1 else 0) ∧
        count_posts (image_chunk pData buffer).2 =
          (if buffer.flag_frame_end || buffer.flag_transmission_failed then 1 else 0) := by
      by_cases hflag : (buffer.flag_frame_end || buffer.flag_transmission_failed) = true
      · simp only [image_chunk, hflag, if_true]
        refine ⟨by rw [c1], ?_⟩
        rw [count_posts_append, c2]
        rfl
      · simp only [image_chunk, hflag]
        exact ⟨c1, c2⟩
    have hstep : encoder_buffer_callback_image env port buffer =
        ({ port with userdata := some (image_chunk pData buffer).1 },
          (image_chunk pData buffer).2 ++ image_release_and_resubmit env port) := by
      simp only [encoder_buffer_callback_image, hport]
    obtain ⟨pData1, r1, r2, r3⟩ :=
      ih { port with userdata := some (image_chunk pData buffer).1 }
        (image_chunk pData buffer).1 rfl
    simp only [run_image_callbacks, hstep]
    refine ⟨pData1, r1, ?_, ?_⟩
    · rw [r2, hchunk.1]
      simp only [completing_chunks]
      omega
    · rw [count_posts_append, count_posts_append, hchunk.2, count_posts_release, r3]
      simp only [completing_chunks]
      omega

/-! ## The claims C11 to C14 -/

/-- C11 (the claim as stated fails on the code): destination of capacity 2, one chunk of 3 bytes
that carries `FrameEnd`. `take_picture` returns 0 and 2 bytes are stored (`offset` is 2),
but the length written through `lengthActual` is 3, the total length delivered: the
callback adds `buffer->length` to `lengthActual` before it copies, whatever fits. -/
theorem C11_reported_length_exceeds_capacity :
    picture_summary (take_picture
      { pool := [(true, true)], capture_ok := true,
        deliveries := [(image_env, image_buffer [1, 2, 3] true)] }
      { userdata := none, is_enabled := false } (fun _ => 0) 2)
      = (some 0, some 3, 2, [1, 2, 0, 0]) ∧
    total_length [(image_env, image_buffer [1, 2, 3] true)] = 3 ∧ min 3 2 = 2 := by
  decide

theorem completing_chunks_last (front : List (ImageEnv × MMAL_BUFFER_HEADER_T))
    (env1 : ImageEnv) (buffer : MMAL_BUFFER_HEADER_T) (hend : buffer.flag_frame_end = true) :
    0 < completing_chunks (front ++ [(env1, buffer)]) := by
  induction front with
  | nil => simp [completing_chunks, hend]
  | cons d rest ih =>
    obtain ⟨env, b⟩ := d
    simp only [List.cons_append, completing_chunks, List.append_eq]
    omega

/-- C11 (as amended): for every destination capacity `X` and every sequence of chunks
whose last chunk carries `FrameEnd`, delivered after `take_picture` has been called on the
disabled port and the capture has been triggered: `take_picture` returns 0 and the length
it reports through `lengthActual` is `Y`, the total length delivered, while the number of
bytes stored in the destination buffer (the final `offset`) is `min(Y, X)`, that is `X`
when `Y` exceeds `X`. -/
theorem C11_reported_length_is_delivered_length (env : PictureEnv) (port : IMAGE_PORT)
    (preallocated_data : Nat → Nat) (length : Nat)
    (front : List (ImageEnv × MMAL_BUFFER_HEADER_T)) (env1 : ImageEnv)
    (buffer : MMAL_BUFFER_HEADER_T)
    (hport : port.is_enabled = false) (hcapture : env.capture_ok = true)
    (hrun : env.deliveries = front ++ [(env1, buffer)])
    (hend : buffer.flag_frame_end = true) :
    (take_picture env port preallocated_data length).status = some 0 ∧
    (take_picture env port preallocated_data length).lengthActual
      = some (total_length env.deliveries) ∧
    (take_picture env port preallocated_data length).userdata.offset
      = min (total_length env.deliveries) length ∧
    (length < total_length env.deliveries →
      (take_picture env port preallocated_data length).userdata.offset = length) := by
  obtain ⟨pData1, r1, _, _, r4, r5, r6, _⟩ := run_image_spec env.deliveries
    { userdata := some (fresh_image_userdata preallocated_data length), is_enabled := true }
    (fresh_image_userdata preallocated_data length) rfl (Nat.zero_le _)
  have hctx : context_after_deliveries env preallocated_data length = pData1 := by
    simp only [context_after_deliveries, r1, Option.getD_some]
  have hposts : 0 < completing_chunks env.deliveries := by
    rw [hrun]
    exact completing_chunks_last front env1 buffer hend
  have hsem : pData1.complete_semaphore ≠ 0 := by
    rw [r5]
    simp only [fresh_image_userdata]
    omega
  have hlen : pData1.lengthActual = total_length env.deliveries := by
    rw [r4]
    simp only [fresh_image_userdata, Nat.zero_add]
  have hoff : pData1.offset = min (total_length env.deliveries) length := by
    rw [r6]
    simp only [fresh_image_userdata, Nat.zero_add]
  simp only [take_picture, hport, hcapture, hctx, hsem, Bool.false_eq_true, Bool.true_eq_false,
    if_false]
  refine ⟨trivial, by rw [hlen], hoff, ?_⟩
  intro hlt
  rw [hoff]
  exact Nat.min_eq_right (le_of_lt hlt)

/-- C11 (as amended) at a concrete input: capacity 2 and one chunk of 3 bytes that carries
`FrameEnd`; `take_picture` returns 0, reports 3 and has stored 2 bytes. -/
theorem C11_reported_length_is_delivered_length_witness :
    (take_picture
      { pool := [(true, true)], capture_ok := true,
        deliveries := [(image_env, image_buffer [1, 2, 3] true)] }
      { userdata := none, is_enabled := false } (fun _ => 0) 2).status = some 0 ∧
    (take_picture
      { pool := [(true, true)], capture_ok := true,
        deliveries := [(image_env, image_buffer [1, 2, 3] true)] }
      { userdata := none, is_enabled := false } (fun _ => 0) 2).lengthActual = some 3 ∧
    (take_picture
      { pool := [(true, true)], capture_ok := true,
        deliveries := [(image_env, image_buffer [1, 2, 3] true)] }
      { userdata := none, is_enabled := false } (fun _ => 0) 2).userdata.offset = 2 := by
  have h := C11_reported_length_is_delivered_length
    { pool := [(true, true)], capture_ok := true,
      deliveries := [(image_env, image_buffer [1, 2, 3] true)] }
    { userdata := none, is_enabled := false } (fun _ => 0) 2 [] image_env
    (image_buffer [1, 2, 3] true) rfl rfl rfl rfl
  exact ⟨h.1, h.2.1, h.2.2.1⟩

/-- C12: the still capture never writes outside the destination buffer. From a context
with `offset = 0`, for every capacity and every sequence of chunks, after the calls of
`encoder_buffer_callback_image` the context has `offset ≤ length`, every index stored
into `data` is below the capacity, the bytes from the capacity on are untouched, and once
`offset = length` a further call stores nothing and leaves `data` and `offset` as they
are. -/
theorem C12_capture_stays_inside_destination
    (run : List (ImageEnv × MMAL_BUFFER_HEADER_T)) (port : IMAGE_PORT)
    (pData : PORT_USERDATA_IMAGE)
    (hport : port.userdata = some pData) (h0 : pData.offset = 0) :
    ∃ pData1, (run_image_callbacks run port).1.userdata = some pData1 ∧
      pData1.length = pData.length ∧ pData1.offset ≤ pData1.length ∧
      (∀ i b, ImageEvent.store i b ∈ (run_image_callbacks run port).2 → i < pData.length) ∧
      (∀ j, pData.length ≤ j → pData1.data j = pData.data j) ∧
      (pData1.offset = pData1.length → ∀ env buffer,
        ∃ pData2, (encoder_buffer_callback_image env (run_image_callbacks run port).1
            buffer).1.userdata = some pData2 ∧
          pData2.offset = pData1.offset ∧ pData2.data = pData1.data ∧
          ∀ i b, ImageEvent.store i b ∉
            (encoder_buffer_callback_image env (run_image_callbacks run port).1 buffer).2) := by
  obtain ⟨pData1, r1, _, r3, _, _, r6, r7, r8, _⟩ :=
    run_image_spec run port pData hport (by omega)
  refine ⟨pData1, r1, r3, ?_, fun i b h => (r7 i b h).2, fun j hj => r8 j (Or.inr hj), ?_⟩
  · rw [r6, r3]
    exact Nat.min_le_right _ _
  · intro hfull env buffer
    obtain ⟨pData2, s1, _, _, _, _, s6, s7, s8, _⟩ :=
      run_image_spec [(env, buffer)] (run_image_callbacks run port).1 pData1 r1 (by omega)
    have hrun : run_image_callbacks [(env, buffer)] (run_image_callbacks run port).1
        = ((encoder_buffer_callback_image env (run_image_callbacks run port).1 buffer).1,
          (encoder_buffer_callback_image env (run_image_callbacks run port).1 buffer).2 ++ []) :=
      rfl
    rw [hrun] at s1 s7
    refine ⟨pData2, s1, ?_, ?_, ?_⟩
    · rw [s6, hfull]
      exact Nat.min_eq_right (by omega)
    · funext j
      by_cases hj : j < pData1.offset
      · exact s8 j (Or.inl hj)
      · exact s8 j (Or.inr (by omega))
    · intro i b hmem
      have := s7 i b (by simpa using hmem)
      omega

/-- C12 at a concrete input: capacity 2, chunks of 3 bytes and of 1 byte; the context ends
with `offset = 2` and only the indices 0 and 1 are stored. -/
theorem C12_capture_stays_inside_destination_witness :
    (run_image_callbacks
        [(image_env, image_buffer [1, 2, 3] false), (image_env, image_buffer [4] true)]
        { userdata := some (fresh_image_userdata (fun _ => 0) 2), is_enabled := true }).2
      = [ImageEvent.store 0 1, ImageEvent.store 1 2, ImageEvent.printf_buffer_too_small,
          ImageEvent.mmal_buffer_header_release, ImageEvent.mmal_queue_get true,
          ImageEvent.mmal_port_send_buffer true,
          ImageEvent.printf_buffer_too_small, ImageEvent.vcos_semaphore_post,
          ImageEvent.mmal_buffer_header_release, ImageEvent.mmal_queue_get true,
          ImageEvent.mmal_port_send_buffer true] ∧
    ∃ pData1, (run_image_callbacks
        [(image_env, image_buffer [1, 2, 3] false), (image_env, image_buffer [4] true)]
        { userdata := some (fresh_image_userdata (fun _ => 0) 2), is_enabled := true }).1.userdata
        = some pData1 ∧
      pData1.length = 2 ∧ pData1.offset ≤ pData1.length ∧
      ∀ i b, ImageEvent.store i b ∈ (run_image_callbacks
        [(image_env, image_buffer [1, 2, 3] false), (image_env, image_buffer [4] true)]
        { userdata := some (fresh_image_userdata (fun _ => 0) 2), is_enabled := true }).2 →
        i < 2 := by
  refine ⟨by decide, ?_⟩
  obtain ⟨pData1, h1, h2, h3, h4, _⟩ := C12_capture_stays_inside_destination
    [(image_env, image_buffer [1, 2, 3] false), (image_env, image_buffer [4] true)]
    { userdata := some (fresh_image_userdata (fun _ => 0) 2), is_enabled := true }
    (fresh_image_userdata (fun _ => 0) 2) rfl rfl
  exact ⟨pData1, h1, h2, h3, h4⟩

/-- C13 (the claim as stated fails on the code): two chunks that both carry `FrameEnd`
post the completion semaphore twice; a chunk delivered after the first post posts
again. -/
theorem C13_second_frame_end_posts_again :
    count_posts (run_image_callbacks
      [(image_env, image_buffer [1] true), (image_env, image_buffer [2] true)]
      { userdata := some (fresh_image_userdata (fun _ => 0) 4), is_enabled := true }).2 = 2 ∧
    ((run_image_callbacks
      [(image_env, image_buffer [1] true), (image_env, image_buffer [2] true)]
      { userdata := some (fresh_image_userdata (fun _ => 0) 4), is_enabled := true }).1.userdata).map
        (fun pData => pData.complete_semaphore) = some 2 := by
  decide

/-- C13 (as amended): for every sequence of chunks delivered to
`encoder_buffer_callback_image`, the completion semaphore is posted once by every chunk
that carries `FrameEnd` or `TransmissionFailed` and by no other chunk: the number of posts
and the growth of the semaphore count equal the number of such chunks. So the first post
is made by the first such chunk, and the semaphore is posted exactly once in total when
exactly one chunk of the sequence carries one of the two flags. -/
theorem C13_one_post_per_completing_chunk
    (run : List (ImageEnv × MMAL_BUFFER_HEADER_T)) (port : IMAGE_PORT)
    (pData : PORT_USERDATA_IMAGE)
    (hport : port.userdata = some pData) :
    ∃ pData1, (run_image_callbacks run port).1.userdata = some pData1 ∧
      count_posts (run_image_callbacks run port).2 = completing_chunks run ∧
      pData1.complete_semaphore = pData.complete_semaphore + completing_chunks run ∧
      (completing_chunks run = 0 → count_posts (run_image_callbacks run port).2 = 0) ∧
      (completing_chunks run = 1 → count_posts (run_image_callbacks run port).2 = 1) := by
  obtain ⟨pData1, r1, r5, r9⟩ := run_image_posts run port pData hport
  exact ⟨pData1, r1, r9, r5, fun h0 => r9.trans h0, fun h1 => r9.trans h1⟩

/-- C13 at a concrete input: two chunks of which the last carries `FrameEnd` post once. -/
theorem C13_one_post_per_completing_chunk_witness :
    completing_chunks
      [(image_env, image_buffer [1] false), (image_env, image_buffer [2] true)] = 1 ∧
    ∃ pData1, (run_image_callbacks
        [(image_env, image_buffer [1] false), (image_env, image_buffer [2] true)]
        { userdata := some (fresh_image_userdata (fun _ => 0) 4), is_enabled := true }).1.userdata
        = some pData1 ∧
      count_posts (run_image_callbacks
        [(image_env, image_buffer [1] false), (image_env, image_buffer [2] true)]
        { userdata := some (fresh_image_userdata (fun _ => 0) 4), is_enabled := true }).2 = 1 ∧
      pData1.complete_semaphore = 0 + 1 := by
  obtain ⟨pData1, h1, _, h3, _, h5⟩ := C13_one_post_per_completing_chunk
    [(image_env, image_buffer [1] false), (image_env, image_buffer [2] true)]
    { userdata := some (fresh_image_userdata (fun _ => 0) 4), is_enabled := true }
    (fresh_image_userdata (fun _ => 0) 4) rfl
  exact ⟨by decide, pData1, h1, h5 (by decide), h3⟩

/-- C14: `take_picture` called while the capture port is enabled returns `-1` without
blocking. Its only calls are the creation of the semaphore and the message that the port
could not be enabled: the port is not enabled again, no pool buffer is handed to it, the
capture is not triggered, no semaphore is waited on and nothing is written through
`lengthActual`; the port stays enabled. -/
theorem C14_second_capture_is_rejected (env : PictureEnv) (port : IMAGE_PORT)
    (preallocated_data : Nat → Nat) (length : Nat) (hen : port.is_enabled = true) :
    (take_picture env port preallocated_data length).status = some (-1) ∧
    (take_picture env port preallocated_data length).lengthActual = none ∧
    (take_picture env port preallocated_data length).events =
      [ImageEvent.vcos_semaphore_create, ImageEvent.printf_could_not_enable] ∧
    (take_picture env port preallocated_data length).port.is_enabled = true ∧
    (∀ e ∈ (take_picture env port preallocated_data length).events,
      e ≠ ImageEvent.mmal_port_enable ∧ (∀ ok, e ≠ ImageEvent.mmal_port_send_buffer ok) ∧
      (∀ ok, e ≠ ImageEvent.set_capture ok) ∧ e ≠ ImageEvent.vcos_semaphore_wait ∧
      (∀ v, e ≠ ImageEvent.write_lengthActual v)) := by
  have hev : (take_picture env port preallocated_data length).events =
      [ImageEvent.vcos_semaphore_create, ImageEvent.printf_could_not_enable] := by
    simp [take_picture, hen]
  refine ⟨by simp [take_picture, hen], by simp [take_picture, hen], hev,
    by simp [take_picture, hen], ?_⟩
  intro e he
  rw [hev] at he
  simp only [List.mem_cons, List.mem_singleton, List.not_mem_nil, or_false] at he
  rcases he with rfl | rfl <;> simp

/-- C14 at a concrete input: a capture is in flight (port enabled, three bytes stored), the
environment would deliver a complete frame, yet the second call returns `-1` at once. -/
theorem C14_second_capture_is_rejected_witness :
    (take_picture
      { pool := [(true, true)], capture_ok := true,
        deliveries := [(image_env, image_buffer [1, 2, 3] true)] }
      { userdata := some { fresh_image_userdata (fun _ => 7) 8 with offset := 3 },
        is_enabled := true } (fun _ => 0) 2).status = some (-1) ∧
    (take_picture
      { pool := [(true, true)], capture_ok := true,
        deliveries := [(image_env, image_buffer [1, 2, 3] true)] }
      { userdata := some { fresh_image_userdata (fun _ => 7) 8 with offset := 3 },
        is_enabled := true } (fun _ => 0) 2).lengthActual = none ∧
    (take_picture
      { pool := [(true, true)], capture_ok := true,
        deliveries := [(image_env, image_buffer [1, 2, 3] true)] }
      { userdata := some { fresh_image_userdata (fun _ => 7) 8 with offset := 3 },
        is_enabled := true } (fun _ => 0) 2).events =
      [ImageEvent.vcos_semaphore_create, ImageEvent.printf_could_not_enable] := by
  have h := C14_second_capture_is_rejected
    { pool := [(true, true)], capture_ok := true,
      deliveries := [(image_env, image_buffer [1, 2, 3] true)] }
    { userdata := some { fresh_image_userdata (fun _ => 7) 8 with offset := 3 },
      is_enabled := true } (fun _ => 0) 2 rfl
  exact ⟨h.1, h.2.1, h.2.2.1⟩

/-! ## Lemmas on the expansion of segment-numbered names -/

theorem asprintf_scan_text (pre : List Char) (hpre : ∀ c ∈ pre, c ≠ '%') (rest : List Char)
    (arg : Option Int) :
    asprintf_scan (pre ++ rest) FormatState.text arg
      = (asprintf_scan rest FormatState.text arg).map (fun out => pre ++ out) := by
  induction pre with
  | nil => simp
  | cons c cs ih =>
    have hc : c ≠ '%' := hpre c (List.mem_cons_self _ _)
    have ih1 := ih (fun d hd => hpre d (List.mem_cons_of_mem _ hd))
    simp only [List.cons_append, asprintf_scan, hc, if_false, List.append_eq, ih1,
      Option.map_map]
    rfl

theorem asprintf_scan_plain (suf : List Char) (hsuf : ∀ c ∈ suf, c ≠ '%')
    (arg : Option Int) :
    asprintf_scan suf FormatState.text arg = some suf := by
  have h := asprintf_scan_text suf hsuf [] arg
  simpa [asprintf_scan] using h

theorem digit_not_special (c : Char) (hc : c.isDigit = true) :
    c ≠ '-' ∧ c ≠ '%' := by
  refine ⟨?_, ?_⟩ <;> (rintro rfl; exact absurd hc (by decide))

theorem asprintf_scan_width (digits : List Char) (hd : ∀ c ∈ digits, c.isDigit = true)
    (rest : List Char) (left zero : Bool) (n : Int) :
    ∀ w : Nat,
      asprintf_scan (digits ++ 'd' :: rest) (FormatState.width left zero w) (some n)
        = (asprintf_scan rest FormatState.text none).map
            (fun out => format_int left zero
              (digits.foldl (fun acc c => 10 * acc + (c.toNat - 48)) w) n ++ out) := by
  induction digits with
  | nil =>
    intro w
    have h1 : ('d' : Char).isDigit = false := by decide
    simp [asprintf_scan, h1]
  | cons c cs ih =>
    intro w
    have hc : c.isDigit = true := hd c (List.mem_cons_self _ _)
    simp only [List.cons_append, asprintf_scan, hc, if_true, List.foldl_cons, List.append_eq]
    exact ih (fun d hd1 => hd d (List.mem_cons_of_mem _ hd1)) _

theorem asprintf_scan_zero_flag (digits : List Char) (hd : ∀ c ∈ digits, c.isDigit = true)
    (rest : List Char) (n : Int) :
    asprintf_scan (digits ++ 'd' :: rest) (FormatState.flags false true) (some n)
      = (asprintf_scan rest FormatState.text none).map
          (fun out => format_int false true (decimal_value digits) n ++ out) := by
  induction digits with
  | nil =>
    have h1 : ('d' : Char).isDigit = false := by decide
    have h2 : ('d' : Char) ≠ '-' := by decide
    have h3 : ('d' : Char) ≠ '0' := by decide
    simp [asprintf_scan, h1, h2, h3, decimal_value]
  | cons c cs ih =>
    have hc : c.isDigit = true := hd c (List.mem_cons_self _ _)
    have hcs : ∀ d ∈ cs, d.isDigit = true := fun d hd1 => hd d (List.mem_cons_of_mem _ hd1)
    have hminus : c ≠ '-' := (digit_not_special c hc).1
    by_cases hzero : c = '0'
    · subst hzero
      simp only [List.cons_append, asprintf_scan, if_true, List.append_eq]
      rw [if_neg (by decide), ih hcs]
      have hv : decimal_value ('0' :: cs) = decimal_value cs := by
        simp [decimal_value]
      rw [hv]
    · simp only [List.cons_append, asprintf_scan, hminus, hzero, hc, if_false, if_true,
        List.append_eq]
      rw [asprintf_scan_width cs hcs rest false true n]
      simp [decimal_value]

theorem format_int_zero_padded (width : Nat) (n : Int) (hn : 0 ≤ n) :
    format_int false true width n = zero_padded width n.toNat := by
  have hlt : ¬ n < 0 := by omega
  have habs : n.natAbs = n.toNat := by omega
  simp [format_int, zero_padded, hlt, habs]

theorem dropWhile_to_percent (pre rest : List Char) (hpre : ∀ c ∈ pre, c ≠ '%') :
    (pre ++ '%' :: rest).dropWhile (fun c => c ≠ '%') = '%' :: rest := by
  induction pre with
  | nil => simp [List.dropWhile]
  | cons c cs ih =>
    have hc : c ≠ '%' := hpre c (List.mem_cons_self _ _)
    simp only [List.cons_append, List.dropWhile_cons, hc, ne_eq, not_false_eq_true,
      decide_True, if_true]
    exact ih (fun d hd1 => hpre d (List.mem_cons_of_mem _ hd1))

theorem dropWhile_digits (digits rest : List Char) (hd : ∀ c ∈ digits, c.isDigit = true) :
    (digits ++ 'd' :: rest).dropWhile Char.isDigit = 'd' :: rest := by
  induction digits with
  | nil =>
    have hdd : ('d' : Char).isDigit = false := by decide
    simp [List.dropWhile, hdd]
  | cons c cs ih =>
    have hc : c.isDigit = true := hd c (List.mem_cons_self _ _)
    simp only [List.cons_append, List.dropWhile_cons, hc, if_true]
    exact ih (fun d hd1 => hd d (List.mem_cons_of_mem _ hd1))

theorem bSegmentNumber_of_pattern (pre digits suf : List Char)
    (hpre : ∀ c ∈ pre, c ≠ '%') (hd : ∀ c ∈ digits, c.isDigit = true) :
    bSegmentNumber (pre ++ ['%', '0'] ++ digits ++ ['d'] ++ suf) = true := by
  have hshape : pre ++ ['%', '0'] ++ digits ++ ['d'] ++ suf
      = pre ++ '%' :: (('0' :: digits) ++ 'd' :: suf) := by
    simp
  have h0 : ∀ c ∈ '0' :: digits, c.isDigit = true := by
    intro c hc
    rw [List.mem_cons] at hc
    rcases hc with rfl | hc
    · decide
    · exact hd c hc
  simp only [bSegmentNumber, hshape, dropWhile_to_percent pre _ hpre,
    dropWhile_digits ('0' :: digits) suf h0]
  decide

/-- The expansion of a name `prefix%0Nd suffix` without any other `%`, segmenting
active. -/
theorem expand_name_zero_padded (pState : RASPIVID_STATE) (env : OpenEnv)
    (pre digits suf : List Char)
    (hseg : pState.segmentSize ≠ 0 ∨ pState.splitWait ≠ 0)
    (hpre : ∀ c ∈ pre, c ≠ '%') (hsuf : ∀ c ∈ suf, c ≠ '%')
    (hd : ∀ c ∈ digits, c.isDigit = true) (hn : 0 ≤ pState.segmentNumber) :
    expand_name pState env (pre ++ ['%', '0'] ++ digits ++ ['d'] ++ suf)
      = some (pre ++ zero_padded (decimal_value digits) pState.segmentNumber.toNat ++ suf) := by
  have hb := bSegmentNumber_of_pattern pre digits suf hpre hd
  simp only [expand_name, hseg, if_true, hb, asprintf]
  have hshape : pre ++ ['%', '0'] ++ digits ++ ['d'] ++ suf
      = pre ++ ('%' :: '0' :: (digits ++ 'd' :: suf)) := by
    simp
  rw [hshape, asprintf_scan_text pre hpre]
  have hflag : asprintf_scan ('%' :: '0' :: (digits ++ 'd' :: suf)) FormatState.text
      (some pState.segmentNumber)
      = asprintf_scan (digits ++ 'd' :: suf) (FormatState.flags false true)
        (some pState.segmentNumber) := by
    simp only [asprintf_scan, if_true]
    rw [if_neg (by decide)]
  rw [hflag, asprintf_scan_zero_flag digits hd suf, asprintf_scan_plain suf hsuf,
    format_int_zero_padded _ _ hn]
  simp only [Option.map_some', List.append_assoc]

/-! ## The claims C15 and C16 -/

/-- C15: `open_filename` with segmenting active (`segmentSize` or `splitWait` non-zero),
for a destination `prefix%0Nd suffix` without any other `%` and a segment number that is
not negative: the expanded name is the prefix, the decimal segment number left-padded with
zeros to at least `N` digits, and the suffix; when this name does not begin with `tcp://`
or `udp://` it is the name handed to `fopen`, whose handle is returned. -/
theorem C15_segment_number_zero_padded (pState : RASPIVID_STATE) (netListen : Bool)
    (env : OpenEnv) (pre digits suf : List Char)
    (hseg : pState.segmentSize ≠ 0 ∨ pState.splitWait ≠ 0)
    (hpre : ∀ c ∈ pre, c ≠ '%') (hsuf : ∀ c ∈ suf, c ≠ '%')
    (hd : ∀ c ∈ digits, c.isDigit = true) (hn : 0 ≤ pState.segmentNumber) :
    expand_name pState env (pre ++ ['%', '0'] ++ digits ++ ['d'] ++ suf)
      = some (pre ++ zero_padded (decimal_value digits) pState.segmentNumber.toNat ++ suf) ∧
    decimal_value digits
      ≤ (zero_padded (decimal_value digits) pState.segmentNumber.toNat).length ∧
    ((pre ++ zero_padded (decimal_value digits) pState.segmentNumber.toNat ++ suf).take 6
        ≠ ['t', 'c', 'p', ':', '/', '/'] →
      (pre ++ zero_padded (decimal_value digits) pState.segmentNumber.toNat ++ suf).take 6
        ≠ ['u', 'd', 'p', ':', '/', '/'] →
      open_filename pState netListen env (pre ++ ['%', '0'] ++ digits ++ ['d'] ++ suf)
        = some (OpenOutcome.returned (env.fopen
            (pre ++ zero_padded (decimal_value digits) pState.segmentNumber.toNat ++ suf)),
          [OpenEvent.fopen
            (pre ++ zero_padded (decimal_value digits) pState.segmentNumber.toNat ++ suf)
            (env.fopen
              (pre ++ zero_padded (decimal_value digits) pState.segmentNumber.toNat
                ++ suf))])) := by
  have hexp := expand_name_zero_padded pState env pre digits suf hseg hpre hsuf hd hn
  refine ⟨hexp, ?_, ?_⟩
  · simp only [zero_padded, List.length_append, List.length_replicate]
    omega
  · intro htcp hudp
    simp only [open_filename, hexp, Option.map_some', open_name, htcp, hudp, if_false]

/-- C15 at a concrete input: `clip_%04d.h264` with the segment number 7 opens
`clip_0007.h264`. -/
theorem C15_segment_number_zero_padded_witness :
    open_filename { default_status with segmentSize := 10, segmentNumber := 7 } false
      (socket_env 0) clip_pattern
      = some (OpenOutcome.returned 9,
          [OpenEvent.fopen
            ['c', 'l', 'i', 'p', '_', '0', '0', '0', '7', '.', 'h', '2', '6', '4'] 9]) :=
  (C15_segment_number_zero_padded
    { default_status with segmentSize := 10, segmentNumber := 7 } false (socket_env 0)
    ['c', 'l', 'i', 'p', '_'] ['4'] ['.', 'h', '2', '6', '4']
    (by decide) (by decide) (by decide) (by decide) (by decide)).2.2 (by decide) (by decide)

/-- C16 (the code departs from the claim): client mode, destination
`tcp://127.0.0.1:5000`, `socket` returns the descriptor 5 and `connect` fails with `-1`.
The descriptor is kept, `fdopen` is called on it and its handle (not `NULL`) is returned;
in listen mode a failed `accept` gives `sfd = -1` and the `NULL` handle. -/
theorem C16_refused_connection_still_returns_handle :
    open_filename default_status false (socket_env (-1)) tcp_destination
      = some (OpenOutcome.returned 105,
          [OpenEvent.socket 5, OpenEvent.connect (-1), OpenEvent.fdopen 5 105]) ∧
    open_filename default_status true { socket_env 0 with accept_fd := -1 } tcp_destination
      = some (OpenOutcome.returned 0,
          [OpenEvent.socket 5, OpenEvent.setsockopt 5, OpenEvent.bind 0, OpenEvent.listen 0,
            OpenEvent.accept (-1), OpenEvent.close 5]) := by
  decide

/-! ## Lemmas on the write cursor -/

theorem record_keyframe_ring (pData : PORT_USERDATA) (buffer : MMAL_BUFFER_HEADER_T)
    (frame_start : Int) :
    (record_keyframe pData buffer frame_start).1.cb_wptr = pData.cb_wptr ∧
      (record_keyframe pData buffer frame_start).1.cb_len = pData.cb_len ∧
      (record_keyframe pData buffer frame_start).1.cb_wrap = pData.cb_wrap := by
  simp only [record_keyframe]
  split <;> exact ⟨rfl, rfl, rfl⟩

theorem callback_ordinary_cursor (fuel : Nat) (env : Env) (port : MMAL_PORT_T)
    (buffer : MMAL_BUFFER_HEADER_T) (statics : Statics) (pData : PORT_USERDATA)
    (ring : Int → Nat) (r : MMAL_PORT_T × Statics × List Event)
    (hport : port.userdata = some pData) (hring : pData.cb_buff = some ring)
    (hcfg : buffer.flag_config = false) (hside : buffer.flag_codecsideinfo = false)
    (h : encoder_buffer_callback fuel env port buffer statics = some r) :
    ∃ pData1 ring1, r.1.userdata = some pData1 ∧ pData1.cb_buff = some ring1 ∧
      pData1.cb_len = pData.cb_len ∧
      pData1.cb_wptr = (pData.cb_wptr + buffer.length).tmod pData.cb_len := by
  obtain ⟨pData2, h2, hud, _⟩ :=
    callback_circular_ordinary fuel env port buffer statics pData ring r hport hring hcfg
      hside h
  have heq := evict_eq fuel _ pData2 buffer.length h2
  have hk := record_keyframe_ring pData buffer statics.frame_start
  have hwptr : pData2.cb_wptr = pData.cb_wptr := by
    rw [heq]
    exact hk.1
  have hlen : pData2.cb_len = pData.cb_len := by
    rw [heq]
    exact hk.2.1
  refine ⟨ring_write ring pData2 buffer, ring_bytes ring pData2 buffer, hud, rfl, ?_, ?_⟩
  · exact hlen
  · show (pData2.cb_wptr + buffer.length).tmod pData2.cb_len = _
    rw [hwptr, hlen]

theorem run_ordinary_cursor (fuel : Nat) (run : List (Env × MMAL_BUFFER_HEADER_T)) :
    ∀ (port : MMAL_PORT_T) (statics : Statics) (pData : PORT_USERDATA) (ring : Int → Nat)
      (r : MMAL_PORT_T × Statics × List Event),
      port.userdata = some pData → pData.cb_buff = some ring →
      0 ≤ pData.cb_wptr → pData.cb_wptr < pData.cb_len →
      (∀ d ∈ run, d.2.flag_config = false ∧ d.2.flag_codecsideinfo = false) →
      run_callbacks fuel run port statics = some r →
      ∃ pData1 ring1, r.1.userdata = some pData1 ∧ pData1.cb_buff = some ring1 ∧
        pData1.cb_len = pData.cb_len ∧
        pData1.cb_wptr = (pData.cb_wptr + (appended_bytes run : Int)) % pData.cb_len := by
  induction run with
  | nil =>
    intro port statics pData ring r hport hring hw0 hw1 _ h
    simp only [run_callbacks] at h
    cases h
    refine ⟨pData, ring, hport, hring, rfl, ?_⟩
    simp only [appended_bytes, Nat.cast_zero, add_zero]
    exact (Int.emod_eq_of_lt hw0 hw1).symm
  | cons d rest ih =>
    intro port statics pData ring r hport hring hw0 hw1 hord h
    obtain ⟨env, buffer⟩ := d
    simp only [run_callbacks] at h
    cases h1 : encoder_buffer_callback fuel env port buffer statics with
    | none => simp [h1] at h
    | some r1 =>
      obtain ⟨port1, statics1, evs1⟩ := r1
      simp only [h1] at h
      cases h2 : run_callbacks fuel rest port1 statics1 with
      | none => simp [h2] at h
      | some r2 =>
        obtain ⟨port2, statics2, evs2⟩ := r2
        simp only [h2] at h
        cases h
        have hd := hord (env, buffer) (List.mem_cons_self _ _)
        obtain ⟨pData1, ring1, hud1, hring1, hlen1, hwptr1⟩ :=
          callback_ordinary_cursor fuel env port buffer statics pData ring _ hport hring
            hd.1 hd.2 h1
        have hC : 0 < pData.cb_len := by omega
        have hmod : pData1.cb_wptr = (pData.cb_wptr + buffer.length) % pData.cb_len := by
          rw [hwptr1]
          exact Int.tmod_eq_emod (by omega) (le_of_lt hC)
        obtain ⟨pData2, ring2, hud2, hring2, hlen2, hwptr2⟩ :=
          ih port1 statics1 pData1 ring1 _ hud1 hring1
            (by rw [hmod]; exact Int.emod_nonneg _ (by omega))
            (by rw [hmod, hlen1]; exact Int.emod_lt_of_pos _ hC)
            (fun d hd => hord d (List.mem_cons_of_mem _ hd)) h2
        refine ⟨pData2, ring2, hud2, hring2, hlen2.trans hlen1, ?_⟩
        rw [hwptr2, hlen1, hmod]
        simp only [appended_bytes, Nat.cast_add]
        rw [Int.emod_add_emod, Int.add_assoc]

/-! ## Lemmas on the release and the resubmission of buffers -/

theorem pool_calls_append (a b : List Event) :
    pool_calls (a ++ b) = pool_calls a ++ pool_calls b := by
  simp [pool_calls, List.filter_append]

theorem pool_calls_none (evs : List Event) (h : ∀ e ∈ evs, is_pool_call e = false) :
    pool_calls evs = [] := by
  simp only [pool_calls, List.filter_eq_nil_iff]
  intro e he
  simp [h e he]

theorem pool_calls_rotate (env : Env) (pData : PORT_USERDATA) :
    pool_calls (rotate env pData).2 = [] := by
  apply pool_calls_none
  intro e he
  rcases rotate_events_kind env pData e he with ⟨s, n, h, rfl⟩ | ⟨h, rfl⟩ <;> rfl

theorem pool_calls_write_chunk (env : Env) (pData : PORT_USERDATA)
    (buffer : MMAL_BUFFER_HEADER_T) : pool_calls (write_chunk env pData buffer).2 = [] := by
  simp only [write_chunk, sink_write, save_pts_record, pool_calls]
  split_ifs <;> simp_all [is_pool_call]

theorem pool_calls_direct_sink (env : Env) (pData : PORT_USERDATA)
    (buffer : MMAL_BUFFER_HEADER_T) (base_time current_time : Int) :
    pool_calls (direct_sink env pData buffer base_time current_time).2.2 = [] := by
  simp only [direct_sink]
  split
  · rw [pool_calls_append, pool_calls_rotate, pool_calls_write_chunk]
    rfl
  · exact pool_calls_write_chunk env pData buffer

theorem pool_calls_tick (now last : Int) : pool_calls (annotation_tick now last).2 = [] := by
  simp only [annotation_tick]
  split <;> rfl

theorem pool_calls_iframe_check (fuel : Nat) (cb_buff : Int → Nat) (pData : PORT_USERDATA) :
    ∀ (i : Int) (evs : List Event), iframe_check fuel cb_buff pData i = some evs →
      pool_calls evs = [] := by
  induction fuel with
  | zero =>
    intro i evs h
    simp [iframe_check] at h
  | succ n ih =>
    intro i evs h
    simp only [iframe_check] at h
    split at h
    · cases hrest : iframe_check n cb_buff pData ((i + 1).tmod IFRAME_BUFSIZE) with
      | none => simp [hrest] at h
      | some rest =>
        simp only [hrest, Option.map_some', Option.some.injEq] at h
        subst h
        rw [pool_calls_append, ih _ rest hrest]
        split <;> rfl
    · cases h
      rfl

theorem pool_calls_circular (fuel : Nat) (cb_buff : Int → Nat) (pData : PORT_USERDATA)
    (buffer : MMAL_BUFFER_HEADER_T) (frame_start : Int)
    (r : PORT_USERDATA × Int × List Event)
    (h : circular fuel cb_buff pData buffer frame_start = some r) :
    pool_calls r.2.2 = [] := by
  simp only [circular] at h
  split at h
  · cases h
    simp only [circular_config]
    split <;> rfl
  · split at h
    · cases h
      rfl
    · simp only [circular_ordinary] at h
      split at h
      · cases h
      · split at h
        · cases h
        · rename_i evs hevs
          cases h
          exact pool_calls_iframe_check _ _ _ _ evs hevs

theorem pool_calls_release (env : Env) (port : MMAL_PORT_T) (pData : PORT_USERDATA)
    (hport : port.userdata = some pData) :
    pool_calls (release_and_resubmit env port) =
      [Event.mmal_buffer_header_release] ++
        (if port.is_enabled then
          [Event.mmal_queue_get env.queue_get] ++
            (if env.queue_get then [Event.mmal_port_send_buffer env.send_ok] else [])
        else []) := by
  simp only [release_and_resubmit, hport]
  cases port.is_enabled <;> cases env.queue_get <;> cases env.send_ok <;> rfl

/-- Whenever `encoder_buffer_callback` returns from an invocation with a context, its
calls on the buffer pool are: one release of the delivered buffer; then, exactly when the
port is enabled, one request of a free buffer, followed by its resubmission exactly when
a buffer was obtained. -/
theorem callback_pool_calls (fuel : Nat) (env : Env) (port : MMAL_PORT_T)
    (buffer : MMAL_BUFFER_HEADER_T) (statics : Statics) (pData : PORT_USERDATA)
    (r : MMAL_PORT_T × Statics × List Event)
    (hport : port.userdata = some pData)
    (h : encoder_buffer_callback fuel env port buffer statics = some r) :
    pool_calls r.2.2 =
      [Event.mmal_buffer_header_release] ++
        (if port.is_enabled then
          [Event.mmal_queue_get env.queue_get] ++
            (if env.queue_get then [Event.mmal_port_send_buffer env.send_ok] else [])
        else []) := by
  have hrel := pool_calls_release env port pData hport
  simp only [encoder_buffer_callback, hport] at h
  cases hring : pData.cb_buff with
  | some cb_buff =>
    simp only [hring] at h
    cases hc : circular fuel cb_buff pData buffer statics.frame_start with
    | none => simp [hc] at h
    | some c =>
      obtain ⟨pData1, frame_start1, evs⟩ := c
      simp only [hc] at h
      cases h
      have hevs := pool_calls_circular fuel cb_buff pData buffer statics.frame_start _ hc
      simp only at hevs
      rw [pool_calls_append, pool_calls_append, hevs, pool_calls_tick, hrel]
      rfl
  | none =>
    simp only [hring] at h
    cases h
    rw [pool_calls_append, pool_calls_append, pool_calls_direct_sink, pool_calls_tick, hrel]
    rfl

/-- The port and the statics that `encoder_buffer_callback` leaves do not depend on
whether a free buffer was obtained from the pool nor on whether it was resubmitted. -/
theorem callback_state_ignores_pool (fuel : Nat) (env : Env) (port : MMAL_PORT_T)
    (buffer : MMAL_BUFFER_HEADER_T) (statics : Statics) (got sent : Bool) :
    (encoder_buffer_callback fuel { env with queue_get := got, send_ok := sent } port buffer
        statics).map (fun r => (r.1, r.2.1))
      = (encoder_buffer_callback fuel env port buffer statics).map (fun r => (r.1, r.2.1)) := by
  simp only [encoder_buffer_callback]
  cases port.userdata with
  | none => rfl
  | some pData =>
    simp only
    cases pData.cb_buff with
    | some cb_buff =>
      simp only
      cases circular fuel cb_buff pData buffer statics.frame_start with
      | none => rfl
      | some c => rfl
    | none => rfl

/-! ## The claims C21 to C30 -/

/-- C21 (the code departs from the claim): after keyframes of 8 and 4 bytes in a ring of
16 bytes the keyframe index holds the offsets 0 and 8 and the cursor is at 12, the state
`two_entry_userdata`. An ordinary chunk of 14 bytes then covers both queued offsets and
offset 0, so the `while` condition of lines 896-901 holds at every slot; the callback
never gets to line 1045: it returns for no amount of fuel and the delivered buffer is not
released. -/
theorem C21_buffer_not_released_when_scan_runs_on (fuel : Nat) :
    (context_after (run_callbacks 3
        [(plain_env 5 0 0, frame_chunk [0, 0, 0, 1, 1, 1, 1, 1] true),
          (plain_env 5 0 0, frame_chunk [0, 0, 0, 1] true)]
        (fresh_circular_port 16) initial_statics)).map
      (fun pData => (pData.cb_len, pData.cb_wptr, pData.iframe_buff_rpos,
        pData.iframe_buff_wpos, pData.iframe_buff 0, pData.iframe_buff 1))
      = some (two_entry_userdata.cb_len, two_entry_userdata.cb_wptr,
        two_entry_userdata.iframe_buff_rpos, two_entry_userdata.iframe_buff_wpos,
        two_entry_userdata.iframe_buff 0, two_entry_userdata.iframe_buff 1) ∧
    encoder_buffer_callback fuel (plain_env 5 0 0)
      { userdata := some two_entry_userdata, is_enabled := true }
      (frame_chunk [1, 2, 3, 4, 5, 6, 7, 8, 9, 10, 11, 12, 13, 14] false) initial_statics
      = none ∧
    Event.mmal_buffer_header_release ∉ events_after (encoder_buffer_callback fuel
      (plain_env 5 0 0) { userdata := some two_entry_userdata, is_enabled := true }
      (frame_chunk [1, 2, 3, 4, 5, 6, 7, 8, 9, 10, 11, 12, 13, 14] false) initial_statics) := by
  have hstuck : ∀ k, evict_cond { two_entry_userdata with iframe_buff_rpos := k } 14 = true := by
    intro k
    simp only [evict_cond, two_entry_userdata, zeroed_userdata]
    split_ifs <;> decide
  have hloop := evict_loop_stuck two_entry_userdata 14 hstuck fuel
  have hscan : evict fuel
      (record_keyframe two_entry_userdata
        (frame_chunk [1, 2, 3, 4, 5, 6, 7, 8, 9, 10, 11, 12, 13, 14] false)
        initial_statics.frame_start).1
      (frame_chunk [1, 2, 3, 4, 5, 6, 7, 8, 9, 10, 11, 12, 13, 14] false).length = none := by
    have hguard : evict fuel two_entry_userdata 14 = evict_loop fuel two_entry_userdata 14 := by
      unfold evict
      rw [if_pos (by decide)]
    exact hguard.trans hloop
  have hnone := callback_none_of_scan_none fuel (plain_env 5 0 0)
    { userdata := some two_entry_userdata, is_enabled := true }
    (frame_chunk [1, 2, 3, 4, 5, 6, 7, 8, 9, 10, 11, 12, 13, 14] false) initial_statics
    two_entry_userdata (fun _ => 0) rfl rfl rfl rfl hscan
  refine ⟨by decide, hnone, ?_⟩
  rw [hnone]
  simp [events_after]

/-- Circular mode with a ring of capacity `C > 0`. (1) Whenever a run of ordinary
chunks started at `cb_wptr = 0` returns, `cb_wptr` equals the number of bytes appended
modulo `C` and lies in `[0, C)`. (2) Whenever the callback returns on one ordinary chunk of
length `L` delivered at a cursor `w` in `[0, C)`, the new cursor is `(w + L) mod C`.
(3) On a `Config` or `SideInfo` chunk the callback returns and leaves `cb_wptr` unchanged.
(4) On an ordinary chunk the callback does return, with enough fuel, as soon as the
eviction scan of lines 893-903 stops (index positions in range). -/
theorem write_cursor_when_returned (C : Int) (hC : 0 < C) :
    (∀ (fuel : Nat) (run : List (Env × MMAL_BUFFER_HEADER_T)) (port : MMAL_PORT_T)
        (statics : Statics) (pData : PORT_USERDATA) (ring : Int → Nat)
        (r : MMAL_PORT_T × Statics × List Event),
      port.userdata = some pData → pData.cb_buff = some ring → pData.cb_len = C →
      pData.cb_wptr = 0 →
      (∀ d ∈ run, d.2.flag_config = false ∧ d.2.flag_codecsideinfo = false) →
      run_callbacks fuel run port statics = some r →
      ∃ pData1, r.1.userdata = some pData1 ∧
        pData1.cb_wptr = (appended_bytes run : Int) % C ∧
        0 ≤ pData1.cb_wptr ∧ pData1.cb_wptr < C) ∧
    (∀ (fuel : Nat) (env : Env) (port : MMAL_PORT_T) (buffer : MMAL_BUFFER_HEADER_T)
        (statics : Statics) (pData : PORT_USERDATA) (ring : Int → Nat)
        (r : MMAL_PORT_T × Statics × List Event),
      port.userdata = some pData → pData.cb_buff = some ring → pData.cb_len = C →
      0 ≤ pData.cb_wptr → pData.cb_wptr < C →
      buffer.flag_config = false → buffer.flag_codecsideinfo = false →
      encoder_buffer_callback fuel env port buffer statics = some r →
      ∃ pData1, r.1.userdata = some pData1 ∧
        pData1.cb_wptr = (pData.cb_wptr + buffer.length) % C) ∧
    (∀ (fuel : Nat) (env : Env) (port : MMAL_PORT_T) (buffer : MMAL_BUFFER_HEADER_T)
        (statics : Statics) (pData : PORT_USERDATA) (ring : Int → Nat),
      port.userdata = some pData → pData.cb_buff = some ring → pData.cb_len = C →
      (buffer.flag_config = true ∨ buffer.flag_codecsideinfo = true) →
      ∃ r pData1, encoder_buffer_callback fuel env port buffer statics = some r ∧
        r.1.userdata = some pData1 ∧ pData1.cb_wptr = pData.cb_wptr) ∧
    (∀ (fuel0 fuel : Nat) (env : Env) (port : MMAL_PORT_T) (buffer : MMAL_BUFFER_HEADER_T)
        (statics : Statics) (pData pData2 : PORT_USERDATA) (ring : Int → Nat),
      port.userdata = some pData → pData.cb_buff = some ring → pData.cb_len = C →
      buffer.flag_config = false → buffer.flag_codecsideinfo = false →
      0 ≤ pData.iframe_buff_rpos → pData.iframe_buff_rpos < IFRAME_BUFSIZE →
      0 ≤ pData.iframe_buff_wpos → pData.iframe_buff_wpos < IFRAME_BUFSIZE →
      evict fuel0 (record_keyframe pData buffer statics.frame_start).1 buffer.length
        = some pData2 →
      fuel0 ≤ fuel → 60000 ≤ fuel →
      ∃ r, encoder_buffer_callback fuel env port buffer statics = some r) := by
  refine ⟨?_, ?_, ?_, ?_⟩
  · intro fuel run port statics pData ring r hport hring hlen hw hord h
    obtain ⟨pData1, ring1, hud, _, hlen1, hwptr⟩ :=
      run_ordinary_cursor fuel run port statics pData ring r hport hring
        (by omega) (by omega) hord h
    rw [hw, hlen, zero_add] at hwptr
    refine ⟨pData1, hud, hwptr, ?_, ?_⟩
    · rw [hwptr]
      exact Int.emod_nonneg _ (by omega)
    · rw [hwptr]
      exact Int.emod_lt_of_pos _ hC
  · intro fuel env port buffer statics pData ring r hport hring hlen hw0 _ hcfg hside h
    obtain ⟨pData1, ring1, hud, _, _, hwptr⟩ :=
      callback_ordinary_cursor fuel env port buffer statics pData ring r hport hring hcfg
        hside h
    refine ⟨pData1, hud, ?_⟩
    rw [hwptr, hlen]
    exact Int.tmod_eq_emod (by omega) (le_of_lt hC)
  · intro fuel env port buffer statics pData ring hport hring _ hflag
    cases hcfg : buffer.flag_config with
    | true =>
      refine ⟨_, (circular_config pData buffer).1,
        callback_circular_config fuel env port buffer statics pData ring hport hring hcfg,
        rfl, ?_⟩
      simp only [circular_config]
      split <;> rfl
    | false =>
      have hside : buffer.flag_codecsideinfo = true := by
        rcases hflag with h | h
        · rw [hcfg] at h
          cases h
        · exact h
      exact ⟨_, pData,
        callback_circular_sideinfo fuel env port buffer statics pData ring hport hring hcfg
          hside, rfl, rfl⟩
  · intro fuel0 fuel env port buffer statics pData pData2 ring hport hring _ hcfg hside
      hr0 hr1 hw0 hw1 hscan hf1 hf2
    exact circular_ordinary_returns fuel0 fuel env port buffer statics pData pData2 ring hport
      hring hcfg hside hr0 hr1 hw0 hw1 hscan hf1 hf2

/-- A ring of 8 bytes and the run `cursor_run` of 6, 1 and 3 bytes, in which the index
never holds more than one entry: the run returns and leaves the cursor at `10 mod 8 = 2`. -/
theorem write_cursor_when_returned_example :
    (0 : Int) < 8 ∧
    ∃ r, run_callbacks 3 cursor_run (fresh_circular_port 8) initial_statics = some r ∧
      ∃ pData1, r.1.userdata = some pData1 ∧
        pData1.cb_wptr = (appended_bytes cursor_run : Int) % 8 ∧
        0 ≤ pData1.cb_wptr ∧ pData1.cb_wptr < 8 := by
  have hsome : (run_callbacks 3 cursor_run (fresh_circular_port 8) initial_statics).isSome
      = true := by decide
  obtain ⟨r, hr⟩ := Option.isSome_iff_exists.mp hsome
  exact ⟨by decide, r, hr,
    (write_cursor_when_returned 8 (by decide)).1 3 cursor_run
      (fresh_circular_port 8) initial_statics (zeroed_userdata 0 (some (fun _ => 0)) 8)
      (fun _ => 0) r rfl rfl rfl rfl (by decide) hr⟩

/-! ## Lemmas on the content of the still capture -/

theorem delivered_bytes_length (run : List (ImageEnv × MMAL_BUFFER_HEADER_T)) :
    (delivered_bytes run).length = total_length run := by
  induction run with
  | nil => rfl
  | cons d rest ih =>
    obtain ⟨env, buffer⟩ := d
    simp only [delivered_bytes, total_length, List.length_append, ih,
      MMAL_BUFFER_HEADER_T.length]

theorem copy_loop_beyond (bytes : List Nat) :
    ∀ pData : PORT_USERDATA_IMAGE,
      pData.offset ≤ (copy_loop bytes pData).1.offset ∧
      ∀ j, (copy_loop bytes pData).1.offset ≤ j →
        (copy_loop bytes pData).1.data j = pData.data j := by
  induction bytes with
  | nil =>
    intro pData
    exact ⟨le_refl _, fun _ _ => rfl⟩
  | cons byte rest ih =>
    intro pData
    simp only [copy_loop]
    split
    · exact ⟨le_refl _, fun _ _ => rfl⟩
    · obtain ⟨h1, h2⟩ := ih
        { pData with
          data := fun i => if i = pData.offset then byte else pData.data i
          offset := pData.offset + 1
          bufferPosition := pData.bufferPosition + 1 }
      simp only at h1 h2 ⊢
      refine ⟨by omega, ?_⟩
      intro j hj
      rw [h2 j hj, if_neg (by omega)]

theorem image_chunk_beyond (pData : PORT_USERDATA_IMAGE) (buffer : MMAL_BUFFER_HEADER_T) :
    ∀ j, (image_chunk pData buffer).1.offset ≤ j →
      (image_chunk pData buffer).1.data j = pData.data j := by
  have h := (copy_loop_beyond buffer.data
    { pData with lengthActual := pData.lengthActual + buffer.length }).2
  simp only at h
  by_cases hflag : (buffer.flag_frame_end || buffer.flag_transmission_failed) = true
  · simp only [image_chunk, hflag, if_true]
    exact h
  · simp only [image_chunk, hflag]
    exact h

/-- A run of the callback from a context with `offset ≤ length`: the bytes stored from
the starting offset on are the leading bytes of the concatenation of the chunks, and the
bytes from the final offset on are untouched. -/
theorem run_image_content (run : List (ImageEnv × MMAL_BUFFER_HEADER_T)) :
    ∀ (port : IMAGE_PORT) (pData : PORT_USERDATA_IMAGE),
      port.userdata = some pData → pData.offset ≤ pData.length →
      ∃ pData1, (run_image_callbacks run port).1.userdata = some pData1 ∧
        pData1.offset = min (pData.offset + total_length run) pData.length ∧
        (∀ k, pData.offset + k < pData1.offset →
          pData1.data (pData.offset + k) = (delivered_bytes run).getD k 0) ∧
        (∀ j, pData1.offset ≤ j → pData1.data j = pData.data j) := by
  induction run with
  | nil =>
    intro port pData hport h
    refine ⟨pData, hport, ?_, ?_, fun _ _ => rfl⟩
    · simp only [total_length, Nat.add_zero]
      exact (Nat.min_eq_left h).symm
    · intro k hk
      omega
  | cons d rest ih =>
    intro port pData hport h
    obtain ⟨env, buffer⟩ := d
    obtain ⟨c1, _, _, c4, _, _, c7, _⟩ := image_chunk_spec pData buffer h
    have cb := image_chunk_beyond pData buffer
    have hport1 : (encoder_buffer_callback_image env port buffer).1.userdata
        = some (image_chunk pData buffer).1 := by
      simp only [encoder_buffer_callback_image, hport]
    have hle1 : (image_chunk pData buffer).1.offset ≤ (image_chunk pData buffer).1.length := by
      rw [c4, c1]
      exact Nat.min_le_right _ _
    obtain ⟨pData2, r1, r2, r3, r4⟩ :=
      ih (encoder_buffer_callback_image env port buffer).1 (image_chunk pData buffer).1
        hport1 hle1
    obtain ⟨pData3, s1, _, _, _, _, _, _, s8, _⟩ :=
      run_image_spec rest (encoder_buffer_callback_image env port buffer).1
        (image_chunk pData buffer).1 hport1 hle1
    have h23 : pData3 = pData2 := by
      rw [r1] at s1
      exact (Option.some.inj s1).symm
    rw [h23] at s8
    have hrun : (run_image_callbacks ((env, buffer) :: rest) port).1
        = (run_image_callbacks rest (encoder_buffer_callback_image env port buffer).1).1 := rfl
    rw [hrun]
    rw [c1] at r2
    have hlen : buffer.data.length = buffer.length := rfl
    refine ⟨pData2, r1, ?_, ?_, ?_⟩
    · rw [r2, c4]
      simp only [total_length]
      omega
    · intro k hk
      simp only [delivered_bytes]
      by_cases hkL : k < buffer.length
      · have hk1 : pData.offset + k < (image_chunk pData buffer).1.offset := by
          rw [r2, c4] at hk
          rw [c4]
          omega
        rw [s8 _ (Or.inl hk1), c7 k hk1]
        simp only [List.getD_eq_getElem?_getD]
        rw [List.getElem?_append_left (by omega)]
      · have hoff : (image_chunk pData buffer).1.offset = pData.offset + buffer.length := by
          rw [r2, c4] at hk
          rw [c4]
          omega
        have hk2 : pData.offset + k = (image_chunk pData buffer).1.offset + (k - buffer.length) := by
          rw [hoff]
          omega
        rw [hk2, r3 (k - buffer.length) (by rw [← hk2]; exact hk)]
        simp only [List.getD_eq_getElem?_getD]
        rw [List.getElem?_append_right (by omega)]
        rfl
    · intro j hj
      have hmono : (image_chunk pData buffer).1.offset ≤ pData2.offset := by
        rw [r2, c4]
        omega
      rw [r4 j hj, cb j (by omega)]

/-- C23: still capture content. For every capacity `X` (the `length` of the context) and
every sequence of chunks handed to `encoder_buffer_callback_image` from `offset = 0`, with
`Y` the total delivered length (the length of the concatenation of the chunks): the copy
offset ends at `min(Y, X)`, the destination holds byte `k` of the concatenation at every
index `k < min(Y, X)`, and every destination byte at an index `≥ min(Y, X)` is as it was
before. -/
theorem C23_destination_holds_leading_bytes
    (run : List (ImageEnv × MMAL_BUFFER_HEADER_T)) (port : IMAGE_PORT)
    (pData : PORT_USERDATA_IMAGE)
    (hport : port.userdata = some pData) (h0 : pData.offset = 0) :
    (delivered_bytes run).length = total_length run ∧
    ∃ pData1, (run_image_callbacks run port).1.userdata = some pData1 ∧
      pData1.offset = min (total_length run) pData.length ∧
      (∀ k, k < min (total_length run) pData.length →
        pData1.data k = (delivered_bytes run).getD k 0) ∧
      (∀ j, min (total_length run) pData.length ≤ j → pData1.data j = pData.data j) := by
  refine ⟨delivered_bytes_length run, ?_⟩
  obtain ⟨pData1, r1, r2, r3, r4⟩ := run_image_content run port pData hport (by omega)
  rw [h0, Nat.zero_add] at r2
  refine ⟨pData1, r1, r2, ?_, ?_⟩
  · intro k hk
    have h := r3 k (by rw [h0, Nat.zero_add, r2]; exact hk)
    rwa [h0, Nat.zero_add] at h
  · intro j hj
    exact r4 j (by rw [r2]; exact hj)

/-- C23 at a concrete input: a destination of 5 bytes that holds 9 everywhere, chunks of 3
bytes and of 1 byte; afterwards it holds `1 2 3 4 9` and the offset is 4. A destination of
2 bytes given the same chunks holds `1 2` and the offset is 2. -/
theorem C23_destination_holds_leading_bytes_witness :
    port_context_summary (run_image_callbacks
        [(image_env, image_buffer [1, 2, 3] false), (image_env, image_buffer [4] true)]
        { userdata := some (fresh_image_userdata (fun _ => 9) 2), is_enabled := true }).1
      = some (2, 2, 4, [1, 2, 9, 9]) ∧
    ∃ pData1, (run_image_callbacks
        [(image_env, image_buffer [1, 2, 3] false), (image_env, image_buffer [4] true)]
        { userdata := some (fresh_image_userdata (fun _ => 9) 5), is_enabled := true }).1.userdata
        = some pData1 ∧
      pData1.offset = 4 ∧
      (∀ k, k < 4 → pData1.data k = [1, 2, 3, 4].getD k 0) ∧
      (∀ j, 4 ≤ j → pData1.data j = 9) := by
  refine ⟨by decide, ?_⟩
  obtain ⟨_, pData1, h1, h2, h3, h4⟩ := C23_destination_holds_leading_bytes
    [(image_env, image_buffer [1, 2, 3] false), (image_env, image_buffer [4] true)]
    { userdata := some (fresh_image_userdata (fun _ => 9) 5), is_enabled := true }
    (fresh_image_userdata (fun _ => 9) 5) rfl rfl
  exact ⟨pData1, h1, h2, h3, h4⟩

/-! ## Lemmas on the classification of names -/

theorem dropWhile_head_fails (p : Char → Bool) (l : List Char) (a : Char) (t : List Char)
    (h : l.dropWhile p = a :: t) : p a = false := by
  induction l with
  | nil => simp at h
  | cons c cs ih =>
    rw [List.dropWhile_cons] at h
    split at h
    · exact ih h
    · rename_i hc
      cases h
      simpa using hc

theorem dropWhile_digits_stop (digits rest : List Char) (c : Char)
    (hd : ∀ x ∈ digits, x.isDigit = true) (hc : c.isDigit = false) :
    (digits ++ c :: rest).dropWhile Char.isDigit = c :: rest := by
  induction digits with
  | nil => simp [List.dropWhile, hc]
  | cons x xs ih =>
    have hx : x.isDigit = true := hd x (List.mem_cons_self _ _)
    simp only [List.cons_append, List.dropWhile_cons, hx, if_true]
    exact ih (fun d hd1 => hd d (List.mem_cons_of_mem _ hd1))

/-- The test of lines 603-611 holds exactly for the names whose first `%` is followed by
decimal digits (possibly none) and then `u` or `d`. -/
theorem bSegmentNumber_iff (filename : List Char) :
    bSegmentNumber filename = true ↔
      ∃ pre digits c rest, filename = pre ++ '%' :: (digits ++ c :: rest) ∧
        (∀ x ∈ pre, x ≠ '%') ∧ (∀ x ∈ digits, x.isDigit = true) ∧ (c = 'u' ∨ c = 'd') := by
  constructor
  · intro h
    unfold bSegmentNumber at h
    cases h1 : filename.dropWhile (fun c => decide (c ≠ '%')) with
    | nil =>
      rw [h1] at h
      cases h
    | cons p after =>
      rw [h1] at h
      cases h2 : after.dropWhile Char.isDigit with
      | nil =>
        simp only [h2] at h
        cases h
      | cons c rest =>
        simp only [h2] at h
        have hp : p = '%' := by
          have := dropWhile_head_fails _ filename p after h1
          simpa using this
        subst hp
        refine ⟨filename.takeWhile (fun c => decide (c ≠ '%')),
          after.takeWhile Char.isDigit, c, rest, ?_, ?_, ?_, ?_⟩
        · rw [← h2, List.takeWhile_append_dropWhile, ← h1,
            List.takeWhile_append_dropWhile]
        · intro x hx
          have := List.mem_takeWhile_imp hx
          simpa using this
        · intro x hx
          exact List.mem_takeWhile_imp hx
        · simpa using h
  · rintro ⟨pre, digits, c, rest, rfl, hpre, hd, hc⟩
    have hcd : c.isDigit = false := by
      rcases hc with rfl | rfl <;> decide
    simp only [bSegmentNumber, dropWhile_to_percent pre _ hpre,
      dropWhile_digits_stop digits rest c hd hcd]
    simpa using hc

/-- C24 (the claim as stated fails on the code): with segmenting active, the names
`clip_%-4d.h264`, `%%_%d` and `a%s_%03u` are not classified as segment-numbered; each is
handed to `strftime` (here marked by a leading `T`), whereas an expansion of the first two
with the segment number 7 would give `clip_7   .h264` and `%_7`. -/
theorem C24_flagged_or_later_placeholder_is_time_pattern :
    bSegmentNumber left_flag_pattern = false ∧
    bSegmentNumber escaped_percent_pattern = false ∧
    bSegmentNumber string_first_pattern = false ∧
    expand_name { default_status with segmentSize := 10, segmentNumber := 7 } stamp_env
      left_flag_pattern = some ('T' :: left_flag_pattern) ∧
    expand_name { default_status with segmentSize := 10, segmentNumber := 7 } stamp_env
      escaped_percent_pattern = some ('T' :: escaped_percent_pattern) ∧
    expand_name { default_status with segmentSize := 10, segmentNumber := 7 } stamp_env
      string_first_pattern = some ('T' :: string_first_pattern) ∧
    asprintf left_flag_pattern 7
      = some ['c', 'l', 'i', 'p', '_', '7', ' ', ' ', ' ', '.', 'h', '2', '6', '4'] ∧
    asprintf escaped_percent_pattern 7 = some ['%', '_', '7'] := by
  refine ⟨by decide, by decide, by decide, by decide, by decide, by decide, by decide,
    by decide⟩

/-- C24 (amended): `open_filename` with segmenting active classifies a name as
segment-numbered exactly when its first `%` is followed by decimal digits (possibly none)
and then `u` or `d`; such a name is expanded by `asprintf` with `segmentNumber`, and every
other name is treated as a `strftime` time pattern. -/
theorem C24_segment_numbered_iff_first_percent_digits_then_d_or_u
    (pState : RASPIVID_STATE) (env : OpenEnv) (filename : List Char)
    (hseg : pState.segmentSize ≠ 0 ∨ pState.splitWait ≠ 0) :
    (bSegmentNumber filename = true ↔
      ∃ pre digits c rest, filename = pre ++ '%' :: (digits ++ c :: rest) ∧
        (∀ x ∈ pre, x ≠ '%') ∧ (∀ x ∈ digits, x.isDigit = true) ∧ (c = 'u' ∨ c = 'd')) ∧
    (bSegmentNumber filename = true →
      expand_name pState env filename = asprintf filename pState.segmentNumber) ∧
    (bSegmentNumber filename = false →
      expand_name pState env filename = some (env.strftime filename)) := by
  refine ⟨bSegmentNumber_iff filename, ?_, ?_⟩
  · intro h
    simp only [expand_name, hseg, if_true, h]
  · intro h
    simp only [expand_name, hseg, if_true, h]
    rfl

/-- C24 (amended) at concrete inputs: with `segmentSize = 10` and the segment number 7,
`clip_%04d.h264` is segment-numbered and expands to `clip_0007.h264`. -/
theorem C24_segment_numbered_iff_first_percent_digits_then_d_or_u_witness :
    bSegmentNumber clip_pattern = true ∧
    expand_name { default_status with segmentSize := 10, segmentNumber := 7 } stamp_env
      clip_pattern
      = some ['c', 'l', 'i', 'p', '_', '0', '0', '0', '7', '.', 'h', '2', '6', '4'] := by
  have h := C24_segment_numbered_iff_first_percent_digits_then_d_or_u
    { default_status with segmentSize := 10, segmentNumber := 7 } stamp_env clip_pattern
    (by decide)
  have hb : bSegmentNumber clip_pattern = true :=
    h.1.mpr ⟨['c', 'l', 'i', 'p', '_'], ['0', '4'], 'd', ['.', 'h', '2', '6', '4'], rfl,
      by decide, by decide, Or.inr rfl⟩
  refine ⟨hb, ?_⟩
  rw [h.2.1 hb]
  decide

/-- C25 (the code departs from the claim): the index holds two entries, the offsets 0 and
2 at the slots 59997 and 59998 (`late_index_userdata`, ring of 16 bytes, cursor at 14), and
an ordinary chunk of 6 bytes overwrites the offsets 14, 15, 0, 1, 2, 3. The scan evicts
both entries, then examines the unused slot 59999 at the write position as if it were an
entry (its 0 lies in the overwritten range) and moves on to slot 0, past the write
position; the index stands for 59999 entries afterwards, having stood for 2 before. -/
theorem C25_scan_moves_read_position_past_write_position :
    index_count late_index_userdata = 2 ∧
    ∃ r pData1, encoder_buffer_callback 60000 (plain_env 5 0 0)
        { userdata := some late_index_userdata, is_enabled := true }
        (frame_chunk [1, 2, 3, 4, 5, 6] false) initial_statics = some r ∧
      r.1.userdata = some pData1 ∧
      pData1.iframe_buff_rpos = 0 ∧ pData1.iframe_buff_wpos = 59999 ∧
      index_count pData1 = 59999 := by
  refine ⟨by decide, ?_⟩
  have hscan5 : evict 5
      (record_keyframe late_index_userdata (frame_chunk [1, 2, 3, 4, 5, 6] false)
        initial_statics.frame_start).1 (frame_chunk [1, 2, 3, 4, 5, 6] false).length
      = some { late_index_userdata with iframe_buff_rpos := 0 } := rfl
  obtain ⟨r, hr⟩ := circular_ordinary_returns 5 60000 (plain_env 5 0 0)
    { userdata := some late_index_userdata, is_enabled := true }
    (frame_chunk [1, 2, 3, 4, 5, 6] false) initial_statics late_index_userdata _
    (fun _ => 0) rfl rfl rfl rfl (by decide) (by decide) (by decide) (by decide) hscan5
    (by decide) (by decide)
  obtain ⟨pData2, h2, hud, _⟩ := callback_circular_ordinary 60000 (plain_env 5 0 0)
    { userdata := some late_index_userdata, is_enabled := true }
    (frame_chunk [1, 2, 3, 4, 5, 6] false) initial_statics late_index_userdata
    (fun _ => 0) r rfl rfl rfl rfl hr
  have h60 := evict_mono 5 60000 _ _ _ hscan5 (by decide)
  rw [h60] at h2
  cases h2
  exact ⟨r, _, hr, hud, rfl, rfl, by decide⟩

/-- C26 (the code departs from the claim): a ring of 4 bytes with the cursor at 0 and a
keyframe chunk of 9 bytes. The tail copy takes 4 bytes, the head copy takes the other
`9 - 4 = 5` bytes and stores them at the indices 0 to 4: the byte at index 4, the first one
beyond the ring, is overwritten with the last byte of the chunk. -/
theorem C26_long_chunk_is_written_beyond_ring :
    ring_dump 6 (some (fresh_circular_port 4, initial_statics, [])) =
      some (4, 0, [0, 0, 0, 0, 0, 0]) ∧
    ring_dump 6 (encoder_buffer_callback 2 (plain_env 5 0 0) (fresh_circular_port 4)
      (frame_chunk [0, 0, 0, 1, 5, 6, 7, 8, 9] true) initial_statics) =
      some (4, 1, [5, 6, 7, 8, 9, 0]) := by
  decide

/-- C27 (the code departs from the claim): a ring of 16 bytes and the keyframe chunks of
`straddling_run`. The third chunk is queued at offset 14 and occupies the offsets 14, 15,
0, 1 with `00 00 00 01`; the index then holds the offsets 5 and 14. The check of line 919
reads the indices 14, 15, 16, 17 for the second entry: run on two memories that agree on
every byte of the ring and differ at index 17 only, the callback logs `Error in iframe
list` on the one and not on the other. -/
theorem C27_start_code_check_reads_beyond_ring :
    (∀ i : Int, 0 ≤ i → i < 16 → (fun _ => 0 : Int → Nat) i = memory_one_at_17 i) ∧
    Event.vcos_log_error LogMsg.error_in_iframe_list ∈
      events_after (run_callbacks 4 straddling_run (circular_port_in (fun _ => 0))
        initial_statics) ∧
    Event.vcos_log_error LogMsg.error_in_iframe_list ∉
      events_after (run_callbacks 4 straddling_run (circular_port_in memory_one_at_17)
        initial_statics) ∧
    (context_after (run_callbacks 4 straddling_run (circular_port_in (fun _ => 0))
        initial_statics)).map
      (fun pData => (pData.cb_len, pData.iframe_buff_rpos, pData.iframe_buff_wpos,
        pData.iframe_buff 1, pData.iframe_buff 2)) = some (16, 1, 3, 5, 14) ∧
    ring_dump 18 (run_callbacks 4 straddling_run (circular_port_in (fun _ => 0))
        initial_statics) =
      some (16, 2, [0, 1, 0, 1, 170, 0, 0, 0, 1, 187, 187, 187, 187, 187, 0, 0, 0, 0]) := by
  refine ⟨?_, by decide, by decide, by decide, by decide⟩
  intro i _ h16
  simp only [memory_one_at_17]
  rw [if_neg (by omega)]

/-- C28 (the code departs from the claim): with a null userdata and the port enabled, each
of the three callbacks logs the missing state, releases the buffer and then reads
`pData->pstate` through the null pointer to reach the pool. With the port disabled the
read does not happen. -/
theorem C28_null_context_is_read_when_port_enabled :
    events_after (encoder_buffer_callback 1 (plain_env 5 0 0)
        { userdata := none, is_enabled := true } (frame_chunk [7] false) initial_statics) =
      [Event.vcos_log_error LogMsg.no_state, Event.mmal_buffer_header_release,
        Event.null_userdata_read] ∧
    (splitter_buffer_callback { fwrite_ret := 1, queue_get := true, send_ok := true }
        { userdata := none, is_enabled := true, width := 2, height := 2 }
        (frame_chunk [7] false)).2 =
      [SplitterEvent.log_no_state, SplitterEvent.mmal_buffer_header_release,
        SplitterEvent.null_userdata_read] ∧
    (encoder_buffer_callback_image image_env { userdata := none, is_enabled := true }
        (image_buffer [7] true)).2 =
      [ImageEvent.log_no_state, ImageEvent.mmal_buffer_header_release,
        ImageEvent.null_userdata_read] ∧
    events_after (encoder_buffer_callback 1 (plain_env 5 0 0)
        { userdata := none, is_enabled := false } (frame_chunk [7] false) initial_statics) =
      [Event.vcos_log_error LogMsg.no_state, Event.mmal_buffer_header_release] ∧
    (splitter_buffer_callback { fwrite_ret := 1, queue_get := true, send_ok := true }
        { userdata := none, is_enabled := false, width := 2, height := 2 }
        (frame_chunk [7] false)).2 =
      [SplitterEvent.log_no_state, SplitterEvent.mmal_buffer_header_release] ∧
    (encoder_buffer_callback_image image_env { userdata := none, is_enabled := false }
        (image_buffer [7] true)).2 =
      [ImageEvent.log_no_state, ImageEvent.mmal_buffer_header_release] := by
  decide

/-- C29 (the code departs from the claim): a capture into a buffer of 8 bytes is in flight
with 3 bytes stored, and `take_picture` is called again with a buffer of 4 bytes. The call
returns -1, but the port userdata has been replaced before the test: it designates the
context of the rejected call (capacity 4, offset 0), and the next chunk is stored at
offset 0 of the second caller's buffer instead of offset 3 of the first one's. -/
theorem C29_rejected_capture_replaces_port_context :
    port_context_summary inflight_port = some (8, 3, 3, [17, 17, 17, 0]) ∧
    (take_picture { pool := [], capture_ok := true, deliveries := [] } inflight_port
      (fun _ => 0) 4).status = some (-1) ∧
    port_context_summary (take_picture { pool := [], capture_ok := true, deliveries := [] }
      inflight_port (fun _ => 0) 4).port = some (4, 0, 0, [0, 0, 0, 0]) ∧
    port_context_summary (encoder_buffer_callback_image image_env
      (take_picture { pool := [], capture_ok := true, deliveries := [] } inflight_port
        (fun _ => 0) 4).port (image_buffer [99] false)).1 = some (4, 1, 1, [99, 0, 0, 0]) ∧
    port_context_summary (encoder_buffer_callback_image image_env inflight_port
      (image_buffer [99] false)).1 = some (8, 4, 4, [17, 17, 17, 99]) := by
  refine ⟨by decide, by decide, by decide, by decide, by decide⟩

/-! ## Lemmas on `cropRGB` -/

theorem crop_loop_spec (input_image : Int → Nat) (input_w output_w output_h cropX cropY : Int)
    (hw : 0 ≤ output_w) (n : Nat) :
    ∀ (fuel : Nat) (row out_ptr : Int) (output_image : Int → Nat),
      row + n = cropY + output_h → n < fuel →
      ∃ out, crop_loop input_image input_w output_w output_h cropX cropY fuel row out_ptr
          output_image = some out ∧
        (∀ r c k : Int, 0 ≤ r → r < n → 0 ≤ c → c < output_w → 0 ≤ k → k < 3 →
          out (out_ptr + (3 * (r * output_w + c) + k))
            = input_image (3 * ((row + r) * input_w + cropX + c) + k)) ∧
        (∀ j, j < out_ptr ∨ out_ptr + 3 * output_w * n ≤ j → out j = output_image j) := by
  induction n with
  | zero =>
    intro fuel row out_ptr output_image hrow hfuel
    obtain ⟨f, rfl⟩ : ∃ f, fuel = f + 1 := ⟨fuel - 1, by omega⟩
    refine ⟨output_image, ?_, ?_, fun _ _ => rfl⟩
    · simp only [crop_loop]
      rw [if_neg (by omega)]
    · intro r c k h0 h1
      exfalso
      simp only [Nat.cast_zero] at h1
      omega
  | succ m ih =>
    intro fuel row out_ptr output_image hrow hfuel
    obtain ⟨f, rfl⟩ : ∃ f, fuel = f + 1 := ⟨fuel - 1, by omega⟩
    have hlt : row < cropY + output_h := by
      push_cast at hrow
      omega
    obtain ⟨out, hout, hcontent, hkeep⟩ := ih f (row + 1)
      (if row ≠ cropY + output_h - 1 then out_ptr + 3 * output_w else out_ptr)
      (memcpy_from output_image out_ptr input_image (3 * (row * input_w + cropX))
        (3 * output_w))
      (by push_cast at hrow ⊢; omega) (by omega)
    refine ⟨out, ?_, ?_, ?_⟩
    · simp only [crop_loop]
      rw [if_pos hlt]
      exact hout
    · intro r c k hr0 hr1 hc0 hc1 hk0 hk1
      by_cases hr : r = 0
      · subst hr
        have hin : out_ptr ≤ out_ptr + (3 * (0 * output_w + c) + k) ∧
            out_ptr + (3 * (0 * output_w + c) + k) < out_ptr + 3 * output_w := by
          constructor <;> linarith
        have hout1 : out (out_ptr + (3 * (0 * output_w + c) + k))
            = memcpy_from output_image out_ptr input_image (3 * (row * input_w + cropX))
                (3 * output_w) (out_ptr + (3 * (0 * output_w + c) + k)) := by
          apply hkeep
          by_cases hlast : row ≠ cropY + output_h - 1
          · left
            rw [if_pos hlast]
            exact hin.2
          · right
            rw [if_neg hlast]
            have hm : (m : Int) = 0 := by
              push_cast at hrow
              omega
            rw [hm]
            linarith
        rw [hout1]
        simp only [memcpy_from]
        rw [if_pos hin]
        congr 1
        ring
      · have hr2 : 1 ≤ r := by omega
        have hnotlast : row ≠ cropY + output_h - 1 := by
          push_cast at hrow hr1
          omega
        rw [if_pos hnotlast] at hcontent
        have e1 : out_ptr + (3 * (r * output_w + c) + k)
            = out_ptr + 3 * output_w + (3 * ((r - 1) * output_w + c) + k) := by ring
        rw [e1, hcontent (r - 1) c k (by omega) (by push_cast at hr1; omega) hc0 hc1 hk0 hk1]
        congr 1
        ring
    · intro j hj
      have hm : 0 ≤ output_w * (m : Int) := mul_nonneg hw (Int.ofNat_nonneg m)
      have e2 : 3 * output_w * ((m + 1 : Nat) : Int) = 3 * output_w + 3 * (output_w * m) := by
        push_cast
        ring
      rw [e2] at hj
      have hout1 : out j
          = memcpy_from output_image out_ptr input_image (3 * (row * input_w + cropX))
              (3 * output_w) j := by
        apply hkeep
        by_cases hlast : row ≠ cropY + output_h - 1
        · rw [if_pos hlast]
          rcases hj with hj | hj
          · left
            linarith
          · right
            have e3 : 3 * output_w * (m : Int) = 3 * (output_w * m) := by ring
            rw [e3]
            linarith
        · rw [if_neg hlast]
          have hm0 : (m : Int) = 0 := by
            push_cast at hrow
            omega
          rw [hm0] at hj ⊢
          rcases hj with hj | hj
          · left
            exact hj
          · right
            linarith
      rw [hout1]
      simp only [memcpy_from]
      rw [if_neg]
      rintro ⟨h1, h2⟩
      rcases hj with hj | hj <;> linarith

/-- C30: `cropRGB` copies the requested window. For an input image of `input_w` by
`input_h` pixels of 3 bytes, `cropX, cropY ≥ 0` and `output_w, output_h ≥ 0` with
`cropX + output_w ≤ input_w` and `cropY + output_h ≤ input_h`, the call returns (any fuel
above `output_h` is enough) and afterwards output byte `3 * (r * output_w + c) + k` equals
input byte `3 * ((cropY + r) * input_w + cropX + c) + k` for every `r < output_h`,
`c < output_w`, `k < 3`; that input byte lies inside the input image; and no output byte at
an index `≥ 3 * output_w * output_h` (nor below 0) is changed. The input image is a
separate buffer that the function only reads. -/
theorem C30_crop_copies_requested_window (input_image output_image : Int → Nat)
    (input_w input_h output_w output_h cropX cropY : Int) (fuel : Nat)
    (hx : 0 ≤ cropX) (hy : 0 ≤ cropY) (hw : 0 ≤ output_w) (hh : 0 ≤ output_h)
    (hxw : cropX + output_w ≤ input_w) (hyh : cropY + output_h ≤ input_h)
    (hfuel : output_h < fuel) :
    ∃ out, cropRGB fuel input_image input_w input_h output_image output_w output_h cropX cropY
        = some out ∧
      (∀ r c k : Int, 0 ≤ r → r < output_h → 0 ≤ c → c < output_w → 0 ≤ k → k < 3 →
        out (3 * (r * output_w + c) + k)
          = input_image (3 * ((cropY + r) * input_w + cropX + c) + k) ∧
        0 ≤ 3 * ((cropY + r) * input_w + cropX + c) + k ∧
        3 * ((cropY + r) * input_w + cropX + c) + k < 3 * (input_w * input_h)) ∧
      (∀ j, j < 0 ∨ 3 * output_w * output_h ≤ j → out j = output_image j) := by
  obtain ⟨out, hout, hcontent, hkeep⟩ := crop_loop_spec input_image input_w output_w output_h
    cropX cropY hw output_h.toNat fuel cropY 0 output_image
    (by rw [Int.toNat_of_nonneg hh]) (by omega)
  rw [Int.toNat_of_nonneg hh] at hcontent hkeep
  refine ⟨out, hout, ?_, ?_⟩
  · intro r c k hr0 hr1 hc0 hc1 hk0 hk1
    have h := hcontent r c k hr0 hr1 hc0 hc1 hk0 hk1
    rw [zero_add] at h
    have hiw : 0 ≤ input_w := by omega
    have hrow0 : 0 ≤ (cropY + r) * input_w := mul_nonneg (by omega) hiw
    have hrow1 : (cropY + r + 1) * input_w ≤ input_h * input_w :=
      mul_le_mul_of_nonneg_right (by omega) hiw
    refine ⟨h, by linarith, ?_⟩
    nlinarith
  · intro j hj
    apply hkeep
    rcases hj with hj | hj
    · left
      exact hj
    · right
      linarith

/-- C30 at a concrete input: from the image of 3 by 2 pixels whose byte `i` is `i`, the
window of 2 by 1 pixels at column 1, row 1 is cropped into a zeroed output; the 6 output
bytes are the input bytes 12 to 17 and the byte at index 6 is still 0. -/
theorem C30_crop_copies_requested_window_witness :
    (cropRGB 2 index_image 3 2 (fun _ => 0) 2 1 1 1).map
        (fun out => [out 0, out 1, out 2, out 3, out 4, out 5, out 6])
      = some [12, 13, 14, 15, 16, 17, 0] ∧
    ∃ out, cropRGB 2 index_image 3 2 (fun _ => 0) 2 1 1 1 = some out ∧
      (∀ r c k : Int, 0 ≤ r → r < 1 → 0 ≤ c → c < 2 → 0 ≤ k → k < 3 →
        out (3 * (r * 2 + c) + k) = index_image (3 * ((1 + r) * 3 + 1 + c) + k) ∧
        0 ≤ 3 * ((1 + r) * 3 + 1 + c) + k ∧
        3 * ((1 + r) * 3 + 1 + c) + k < 3 * (3 * 2)) ∧
      (∀ j, j < 0 ∨ 3 * 2 * 1 ≤ j → out j = 0) :=
  ⟨by decide, C30_crop_copies_requested_window index_image (fun _ => 0) 3 2 2 1 1 1 2
    (by decide) (by decide) (by decide) (by decide) (by decide) (by decide) (by decide)⟩

/-! ## The claims C2 and C22 -/

/-- C2 (the code departs from the claim): after a keyframe of 5 bytes in a ring of 8 bytes
the cursor is at 5 and the index holds the offset 0, the state `one_entry_userdata`. A
keyframe chunk of 4 bytes (`w = 5 < C = 8`, `L = 4 ≤ C`) is to be written at the positions
5, 6, 7, 0. Its own offset 5 is queued first; the chunk covers the queued offsets 0 and 5
and the 0 held by every other slot, so the `while` condition of lines 896-901 holds at
every slot: the callback never gets to the `memcpy` of lines 905-909, it returns for no
amount of fuel and no byte of the chunk reaches the ring. -/
theorem C2_wrapping_keyframe_is_never_stored (fuel : Nat) :
    (context_after (run_callbacks 2 [(plain_env 5 0 0, frame_chunk [0, 0, 0, 1, 170] true)]
        (fresh_circular_port 8) initial_statics)).map
      (fun pData => (pData.cb_len, pData.cb_wptr, pData.iframe_buff_rpos,
        pData.iframe_buff_wpos, pData.iframe_buff 0))
      = some (one_entry_userdata.cb_len, one_entry_userdata.cb_wptr,
        one_entry_userdata.iframe_buff_rpos, one_entry_userdata.iframe_buff_wpos,
        one_entry_userdata.iframe_buff 0) ∧
    (0 ≤ one_entry_userdata.cb_wptr ∧ one_entry_userdata.cb_wptr < one_entry_userdata.cb_len ∧
      ((frame_chunk [0, 0, 0, 1] true).length : Int) ≤ one_entry_userdata.cb_len) ∧
    encoder_buffer_callback fuel (plain_env 5 0 0)
      { userdata := some one_entry_userdata, is_enabled := true }
      (frame_chunk [0, 0, 0, 1] true) initial_statics = none := by
  have hstuck : ∀ k, evict_cond
      { (record_keyframe one_entry_userdata (frame_chunk [0, 0, 0, 1] true)
          initial_statics.frame_start).1 with iframe_buff_rpos := k } 4 = true := by
    intro k
    by_cases hk : k = 1 <;>
      simp [evict_cond, record_keyframe, one_entry_userdata, zeroed_userdata, frame_chunk,
        initial_statics, hk]
  have hloop := evict_loop_stuck
    (record_keyframe one_entry_userdata (frame_chunk [0, 0, 0, 1] true)
      initial_statics.frame_start).1 4 hstuck fuel
  have hscan : evict fuel
      (record_keyframe one_entry_userdata (frame_chunk [0, 0, 0, 1] true)
        initial_statics.frame_start).1 (frame_chunk [0, 0, 0, 1] true).length = none := by
    have hguard : evict fuel
        (record_keyframe one_entry_userdata (frame_chunk [0, 0, 0, 1] true)
          initial_statics.frame_start).1 4
        = evict_loop fuel
          (record_keyframe one_entry_userdata (frame_chunk [0, 0, 0, 1] true)
            initial_statics.frame_start).1 4 := by
      unfold evict
      rw [if_pos (by decide)]
    exact hguard.trans hloop
  exact ⟨by decide, by decide,
    callback_none_of_scan_none fuel (plain_env 5 0 0)
      { userdata := some one_entry_userdata, is_enabled := true }
      (frame_chunk [0, 0, 0, 1] true) initial_statics one_entry_userdata (fun _ => 0)
      rfl rfl rfl rfl hscan⟩

/-- C22 (the code departs from the claim): a ring of 8 bytes and the two keyframe chunks
of 6 bytes of `wrapping_run`, processed from `cb_wptr = 0`. The first chunk leaves the
cursor at 6. The second one is to leave it at `12 mod 8 = 4`, but it covers the queued
offsets 0 and 6 and the 0 held by every other slot, so the `while` condition of lines
896-901 holds at every slot: the callback never gets to the update of line 914, and the
run returns for no amount of fuel. -/
theorem C22_cursor_not_advanced_when_scan_runs_on (fuel : Nat) :
    ring_summary (run_callbacks 2 [(plain_env 5 0 0, frame_chunk [0, 0, 0, 1, 170, 187] true)]
      (fresh_circular_port 8) initial_statics) = some (0, 6, 6) ∧
    (appended_bytes wrapping_run : Int) % 8 = 4 ∧
    run_callbacks fuel wrapping_run (fresh_circular_port 8) initial_statics = none := by
  refine ⟨by decide, by decide, ?_⟩
  simp only [wrapping_run, run_callbacks]
  cases h1 : encoder_buffer_callback fuel (plain_env 5 0 0) (fresh_circular_port 8)
      (frame_chunk [0, 0, 0, 1, 170, 187] true) initial_statics with
  | none => rfl
  | some r1 =>
    obtain ⟨port1, statics1, evs1⟩ := r1
    obtain ⟨pData2, h2, hud, hfs⟩ := callback_circular_ordinary fuel (plain_env 5 0 0)
      (fresh_circular_port 8) (frame_chunk [0, 0, 0, 1, 170, 187] true) initial_statics
      (zeroed_userdata 0 (some (fun _ => 0)) 8) (fun _ => 0) _ rfl rfl rfl rfl h1
    have hguard : evict fuel
        (record_keyframe (zeroed_userdata 0 (some (fun _ => 0)) 8)
          (frame_chunk [0, 0, 0, 1, 170, 187] true) initial_statics.frame_start).1
        (frame_chunk [0, 0, 0, 1, 170, 187] true).length
        = some (record_keyframe (zeroed_userdata 0 (some (fun _ => 0)) 8)
          (frame_chunk [0, 0, 0, 1, 170, 187] true) initial_statics.frame_start).1 := by
      unfold evict
      rw [if_neg (by decide)]
    rw [hguard] at h2
    cases h2
    simp only at hud hfs
    have hstart : statics1.frame_start = -1 := hfs
    have hstuck : ∀ k, evict_cond
        { (record_keyframe
            (ring_write (fun _ => 0)
              (record_keyframe (zeroed_userdata 0 (some (fun _ => 0)) 8)
                (frame_chunk [0, 0, 0, 1, 170, 187] true) initial_statics.frame_start).1
              (frame_chunk [0, 0, 0, 1, 170, 187] true))
            (frame_chunk [0, 0, 0, 1, 204, 221] true) (-1)).1 with iframe_buff_rpos := k } 6
        = true := by
      intro k
      have e1 : Int.tmod 6 8 = 6 := by decide
      have e2 : Int.tmod 1 60000 = 1 := by decide
      by_cases hk1 : k = 1
      · simp [evict_cond, record_keyframe, ring_write, zeroed_userdata, frame_chunk,
          initial_statics, MMAL_BUFFER_HEADER_T.length, IFRAME_BUFSIZE, hk1, e1, e2]
      · by_cases hk0 : k = 0 <;>
          simp [evict_cond, record_keyframe, ring_write, zeroed_userdata, frame_chunk,
            initial_statics, MMAL_BUFFER_HEADER_T.length, IFRAME_BUFSIZE, hk1, hk0, e1, e2]
    have hscan : evict fuel
        (record_keyframe
          (ring_write (fun _ => 0)
            (record_keyframe (zeroed_userdata 0 (some (fun _ => 0)) 8)
              (frame_chunk [0, 0, 0, 1, 170, 187] true) initial_statics.frame_start).1
            (frame_chunk [0, 0, 0, 1, 170, 187] true))
          (frame_chunk [0, 0, 0, 1, 204, 221] true) statics1.frame_start).1
        (frame_chunk [0, 0, 0, 1, 204, 221] true).length = none := by
      rw [hstart]
      have hg : ∀ p : PORT_USERDATA, (p.iframe_buff_rpos + 1).tmod IFRAME_BUFSIZE
          ≠ p.iframe_buff_wpos → evict fuel p 6 = evict_loop fuel p 6 := by
        intro p hp
        unfold evict
        rw [if_pos hp]
      exact (hg _ (by decide)).trans (evict_loop_stuck _ 6 hstuck fuel)
    have h2nd := callback_none_of_scan_none fuel (plain_env 5 0 0) port1
      (frame_chunk [0, 0, 0, 1, 204, 221] true) statics1 _ _ hud rfl rfl rfl hscan
    simp only [h2nd]

end Farvcam
